import Mathlib

/-!
# Slider, ScrollBar and ComponentPeer

A shallow embedding of the value handling of `juce_Slider.cpp` (`Slider::Pimpl`), of
`juce_ScrollBar.cpp`, and of the peer registry, the drag-and-drop methods and the key
dispatch of `juce_ComponentPeer.cpp`.  Doubles are modelled by exact rationals, C++ `int` by
unbounded integers, components and listeners by their addresses.  Painting, text boxes and
popup displays are left out: they never feed back into the state.  The calls that the peer
makes on components are recorded as events, in the order made.
-/

set_option linter.dupNamespace false
set_option linter.unusedVariables false

/-- Modelled from the spec: `jlimit (lowerLimit, upperLimit, valueToConstrain)` of juce_core,
the clamp of a value into `[lowerLimit, upperLimit]`. -/
def jlimit (lowerLimit upperLimit valueToConstrain : ℚ) : ℚ :=
  if valueToConstrain < lowerLimit then lowerLimit
  else if upperLimit < valueToConstrain then upperLimit
  else valueToConstrain

/-- Modelled from the spec: `roundToInt` of juce_core, the spec's `round`: the nearest integer. -/
def roundToInt (x : ℚ) : ℤ := round x

namespace Slider

/-- The slider styles tested by `juce_Slider.cpp`. -/
inductive SliderStyle where
  | LinearHorizontal
  | LinearVertical
  | LinearBar
  | Rotary
  | RotaryHorizontalDrag
  | RotaryVerticalDrag
  | IncDecButtons
  | TwoValueHorizontal
  | TwoValueVertical
  | ThreeValueHorizontal
  | ThreeValueVertical
  deriving DecidableEq, Repr

open SliderStyle

/-- The numeric state of `Slider::Pimpl`.  The three `Value` objects `currentValue`,
`valueMin`, `valueMax` are plain cells holding a number (a new `Value` reads as `0`); the
change callbacks they post to the message loop are not part of the call that assigns them.
`changeMessages` records every call of `triggerChangeMessage` with its `synchronous` flag,
oldest first. -/
structure Pimpl where
  style : SliderStyle
  lastCurrentValue : ℚ
  lastValueMin : ℚ
  lastValueMax : ℚ
  currentValue : ℚ
  valueMin : ℚ
  valueMax : ℚ
  minimum : ℚ
  maximum : ℚ
  interval : ℚ
  skewFactor : ℚ
  sliderRegionStart : ℤ
  sliderRegionSize : ℤ
  numDecimalPlaces : ℤ
  isVelocityBased : Bool
  userKeyOverridesVelocity : Bool
  changeMessages : List Bool
  deriving DecidableEq

/-- The constructor `Pimpl (owner, style, textBoxPosition)`. -/
def Pimpl.init (style : SliderStyle) : Pimpl :=
  { style := style
    lastCurrentValue := 0
    lastValueMin := 0
    lastValueMax := 0
    currentValue := 0
    valueMin := 0
    valueMax := 0
    minimum := 0
    maximum := 10
    interval := 0
    skewFactor := 1
    sliderRegionStart := 0
    sliderRegionSize := 1
    numDecimalPlaces := 7
    isVelocityBased := false
    userKeyOverridesVelocity := true
    changeMessages := [] }

/-- The test `style == TwoValueHorizontal || style == TwoValueVertical`. -/
def isTwoValue (s : Pimpl) : Bool :=
  s.style == TwoValueHorizontal || s.style == TwoValueVertical

/-- The test `style == ThreeValueHorizontal || style == ThreeValueVertical`. -/
def isThreeValue (s : Pimpl) : Bool :=
  s.style == ThreeValueHorizontal || s.style == ThreeValueVertical

/-- The first statement of `constrainedValue`: with a positive interval the value is moved to
`minimum + interval * floor ((value - minimum) / interval + 0.5)`. -/
def snappedValue (s : Pimpl) (value : ℚ) : ℚ :=
  if s.interval > 0 then
    s.minimum + s.interval * ((⌊(value - s.minimum) / s.interval + 1 / 2⌋ : ℤ) : ℚ)
  else value

/-- The method `Pimpl::constrainedValue`. -/
def constrainedValue (s : Pimpl) (value : ℚ) : ℚ :=
  let value := snappedValue s value
  if value ≤ s.minimum ∨ s.maximum ≤ s.minimum then s.minimum
  else if value ≥ s.maximum then s.maximum
  else value

/-- The method `Pimpl::getValue`. -/
def getValue (s : Pimpl) : ℚ := s.currentValue

/-- The method `Pimpl::getMinValue`. -/
def getMinValue (s : Pimpl) : ℚ := s.valueMin

/-- The method `Pimpl::getMaxValue`. -/
def getMaxValue (s : Pimpl) : ℚ := s.valueMax

/-- The method `Pimpl::triggerChangeMessage`. -/
def triggerChangeMessage (s : Pimpl) (synchronous : Bool) : Pimpl :=
  { s with changeMessages := s.changeMessages ++ [synchronous] }

/-- The method `Pimpl::setValue`. -/
def setValue (s : Pimpl) (newValue : ℚ) (sendUpdateMessage sendMessageSynchronously : Bool) :
    Pimpl :=
  let newValue := constrainedValue s newValue
  let newValue :=
    if isThreeValue s then jlimit s.valueMin s.valueMax newValue else newValue
  if newValue ≠ s.lastCurrentValue then
    let s := { s with lastCurrentValue := newValue }
    let s := if s.currentValue ≠ newValue then { s with currentValue := newValue } else s
    if sendUpdateMessage then triggerChangeMessage s sendMessageSynchronously else s
  else s

/-- The closing block `if (lastValueMin != newValue) { ... }` of `setMinValue`. -/
def storeMinValue (s : Pimpl) (newValue : ℚ) (sendUpdateMessage sendMessageSynchronously : Bool) :
    Pimpl :=
  if s.lastValueMin ≠ newValue then
    let s := { s with lastValueMin := newValue, valueMin := newValue }
    if sendUpdateMessage then triggerChangeMessage s sendMessageSynchronously else s
  else s

/-- The closing block `if (lastValueMax != newValue) { ... }` of `setMaxValue`. -/
def storeMaxValue (s : Pimpl) (newValue : ℚ) (sendUpdateMessage sendMessageSynchronously : Bool) :
    Pimpl :=
  if s.lastValueMax ≠ newValue then
    let s := { s with lastValueMax := newValue, valueMax := newValue }
    if sendUpdateMessage then triggerChangeMessage s sendMessageSynchronously else s
  else s

mutual

/-- The method `Pimpl::setMinValue`. -/
def setMinValue (s : Pimpl) (newValue : ℚ) (sendUpdateMessage sendMessageSynchronously : Bool)
    (allowNudgingOfOtherValues : Bool) : Pimpl :=
  let newValue := constrainedValue s newValue
  if isTwoValue s then
    let s :=
      if h : allowNudgingOfOtherValues = true ∧ newValue > s.valueMax then
        setMaxValue s newValue sendUpdateMessage sendMessageSynchronously false
      else s
    storeMinValue s (min s.valueMax newValue) sendUpdateMessage sendMessageSynchronously
  else
    let s :=
      if allowNudgingOfOtherValues = true ∧ newValue > s.lastCurrentValue then
        setValue s newValue sendUpdateMessage sendMessageSynchronously
      else s
    storeMinValue s (min s.lastCurrentValue newValue) sendUpdateMessage sendMessageSynchronously
termination_by (if allowNudgingOfOtherValues then 1 else 0)
decreasing_by simp [h.1]

/-- The method `Pimpl::setMaxValue`. -/
def setMaxValue (s : Pimpl) (newValue : ℚ) (sendUpdateMessage sendMessageSynchronously : Bool)
    (allowNudgingOfOtherValues : Bool) : Pimpl :=
  let newValue := constrainedValue s newValue
  if isTwoValue s then
    let s :=
      if h : allowNudgingOfOtherValues = true ∧ newValue < s.valueMin then
        setMinValue s newValue sendUpdateMessage sendMessageSynchronously false
      else s
    storeMaxValue s (max s.valueMin newValue) sendUpdateMessage sendMessageSynchronously
  else
    let s :=
      if allowNudgingOfOtherValues = true ∧ newValue < s.lastCurrentValue then
        setValue s newValue sendUpdateMessage sendMessageSynchronously
      else s
    storeMaxValue s (max s.lastCurrentValue newValue) sendUpdateMessage sendMessageSynchronously
termination_by (if allowNudgingOfOtherValues then 1 else 0)
decreasing_by simp [h.1]

end

/-- The method `Pimpl::setMinAndMaxValues`. -/
def setMinAndMaxValues (s : Pimpl) (newMinValue newMaxValue : ℚ)
    (sendUpdateMessage sendMessageSynchronously : Bool) : Pimpl :=
  let swapped : ℚ × ℚ :=
    if newMaxValue < newMinValue then (newMaxValue, newMinValue) else (newMinValue, newMaxValue)
  let newMinValue := constrainedValue s swapped.1
  let newMaxValue := constrainedValue s swapped.2
  if s.lastValueMax ≠ newMaxValue ∨ s.lastValueMin ≠ newMinValue then
    let s := { s with lastValueMax := newMaxValue, lastValueMin := newMinValue,
                      valueMin := newMinValue, valueMax := newMaxValue }
    if sendUpdateMessage then triggerChangeMessage s sendMessageSynchronously else s
  else s

/-- The cast `(int) x` of a double: truncation towards zero. -/
def truncToInt (x : ℚ) : ℤ := if 0 ≤ x then ⌊x⌋ else ⌈x⌉

/-- The loop `while ((v % 10) == 0) { --numDecimalPlaces; v /= 10; }` of `setRange`, run for
at most `fuel` iterations.  The result is the final `numDecimalPlaces`, or `none` when the
loop is still running after `fuel` iterations. -/
def decimalPlacesLoop : ℕ → ℕ → ℤ → Option ℤ
  | fuel, v, numDecimalPlaces =>
    if v % 10 = 0 then
      match fuel with
      | 0 => none
      | fuel + 1 => decimalPlacesLoop fuel (v / 10) (numDecimalPlaces - 1)
    else some numDecimalPlaces

/-- The block of `setRange` that works out `numDecimalPlaces` for the interval `newInt`:
`7` for a zero interval, otherwise the result of the loop started at
`v = abs ((int) (newInt * 10000000))`.  The loop is given `v` iterations, which is enough
whenever it exits at all; `none` stands for a loop that does not exit. -/
def decimalPlacesFor (newInt : ℚ) : Option ℤ :=
  if newInt ≠ 0 then
    let v := (truncToInt (newInt * 10000000)).natAbs
    decimalPlacesLoop v v 7
  else some 7

/-- The block of `setRange` under the comment "keep the current values inside the new
range". -/
def keepValuesInsideRange (s : Pimpl) : Pimpl :=
  if ¬ isTwoValue s then
    setValue s (getValue s) false false
  else
    let s := setMinValue s (getMinValue s) false false false
    setMaxValue s (getMaxValue s) false false false

/-- The method `Pimpl::setRange`.  The result is `none` when the decimal-places loop does not
exit. -/
def setRange (s : Pimpl) (newMin newMax newInt : ℚ) : Option Pimpl :=
  if s.minimum ≠ newMin ∨ s.maximum ≠ newMax ∨ s.interval ≠ newInt then
    match decimalPlacesFor newInt with
    | none => none
    | some n =>
      some (keepValuesInsideRange
        { s with minimum := newMin, maximum := newMax, interval := newInt,
                 numDecimalPlaces := n })
  else some s

/-- The method `Slider::proportionOfLengthToValue`; `exp` and `log` are the C library's
functions, used only when the skew factor is not `1`. -/
def proportionOfLengthToValue (exp log : ℚ → ℚ) (s : Pimpl) (proportion : ℚ) : ℚ :=
  let skew := s.skewFactor
  let proportion :=
    if skew ≠ 1 ∧ proportion > 0 then exp (log proportion / skew) else proportion
  s.minimum + (s.maximum - s.minimum) * proportion

/-- The method `Slider::valueToProportionOfLength`; `pow` is the C library's function, used
only when the skew factor is not `1`. -/
def valueToProportionOfLength (pow : ℚ → ℚ → ℚ) (s : Pimpl) (value : ℚ) : ℚ :=
  let n := (value - s.minimum) / (s.maximum - s.minimum)
  let skew := s.skewFactor
  if skew = 1 then n else pow n skew

/-- The position of a `MouseEvent`. -/
structure MouseEvent where
  x : ℤ
  y : ℤ
  deriving DecidableEq

/-- The method `Pimpl::isVertical`. -/
def isVertical (s : Pimpl) : Bool :=
  s.style == LinearVertical || s.style == TwoValueVertical || s.style == ThreeValueVertical

/-- The method `Pimpl::getLinearSliderPos`. -/
def getLinearSliderPos (pow : ℚ → ℚ → ℚ) (s : Pimpl) (value : ℚ) : ℚ :=
  let sliderPosProportional : ℚ :=
    if s.maximum > s.minimum then
      if value < s.minimum then 0
      else if value > s.maximum then 1
      else valueToProportionOfLength pow s value
    else 1 / 2
  let sliderPosProportional : ℚ :=
    if isVertical s = true ∨ s.style = IncDecButtons then 1 - sliderPosProportional
    else sliderPosProportional
  (s.sliderRegionStart : ℚ) + sliderPosProportional * (s.sliderRegionSize : ℚ)

/-- The distance `normalPosDistance` of `getThumbIndexAt`. -/
def normalPosDistance (pow : ℚ → ℚ → ℚ) (s : Pimpl) (e : MouseEvent) : ℚ :=
  |getLinearSliderPos pow s s.currentValue - ((if isVertical s then e.y else e.x : ℤ) : ℚ)|

/-- The distance `minPosDistance` of `getThumbIndexAt`. -/
def minPosDistance (pow : ℚ → ℚ → ℚ) (s : Pimpl) (e : MouseEvent) : ℚ :=
  |getLinearSliderPos pow s s.valueMin - 1 / 10 - ((if isVertical s then e.y else e.x : ℤ) : ℚ)|

/-- The distance `maxPosDistance` of `getThumbIndexAt`. -/
def maxPosDistance (pow : ℚ → ℚ → ℚ) (s : Pimpl) (e : MouseEvent) : ℚ :=
  |getLinearSliderPos pow s s.valueMax + 1 / 10 - ((if isVertical s then e.y else e.x : ℤ) : ℚ)|

/-- The method `Pimpl::getThumbIndexAt`. -/
def getThumbIndexAt (pow : ℚ → ℚ → ℚ) (s : Pimpl) (e : MouseEvent) : ℤ :=
  if isTwoValue s = true ∨ isThreeValue s = true then
    if isTwoValue s = true then
      if maxPosDistance pow s e ≤ minPosDistance pow s e then 2 else 1
    else if normalPosDistance pow s e ≥ minPosDistance pow s e
        ∧ maxPosDistance pow s e ≥ minPosDistance pow s e then 1
    else if normalPosDistance pow s e ≥ maxPosDistance pow s e then 2
    else 0
  else 0

/-- A three-value horizontal slider on the range `[0, 10]`, drawn on 100 pixels, with the
values `2`, `5` and `8`. -/
def threeValueSlider : Pimpl :=
  { Pimpl.init ThreeValueHorizontal with
    currentValue := 5, lastCurrentValue := 5, valueMin := 2, lastValueMin := 2,
    valueMax := 8, lastValueMax := 8, sliderRegionSize := 100 }

/-- The states a single-value slider reaches from its construction through `setRange` and
`setValue`. -/
inductive ReachableSingleValue : Pimpl → Prop
  | init (style : SliderStyle) :
      isTwoValue (Pimpl.init style) = false → isThreeValue (Pimpl.init style) = false →
      ReachableSingleValue (Pimpl.init style)
  | setRange {s s' : Pimpl} (newMin newMax newInt : ℚ) :
      ReachableSingleValue s → setRange s newMin newMax newInt = some s' →
      ReachableSingleValue s'
  | setValue {s : Pimpl} (newValue : ℚ) (sendUpdateMessage sendMessageSynchronously : Bool) :
      ReachableSingleValue s →
      ReachableSingleValue (setValue s newValue sendUpdateMessage sendMessageSynchronously)

/-- The exact condition under which constraining twice differs from constraining once: the
value is clamped to a maximum that itself snaps below the maximum. -/
def clampsToOffGridMaximum (s : Pimpl) (v : ℚ) : Prop :=
  0 < s.interval ∧ s.minimum < s.maximum ∧ s.maximum ≤ snappedValue s v
    ∧ snappedValue s s.maximum < s.maximum

instance (s : Pimpl) (v : ℚ) : Decidable (clampsToOffGridMaximum s v) := by
  unfold clampsToOffGridMaximum
  infer_instance

/-- The range is a whole number of intervals, or there is no interval, or no range. -/
def rangeIsWholeIntervals (s : Pimpl) : Prop :=
  s.interval ≤ 0 ∨ s.maximum ≤ s.minimum ∨ ∃ n : ℤ, s.maximum = s.minimum + s.interval * (n : ℚ)

/-- A slider of the given style with range `[0, 10]` and interval `3`. -/
def thirdsSlider (style : SliderStyle) : Pimpl :=
  { Pimpl.init style with maximum := 10, interval := 3, numDecimalPlaces := 0 }

/-- A slider of the given style with range `[0, 10]` and interval `1`. -/
def unitSlider (style : SliderStyle) : Pimpl :=
  { Pimpl.init style with maximum := 10, interval := 1, numDecimalPlaces := 0 }

/-- A two-value slider with range `[0, 10]`, no interval, min value `2` and max value `8`. -/
def twoEightSlider : Pimpl :=
  { Pimpl.init TwoValueHorizontal with
      valueMin := 2, lastValueMin := 2, valueMax := 8, lastValueMax := 8 }

/-- A two-value slider with range `[0, 10]`, interval `3`, min value `0` and max value `3`. -/
def thirdsTwoValueSlider : Pimpl :=
  { thirdsSlider TwoValueHorizontal with valueMax := 3, lastValueMax := 3 }

/-- A slider with range `[0, 10]` and interval `3` whose value is the maximum `10`. -/
def thirdsSliderAtMaximum : Pimpl :=
  { thirdsSlider LinearHorizontal with currentValue := 10, lastCurrentValue := 10 }

end Slider

namespace ScrollBar

/-- Modelled from the spec: the `Range<double>` type of juce_core, a pair of a start and an
end.  The constructor of the library keeps `start <= end`; on such ranges the operations
below are the library's. -/
structure Range where
  start : ℚ
  end_ : ℚ
  deriving DecidableEq

/-- Modelled from the spec: `Range::getLength`, the length `end - start`. -/
def Range.getLength (r : Range) : ℚ := r.end_ - r.start

/-- Modelled from the spec: `Range::movedToStartAt`, the range moved, its length kept, so
that it starts at `newStart`. -/
def Range.movedToStartAt (r : Range) (newStart : ℚ) : Range :=
  { start := newStart, end_ := r.end_ + (newStart - r.start) }

/-- Modelled from the spec: `Range::movedToEndAt`, the range moved, its length kept, so that
it ends at `newEnd`. -/
def Range.movedToEndAt (r : Range) (newEnd : ℚ) : Range :=
  { start := r.start + (newEnd - r.end_), end_ := newEnd }

/-- Modelled from the spec: `Range::operator+`, the range shifted by `amountToAdd`. -/
def Range.shifted (r : Range) (amountToAdd : ℚ) : Range :=
  { start := r.start + amountToAdd, end_ := r.end_ + amountToAdd }

/-- Modelled from the spec: `Range::constrainRange`.  Constraining a range into `total`
returns `total` when `total` is no longer than the range, and otherwise the range moved so
that its start is clamped into `[total.start, total.end - length]`. -/
def Range.constrainRange (total rangeToConstrain : Range) : Range :=
  let otherLen := rangeToConstrain.getLength
  if total.getLength ≤ otherLen then total
  else rangeToConstrain.movedToStartAt
        (jlimit total.start (total.end_ - otherLen) rangeToConstrain.start)

/-- The position of a `MouseEvent`. -/
structure MouseEvent where
  x : ℤ
  y : ℤ
  deriving DecidableEq

/-- The scroll amounts of a `MouseWheelDetails`. -/
structure MouseWheelDetails where
  deltaX : ℚ
  deltaY : ℚ
  deriving DecidableEq

/-- The state of a `ScrollBar`.  Besides the members of the class it holds what the class
reads from its surroundings: the look-and-feel's minimum thumb size, whether the two buttons
exist, the component's visibility, the running timer's interval and the number of
`triggerAsyncUpdate` calls so far. -/
structure ScrollBar where
  totalRange : Range
  visibleRange : Range
  singleStepSize : ℚ
  thumbAreaStart : ℤ
  thumbAreaSize : ℤ
  thumbStart : ℤ
  thumbSize : ℤ
  vertical : Bool
  isDraggingThumb : Bool
  autohides : Bool
  lastMousePos : ℤ
  dragStartMousePos : ℤ
  dragStartRange : ℚ
  minimumScrollbarThumbSize : ℤ
  hasButtons : Bool
  visible : Bool
  timer : Option ℕ
  asyncUpdates : ℕ
  deriving DecidableEq

/-- The method `ScrollBar::updateThumbPosition`. -/
def updateThumbPosition (sb : ScrollBar) : ScrollBar :=
  let newThumbSize : ℤ :=
    roundToInt (if sb.totalRange.getLength > 0
      then (sb.visibleRange.getLength * (sb.thumbAreaSize : ℚ)) / sb.totalRange.getLength
      else (sb.thumbAreaSize : ℚ))
  let newThumbSize : ℤ :=
    if newThumbSize < sb.minimumScrollbarThumbSize
      then min sb.minimumScrollbarThumbSize (sb.thumbAreaSize - 1)
      else newThumbSize
  let newThumbSize : ℤ :=
    if newThumbSize > sb.thumbAreaSize then sb.thumbAreaSize else newThumbSize
  let newThumbStart : ℤ :=
    if sb.totalRange.getLength > sb.visibleRange.getLength
      then sb.thumbAreaStart
        + roundToInt (((sb.visibleRange.start - sb.totalRange.start)
              * ((sb.thumbAreaSize - newThumbSize : ℤ) : ℚ))
            / (sb.totalRange.getLength - sb.visibleRange.getLength))
      else sb.thumbAreaStart
  let sb := { sb with
    visible := (! sb.autohides)
      || (decide (sb.totalRange.getLength > sb.visibleRange.getLength)
            && decide (sb.visibleRange.getLength > 0)) }
  if sb.thumbStart ≠ newThumbStart ∨ sb.thumbSize ≠ newThumbSize then
    { sb with thumbStart := newThumbStart, thumbSize := newThumbSize }
  else sb

/-- The constructor `ScrollBar (vertical, buttonsAreVisible)`, which ends in
`updateThumbPosition` through `setButtonVisibility`.  The members it leaves uninitialised are
arguments here; the visibility is set by `updateThumbPosition`. -/
def ScrollBar.init (vertical buttonsAreVisible : Bool) (minimumScrollbarThumbSize : ℤ)
    (lastMousePos dragStartMousePos : ℤ) (dragStartRange : ℚ) : ScrollBar :=
  updateThumbPosition
    { totalRange := { start := 0, end_ := 1 }
      visibleRange := { start := 0, end_ := 1 / 10 }
      singleStepSize := 1 / 10
      thumbAreaStart := 0
      thumbAreaSize := 0
      thumbStart := 0
      thumbSize := 0
      vertical := vertical
      isDraggingThumb := false
      autohides := true
      lastMousePos := lastMousePos
      dragStartMousePos := dragStartMousePos
      dragStartRange := dragStartRange
      minimumScrollbarThumbSize := minimumScrollbarThumbSize
      hasButtons := buttonsAreVisible
      visible := false
      timer := none
      asyncUpdates := 0 }

/-- The call `triggerAsyncUpdate ()`. -/
def triggerAsyncUpdate (sb : ScrollBar) : ScrollBar :=
  { sb with asyncUpdates := sb.asyncUpdates + 1 }

/-- The method `ScrollBar::setCurrentRange (const Range<double>&)`. -/
def setCurrentRange (sb : ScrollBar) (newRange : Range) : ScrollBar :=
  let constrainedRange := sb.totalRange.constrainRange newRange
  if sb.visibleRange ≠ constrainedRange then
    triggerAsyncUpdate (updateThumbPosition { sb with visibleRange := constrainedRange })
  else sb

/-- The method `ScrollBar::setRangeLimits (const Range<double>&)`. -/
def setRangeLimits (sb : ScrollBar) (newRangeLimit : Range) : ScrollBar :=
  if sb.totalRange ≠ newRangeLimit then
    let sb := { sb with totalRange := newRangeLimit }
    updateThumbPosition (setCurrentRange sb sb.visibleRange)
  else sb

/-- The method `ScrollBar::setCurrentRangeStart`. -/
def setCurrentRangeStart (sb : ScrollBar) (newStart : ℚ) : ScrollBar :=
  setCurrentRange sb (sb.visibleRange.movedToStartAt newStart)

/-- The method `ScrollBar::setSingleStepSize`. -/
def setSingleStepSize (sb : ScrollBar) (newSingleStepSize : ℚ) : ScrollBar :=
  { sb with singleStepSize := newSingleStepSize }

/-- The method `ScrollBar::moveScrollbarInSteps`. -/
def moveScrollbarInSteps (sb : ScrollBar) (howManySteps : ℤ) : ScrollBar :=
  setCurrentRange sb (sb.visibleRange.shifted ((howManySteps : ℚ) * sb.singleStepSize))

/-- The method `ScrollBar::moveScrollbarInPages`. -/
def moveScrollbarInPages (sb : ScrollBar) (howManyPages : ℤ) : ScrollBar :=
  setCurrentRange sb (sb.visibleRange.shifted ((howManyPages : ℚ) * sb.visibleRange.getLength))

/-- The method `ScrollBar::scrollToTop`. -/
def scrollToTop (sb : ScrollBar) : ScrollBar :=
  setCurrentRange sb (sb.visibleRange.movedToStartAt sb.totalRange.start)

/-- The method `ScrollBar::scrollToBottom`. -/
def scrollToBottom (sb : ScrollBar) : ScrollBar :=
  setCurrentRange sb (sb.visibleRange.movedToEndAt sb.totalRange.end_)

/-- The method `ScrollBar::setOrientation`; the buttons' directions are not modelled. -/
def setOrientation (sb : ScrollBar) (shouldBeVertical : Bool) : ScrollBar :=
  if sb.vertical ≠ shouldBeVertical then
    updateThumbPosition { sb with vertical := shouldBeVertical }
  else sb

/-- The method `ScrollBar::setButtonVisibility`. -/
def setButtonVisibility (sb : ScrollBar) (buttonsAreVisible : Bool) : ScrollBar :=
  updateThumbPosition { sb with hasButtons := buttonsAreVisible }

/-- The method `ScrollBar::setAutoHide`. -/
def setAutoHide (sb : ScrollBar) (shouldHideWhenFullRange : Bool) : ScrollBar :=
  updateThumbPosition { sb with autohides := shouldHideWhenFullRange }

/-- The method `ScrollBar::resized`, for a component of the given `length` along the bar and
a look-and-feel button size `scrollbarButtonSize`. -/
def resized (sb : ScrollBar) (length scrollbarButtonSize : ℤ) : ScrollBar :=
  let buttonSize : ℤ := if sb.hasButtons then min scrollbarButtonSize (length.tdiv 2) else 0
  let sb :=
    if length < 32 + sb.minimumScrollbarThumbSize then
      { sb with thumbAreaStart := length.tdiv 2, thumbAreaSize := 0 }
    else
      { sb with thumbAreaStart := buttonSize, thumbAreaSize := length - 2 * buttonSize }
  updateThumbPosition sb

/-- The call `startTimer (intervalInMilliseconds)`. -/
def startTimer (sb : ScrollBar) (intervalInMilliseconds : ℕ) : ScrollBar :=
  { sb with timer := some intervalInMilliseconds }

/-- The call `stopTimer ()`. -/
def stopTimer (sb : ScrollBar) : ScrollBar :=
  { sb with timer := none }

/-- The method `ScrollBar::mouseDown`. -/
def mouseDown (sb : ScrollBar) (e : MouseEvent) : ScrollBar :=
  let pos : ℤ := if sb.vertical then e.y else e.x
  let sb := { sb with isDraggingThumb := false, lastMousePos := pos, dragStartMousePos := pos,
                      dragStartRange := sb.visibleRange.start }
  if sb.dragStartMousePos < sb.thumbStart then
    startTimer (moveScrollbarInPages sb (-1)) 400
  else if sb.dragStartMousePos ≥ sb.thumbStart + sb.thumbSize then
    startTimer (moveScrollbarInPages sb 1) 400
  else
    { sb with isDraggingThumb :=
        decide (sb.thumbAreaSize > sb.minimumScrollbarThumbSize)
          && decide (sb.thumbAreaSize > sb.thumbSize) }

/-- The method `ScrollBar::mouseDrag`. -/
def mouseDrag (sb : ScrollBar) (e : MouseEvent) : ScrollBar :=
  let mousePos : ℤ := if sb.vertical then e.y else e.x
  let sb :=
    if sb.isDraggingThumb = true ∧ sb.lastMousePos ≠ mousePos then
      let deltaPixels : ℤ := mousePos - sb.dragStartMousePos
      setCurrentRangeStart sb
        (sb.dragStartRange
          + (deltaPixels : ℚ) * (sb.totalRange.getLength - sb.visibleRange.getLength)
              / ((sb.thumbAreaSize - sb.thumbSize : ℤ) : ℚ))
    else sb
  { sb with lastMousePos := mousePos }

/-- The method `ScrollBar::mouseUp`. -/
def mouseUp (sb : ScrollBar) : ScrollBar :=
  stopTimer { sb with isDraggingThumb := false }

/-- The method `ScrollBar::mouseWheelMove`. -/
def mouseWheelMove (sb : ScrollBar) (wheel : MouseWheelDetails) : ScrollBar :=
  let increment : ℚ := 10 * (if sb.vertical then wheel.deltaY else wheel.deltaX)
  let increment : ℚ :=
    if increment < 0 then min increment (-1)
    else if increment > 0 then max increment 1
    else increment
  setCurrentRange sb (sb.visibleRange.shifted (-(sb.singleStepSize * increment)))

/-- The method `ScrollBar::timerCallback`; `isMouseButtonDown` is the component's answer. -/
def timerCallback (sb : ScrollBar) (isMouseButtonDown : Bool) : ScrollBar :=
  if isMouseButtonDown then
    let sb := startTimer sb 40
    if sb.lastMousePos < sb.thumbStart then
      setCurrentRange sb (sb.visibleRange.shifted (-sb.visibleRange.getLength))
    else if sb.lastMousePos > sb.thumbStart + sb.thumbSize then
      setCurrentRangeStart sb sb.visibleRange.end_
    else sb
  else stopTimer sb

/-- The visible range lies inside the total range. -/
def visibleWithinTotal (sb : ScrollBar) : Prop :=
  sb.totalRange.start ≤ sb.visibleRange.start ∧ sb.visibleRange.end_ ≤ sb.totalRange.end_

instance (sb : ScrollBar) : Decidable (visibleWithinTotal sb) := by
  unfold visibleWithinTotal
  infer_instance

/-- The states a scroll bar reaches from its construction through its mutators and its mouse
and timer callbacks. -/
inductive Reachable : ScrollBar → Prop
  | init (vertical buttonsAreVisible : Bool) (minimumScrollbarThumbSize : ℤ)
      (lastMousePos dragStartMousePos : ℤ) (dragStartRange : ℚ) :
      Reachable (ScrollBar.init vertical buttonsAreVisible minimumScrollbarThumbSize
        lastMousePos dragStartMousePos dragStartRange)
  | setRangeLimits {sb : ScrollBar} (r : Range) :
      Reachable sb → Reachable (setRangeLimits sb r)
  | setCurrentRange {sb : ScrollBar} (r : Range) :
      Reachable sb → Reachable (setCurrentRange sb r)
  | setCurrentRangeStart {sb : ScrollBar} (newStart : ℚ) :
      Reachable sb → Reachable (setCurrentRangeStart sb newStart)
  | setSingleStepSize {sb : ScrollBar} (x : ℚ) :
      Reachable sb → Reachable (setSingleStepSize sb x)
  | moveScrollbarInSteps {sb : ScrollBar} (n : ℤ) :
      Reachable sb → Reachable (moveScrollbarInSteps sb n)
  | moveScrollbarInPages {sb : ScrollBar} (n : ℤ) :
      Reachable sb → Reachable (moveScrollbarInPages sb n)
  | scrollToTop {sb : ScrollBar} : Reachable sb → Reachable (scrollToTop sb)
  | scrollToBottom {sb : ScrollBar} : Reachable sb → Reachable (scrollToBottom sb)
  | setOrientation {sb : ScrollBar} (b : Bool) : Reachable sb → Reachable (setOrientation sb b)
  | setButtonVisibility {sb : ScrollBar} (b : Bool) :
      Reachable sb → Reachable (setButtonVisibility sb b)
  | setAutoHide {sb : ScrollBar} (b : Bool) : Reachable sb → Reachable (setAutoHide sb b)
  | resized {sb : ScrollBar} (length scrollbarButtonSize : ℤ) :
      Reachable sb → Reachable (resized sb length scrollbarButtonSize)
  | mouseDown {sb : ScrollBar} (e : MouseEvent) : Reachable sb → Reachable (mouseDown sb e)
  | mouseDrag {sb : ScrollBar} (e : MouseEvent) : Reachable sb → Reachable (mouseDrag sb e)
  | mouseUp {sb : ScrollBar} : Reachable sb → Reachable (mouseUp sb)
  | mouseWheelMove {sb : ScrollBar} (wheel : MouseWheelDetails) :
      Reachable sb → Reachable (mouseWheelMove sb wheel)
  | timerCallback {sb : ScrollBar} (isMouseButtonDown : Bool) :
      Reachable sb → Reachable (timerCallback sb isMouseButtonDown)

/-- A new horizontal scroll bar without buttons, given `setRangeLimits` with `[0, 100]` and
then `setCurrentRange` with `[0, 10]`. -/
def hundredBar : ScrollBar :=
  setCurrentRange
    (setRangeLimits (ScrollBar.init false false 0 0 0 0) { start := 0, end_ := 100 })
    { start := 0, end_ := 10 }

/-- The value of the local `newThumbSize` of `updateThumbPosition` at the comparison with the
old thumb size. -/
def newThumbSize (sb : ScrollBar) : ℤ :=
  let newThumbSize : ℤ :=
    roundToInt (if sb.totalRange.getLength > 0
      then (sb.visibleRange.getLength * (sb.thumbAreaSize : ℚ)) / sb.totalRange.getLength
      else (sb.thumbAreaSize : ℚ))
  let newThumbSize : ℤ :=
    if newThumbSize < sb.minimumScrollbarThumbSize
      then min sb.minimumScrollbarThumbSize (sb.thumbAreaSize - 1)
      else newThumbSize
  if newThumbSize > sb.thumbAreaSize then sb.thumbAreaSize else newThumbSize

/-- The value of the local `newThumbStart` of `updateThumbPosition` at the comparison with
the old thumb start. -/
def newThumbStart (sb : ScrollBar) : ℤ :=
  if sb.totalRange.getLength > sb.visibleRange.getLength
    then sb.thumbAreaStart
      + roundToInt (((sb.visibleRange.start - sb.totalRange.start)
            * ((sb.thumbAreaSize - newThumbSize sb : ℤ) : ℚ))
          / (sb.totalRange.getLength - sb.visibleRange.getLength))
    else sb.thumbAreaStart

/-- A scroll bar with the total range `[0, 100]` and the visible range `[0, 50]` whose track
is 10 pixels long, with a look-and-feel minimum thumb size of 10: the track left between two
buttons of 16 pixels on a bar of 42 pixels. -/
def crampedBar : ScrollBar :=
  { totalRange := { start := 0, end_ := 100 }
    visibleRange := { start := 0, end_ := 50 }
    singleStepSize := 1 / 10
    thumbAreaStart := 16
    thumbAreaSize := 10
    thumbStart := 16
    thumbSize := 0
    vertical := false
    isDraggingThumb := false
    autohides := true
    lastMousePos := 0
    dragStartMousePos := 0
    dragStartRange := 0
    minimumScrollbarThumbSize := 10
    hasButtons := true
    visible := true
    timer := none
    asyncUpdates := 0 }

/-- A horizontal scroll bar without buttons, 200 pixels long, with the total range `[0, 100]`
and the visible range `[0, 10]`, its thumb on the pixels 0 to 19. -/
def longBar : ScrollBar :=
  { totalRange := { start := 0, end_ := 100 }
    visibleRange := { start := 0, end_ := 10 }
    singleStepSize := 1 / 10
    thumbAreaStart := 0
    thumbAreaSize := 200
    thumbStart := 0
    thumbSize := 20
    vertical := false
    isDraggingThumb := false
    autohides := true
    lastMousePos := 0
    dragStartMousePos := 0
    dragStartRange := 0
    minimumScrollbarThumbSize := 0
    hasButtons := false
    visible := true
    timer := none
    asyncUpdates := 0 }

/-- The state of `longBar` after a press at the pixel 40: the visible range is `[10, 20]`,
the thumb is on the pixels 20 to 39 and the timer runs at 400 ms. -/
def longBarPressed : ScrollBar :=
  { longBar with
    visibleRange := { start := 10, end_ := 20 }
    thumbStart := 20
    lastMousePos := 40
    dragStartMousePos := 40
    timer := some 400
    asyncUpdates := 1 }

end ScrollBar

namespace ComponentPeer

/-- A `Component*`: a component is known by its address. -/
abbrev Component := ℕ

/-- A `KeyListener*`. -/
abbrev KeyListener := ℕ

/-! ### The list of peers -/

/-- The file-level statics `heavyweightPeers` and `lastUniqueID`, with the members
`component` and `uniqueID` of the peer object at each address and the number of
`Desktop::triggerFocusCallback` calls.  A `ComponentPeer*` is an address. -/
structure PeerRegistry where
  heavyweightPeers : List ℕ
  lastUniqueID : ℕ
  component : ℕ → Component
  uniqueID : ℕ → ℕ
  focusCallbacks : ℕ

/-- The statics before any peer exists: an empty array and `lastUniqueID = 1`. -/
def PeerRegistry.init : PeerRegistry :=
  { heavyweightPeers := []
    lastUniqueID := 1
    component := fun _ => 0
    uniqueID := fun _ => 0
    focusCallbacks := 0 }

/-- The constructor `ComponentPeer (component_, styleFlags_)` run for the object at address
`this`: `uniqueID (lastUniqueID += 2)` on a `uint32`, then `heavyweightPeers.add (this)`. -/
def construct (r : PeerRegistry) (this : ℕ) (component_ : Component) : PeerRegistry :=
  let lastUniqueID := (r.lastUniqueID + 2) % 2 ^ 32
  { r with
    lastUniqueID := lastUniqueID
    component := fun p => if p = this then component_ else r.component p
    uniqueID := fun p => if p = this then lastUniqueID else r.uniqueID p
    heavyweightPeers := r.heavyweightPeers ++ [this] }

/-- The destructor `~ComponentPeer` run for the object at address `this`:
`heavyweightPeers.removeValue (this)`, which takes out the first element equal to `this`,
then `triggerFocusCallback`. -/
def destroy (r : PeerRegistry) (this : ℕ) : PeerRegistry :=
  { r with
    heavyweightPeers := r.heavyweightPeers.erase this
    focusCallbacks := r.focusCallbacks + 1 }

/-- The method `ComponentPeer::getNumPeers`. -/
def getNumPeers (r : PeerRegistry) : ℕ := r.heavyweightPeers.length

/-- The method `ComponentPeer::getPeer`: `heavyweightPeers [index]`, null outside the array. -/
def getPeer (r : PeerRegistry) (index : ℤ) : Option ℕ :=
  if 0 ≤ index then r.heavyweightPeers.get? index.toNat else none

/-- The loop of `getPeerFor` from index `i` downwards: `for (...; --i >= 0;)`. -/
def getPeerForFrom (r : PeerRegistry) (component : Component) : ℕ → Option ℕ
  | 0 => none
  | i + 1 =>
    match r.heavyweightPeers.get? i with
    | some peer => if r.component peer = component then some peer
                   else getPeerForFrom r component i
    | none => getPeerForFrom r component i

/-- The method `ComponentPeer::getPeerFor`. -/
def getPeerFor (r : PeerRegistry) (component : Component) : Option ℕ :=
  getPeerForFrom r component r.heavyweightPeers.length

/-- The method `ComponentPeer::isValidPeer`. -/
def isValidPeer (r : PeerRegistry) (peer : ℕ) : Bool := r.heavyweightPeers.contains peer

/-- The registries reached from the initial statics by constructing peers at addresses that
hold no live peer and destroying live peers, together with the set of addresses of the live
peers and the number of peers constructed so far. -/
inductive PeersReachable : PeerRegistry → Finset ℕ → ℕ → Prop
  | init : PeersReachable PeerRegistry.init ∅ 0
  | construct {r : PeerRegistry} {live : Finset ℕ} {n : ℕ} (this : ℕ) (component_ : Component) :
      PeersReachable r live n → this ∉ live →
      PeersReachable (construct r this component_) (insert this live) (n + 1)
  | destroy {r : PeerRegistry} {live : Finset ℕ} {n : ℕ} (this : ℕ) :
      PeersReachable r live n → this ∈ live →
      PeersReachable (destroy r this) (live.erase this) n

/-! ### Drag and drop -/

/-- A `Point<int>`. -/
structure Point where
  x : ℤ
  y : ℤ
  deriving DecidableEq, Repr

/-- The struct `ComponentPeer::DragInfo`. -/
structure DragInfo where
  files : List String
  text : String
  position : Point
  deriving DecidableEq

/-- What the drag methods ask of the components of the peer: the parent of a component,
whether a component is a `FileDragAndDropTarget` or a `TextDragAndDropTarget` (the two
`dynamic_cast` tests), its answers to `isInterestedInFileDrag` and `isInterestedInTextDrag`,
the hit test `component->getComponentAt`, the conversion `getLocalPoint (component, p)`, and
the answer of `isCurrentlyBlockedByAnotherModalComponent` before and after
`internalModalInputAttempt`.  The drag callbacks themselves are recorded as events; what
they do to the components is not part of a call. -/
structure ComponentTree where
  getParentComponent : Component → Option Component
  isFileDragAndDropTarget : Component → Bool
  isTextDragAndDropTarget : Component → Bool
  isInterestedInFileDrag : Component → List String → Bool
  isInterestedInTextDrag : Component → String → Bool
  getComponentAt : Point → Option Component
  getLocalPoint : Component → Point → Point
  isCurrentlyBlockedByAnotherModalComponent : Component → Bool
  isBlockedAfterModalInputAttempt : Component → Bool

/-- The members `dragAndDropTargetComponent` and `lastDragAndDropCompUnderMouse` of a peer. -/
structure DragState where
  dragAndDropTargetComponent : Option Component
  lastDragAndDropCompUnderMouse : Option Component
  deriving DecidableEq

/-- The calls a drag method makes on components, in the order made. -/
inductive DragEvent where
  | isInterestedInFileDrag (target : Component) (files : List String)
  | isInterestedInTextDrag (target : Component) (text : String)
  | fileDragEnter (target : Component) (files : List String) (x y : ℤ)
  | fileDragMove (target : Component) (files : List String) (x y : ℤ)
  | fileDragExit (target : Component) (files : List String)
  | textDragEnter (target : Component) (text : String) (x y : ℤ)
  | textDragMove (target : Component) (text : String) (x y : ℤ)
  | textDragExit (target : Component) (text : String)
  | internalModalInputAttempt (target : Component)
  | postAsyncDropMessage (target : Component) (info : DragInfo)
  deriving DecidableEq

/-- The ways a drag method fails to return: the parent walk is still running when the fuel
is used up, or a method is called through the null result of a `dynamic_cast`. -/
inductive Failure where
  | outOfFuel
  | nullPointerCall
  deriving DecidableEq, Repr

/-- What a drag method returns and leaves behind: its result, the drag members of the peer,
the calls it made and whether its `jassert` held. -/
structure DragResult where
  returned : Bool
  state : DragState
  events : List DragEvent
  jassertHeld : Bool
  deriving DecidableEq

/-- Whether an event is one of the two `isInterestedIn...` queries. -/
def DragEvent.isInterestQuery : DragEvent → Bool
  | .isInterestedInFileDrag _ _ => true
  | .isInterestedInTextDrag _ _ => true
  | _ => false

/-- Whether an event is an `internalModalInputAttempt` call. -/
def DragEvent.isModalInputAttempt : DragEvent → Bool
  | .internalModalInputAttempt _ => true
  | _ => false

/-- Whether an event is the posting of an `AsyncDropMessage`. -/
def DragEvent.isDropMessage : DragEvent → Bool
  | .postAsyncDropMessage _ _ => true
  | _ => false

/-- The function `DragHelpers::isFileDrag`. -/
def isFileDrag (info : DragInfo) : Bool := decide (info.files.length > 0)

/-- The function `DragHelpers::isSuitableTarget`; a `dynamic_cast` of null is null. -/
def isSuitableTarget (t : ComponentTree) (info : DragInfo) (target : Option Component) : Bool :=
  match target with
  | none => false
  | some c => if isFileDrag info then t.isFileDragAndDropTarget c else t.isTextDragAndDropTarget c

/-- The function `DragHelpers::isInterested`, called on suitable targets only. -/
def isInterested (t : ComponentTree) (info : DragInfo) (target : Component) : Bool :=
  if isFileDrag info then t.isInterestedInFileDrag target info.files
  else t.isInterestedInTextDrag target info.text

/-- The query made by `DragHelpers::isInterested`. -/
def interestQuery (info : DragInfo) (target : Component) : DragEvent :=
  if isFileDrag info then .isInterestedInFileDrag target info.files
  else .isInterestedInTextDrag target info.text

/-- The function `DragHelpers::findDragAndDropTarget`, with the queries it makes. -/
def findDragAndDropTarget (t : ComponentTree) :
    ℕ → Option Component → DragInfo → Option Component →
      Except Failure (Option Component × List DragEvent)
  | _, none, _, _ => .ok (none, [])
  | 0, some _, _, _ => .error .outOfFuel
  | fuel + 1, some c, info, lastOne =>
    if isSuitableTarget t info (some c) then
      if some c = lastOne then .ok (some c, [])
      else if isInterested t info c then .ok (some c, [interestQuery info c])
      else
        match findDragAndDropTarget t fuel (t.getParentComponent c) info lastOne with
        | .ok (found, queries) => .ok (found, interestQuery info c :: queries)
        | .error e => .error e
    else findDragAndDropTarget t fuel (t.getParentComponent c) info lastOne

/-- The call `...DragExit` made on `target` in `handleDragMove`. -/
def dragExitEvent (info : DragInfo) (target : Component) : DragEvent :=
  if isFileDrag info then .fileDragExit target info.files
  else .textDragExit target info.text

/-- The call `...DragEnter` made on `target` in `handleDragMove`. -/
def dragEnterEvent (info : DragInfo) (target : Component) (pos : Point) : DragEvent :=
  if isFileDrag info then .fileDragEnter target info.files pos.x pos.y
  else .textDragEnter target info.text pos.x pos.y

/-- The call `...DragMove` made on `target` in `handleDragMove`. -/
def dragMoveEvent (info : DragInfo) (target : Component) (pos : Point) : DragEvent :=
  if isFileDrag info then .fileDragMove target info.files pos.x pos.y
  else .textDragMove target info.text pos.x pos.y

/-- The block `if (lastTarget != nullptr) { ... DragExit ... }` of `handleDragMove`: the exit
is called through `dynamic_cast <...*> (lastTarget)`, which is null when `lastTarget` is not a
target of the drag's kind. -/
def exitLastTarget (t : ComponentTree) (info : DragInfo) (lastTarget : Option Component) :
    Except Failure (List DragEvent) :=
  match lastTarget with
  | none => .ok []
  | some c =>
    if isSuitableTarget t info (some c) then .ok [dragExitEvent info c]
    else .error .nullPointerCall

/-- The end of `handleDragMove`, from `if (! DragHelpers::isSuitableTarget (info, newTarget))`
on. -/
def finishDragMove (t : ComponentTree) (info : DragInfo) (newTarget : Option Component)
    (st : DragState) (events : List DragEvent) : DragResult :=
  match newTarget with
  | none => { returned := false, state := st, events := events, jassertHeld := true }
  | some c =>
    if isSuitableTarget t info (some c) then
      { returned := true, state := st,
        events := events ++ [dragMoveEvent info c (t.getLocalPoint c info.position)],
        jassertHeld := true }
    else { returned := false, state := st, events := events, jassertHeld := true }

/-- The block `if (DragHelpers::isSuitableTarget (info, newTarget)) { ... DragEnter ... }` of
`handleDragMove`, after `dragAndDropTargetComponent = nullptr`. -/
def enterNewTarget (t : ComponentTree) (info : DragInfo) (newTarget : Option Component)
    (st : DragState) : DragState × List DragEvent :=
  let st := { st with dragAndDropTargetComponent := none }
  match newTarget with
  | none => (st, [])
  | some c =>
    if isSuitableTarget t info (some c) then
      ({ st with dragAndDropTargetComponent := some c },
        [dragEnterEvent info c (t.getLocalPoint c info.position)])
    else (st, [])

/-- The method `ComponentPeer::handleDragMove`. -/
def handleDragMove (t : ComponentTree) (fuel : ℕ) (st : DragState) (info : DragInfo) :
    Except Failure DragResult :=
  let compUnderMouse := t.getComponentAt info.position
  let lastTarget := st.dragAndDropTargetComponent
  if compUnderMouse ≠ st.lastDragAndDropCompUnderMouse then
    let st := { st with lastDragAndDropCompUnderMouse := compUnderMouse }
    match findDragAndDropTarget t fuel compUnderMouse info lastTarget with
    | .error e => .error e
    | .ok (newTarget, queries) =>
      if newTarget ≠ lastTarget then
        match exitLastTarget t info lastTarget with
        | .error e => .error e
        | .ok exits =>
          .ok (finishDragMove t info newTarget (enterNewTarget t info newTarget st).1
            (queries ++ exits ++ (enterNewTarget t info newTarget st).2))
      else .ok (finishDragMove t info newTarget st queries)
  else .ok (finishDragMove t info lastTarget st [])

/-- The method `ComponentPeer::handleDragExit`. -/
def handleDragExit (t : ComponentTree) (fuel : ℕ) (st : DragState) (info : DragInfo) :
    Except Failure DragResult :=
  let info2 : DragInfo := { info with position := { x := -1, y := -1 } }
  match handleDragMove t fuel st info2 with
  | .error e => .error e
  | .ok used =>
    .ok { returned := used.returned
          state := { used.state with lastDragAndDropCompUnderMouse := none }
          events := used.events
          jassertHeld := decide (used.state.dragAndDropTargetComponent = none) }

/-- The method `ComponentPeer::handleDragDrop`. -/
def handleDragDrop (t : ComponentTree) (fuel : ℕ) (st : DragState) (info : DragInfo) :
    Except Failure DragResult :=
  match handleDragMove t fuel st info with
  | .error e => .error e
  | .ok moved =>
    match moved.state.dragAndDropTargetComponent with
    | none =>
      .ok { returned := false, state := moved.state, events := moved.events,
            jassertHeld := true }
    | some targetComp =>
      let st : DragState :=
        { dragAndDropTargetComponent := none, lastDragAndDropCompUnderMouse := none }
      if isSuitableTarget t info (some targetComp) then
        if t.isCurrentlyBlockedByAnotherModalComponent targetComp then
          if t.isBlockedAfterModalInputAttempt targetComp then
            .ok { returned := true, state := st,
                  events := moved.events ++ [.internalModalInputAttempt targetComp],
                  jassertHeld := true }
          else
            .ok { returned := true, state := st,
                  events := moved.events ++ [.internalModalInputAttempt targetComp,
                    .postAsyncDropMessage targetComp info],
                  jassertHeld := true }
        else
          .ok { returned := true, state := st,
                events := moved.events ++ [.postAsyncDropMessage targetComp info],
                jassertHeld := true }
      else
        .ok { returned := false, state := st, events := moved.events, jassertHeld := true }

/-- A component tree for the examples: component `1` contains component `2`, both are file
drop targets interested in every file drag, every point hits component `2` except the point
`(0, 0)`, which hits component `1`, and component `1` is blocked by a modal component before
and after a modal input attempt. -/
def exampleTree : ComponentTree :=
  { getParentComponent := fun c => if c = 2 then some 1 else none
    isFileDragAndDropTarget := fun c => decide (c = 1 ∨ c = 2)
    isTextDragAndDropTarget := fun _ => false
    isInterestedInFileDrag := fun _ _ => true
    isInterestedInTextDrag := fun _ _ => false
    getComponentAt := fun p => if p = { x := 0, y := 0 } then some 1 else some 2
    getLocalPoint := fun _ p => p
    isCurrentlyBlockedByAnotherModalComponent := fun c => decide (c = 1)
    isBlockedAfterModalInputAttempt := fun c => decide (c = 1) }

/-- A drag of one file at the point `(x, y)`. -/
def exampleFileDrag (x y : ℤ) : DragInfo :=
  { files := ["a.txt"], text := "", position := { x := x, y := y } }

/-- The drag members of a peer whose locked target and last component under the mouse are
both component `1`. -/
def lockedOnOne : DragState :=
  { dragAndDropTargetComponent := some 1, lastDragAndDropCompUnderMouse := some 1 }

/-! ### Key dispatch -/

/-- A `KeyPress`: key code, modifier flags and text character. -/
structure KeyPress where
  keyCode : ℤ
  modifiers : ℕ
  textCharacter : ℕ
  deriving DecidableEq

/-- What the key methods read of the components and the desktop: whether a component still
exists (a `WeakReference` to it is not null), its parent, its `keyListeners` array (null
until a listener is first added), the focused and the modal component, the answer of
`isCurrentlyBlockedByAnotherModalComponent`, and the keyboard modifier flags after
`updateCurrentModifiers`.  Every callback may change all of it. -/
structure World where
  isAlive : Component → Bool
  getParentComponent : Component → Option Component
  keyListeners : Component → Option (List KeyListener)
  currentlyFocusedComponent : Option Component
  currentlyModalComponent : Option Component
  isCurrentlyBlockedByAnotherModalComponent : Component → Bool
  currentKeyboardModifiers : ℕ

/-- The code the key methods call into: the key listeners' and the components' own
`keyPressed` and `keyStateChanged`, each with its result and the world it leaves,
`moveKeyboardFocusToSibling`, and the two comparisons of a key press with the Tab and the
Shift+Tab key press. -/
structure UserCode where
  listenerKeyPressed : KeyListener → KeyPress → Component → World → Bool × World
  keyPressed : Component → KeyPress → World → Bool × World
  listenerKeyStateChanged : KeyListener → Bool → Component → World → Bool × World
  keyStateChanged : Component → Bool → World → Bool × World
  moveKeyboardFocusToSibling : Component → Bool → World → World
  isTab : KeyPress → Bool
  isShiftTab : KeyPress → Bool

/-- What a key method does with the components, in the order done: reading
`target->keyListeners`, calling a listener, reading `keyListeners->size ()` after a listener
call, calling the target's own handler, moving the focus, and reading the parent.  The two
call events carry the callback's result and whether the target still exists after it. -/
inductive KeyEvent where
  | readKeyListeners (target : Component)
  | listenerCalled (listener : KeyListener) (target : Component) (keyWasUsed : Bool)
      (targetAlive : Bool)
  | readListenerCount (target : Component)
  | handlerCalled (target : Component) (keyWasUsed : Bool) (targetAlive : Bool)
  | moveKeyboardFocusToSibling (focused : Component) (moveToNext : Bool)
  | getParentComponent (target : Component)
  deriving DecidableEq

/-- How a run of key dispatch code ends: the method returns `keyWasUsed`, or a listener loop
runs to its end, or the walk up the parents is still running when the fuel is used up, or
`getUnchecked` is given an index outside the array. -/
inductive KeyExit where
  | returned (keyWasUsed : Bool)
  | completed
  | outOfFuel
  | invalidIndex
  deriving DecidableEq

/-- A run of key dispatch code: what it did, the world it leaves, and how it ended. -/
structure KeyRun where
  events : List KeyEvent
  world : World
  exit : KeyExit

/-- The same run after the events `earlier`. -/
def KeyRun.precededBy (r : KeyRun) (earlier : List KeyEvent) : KeyRun :=
  { r with events := earlier ++ r.events }

/-- Whether an event is a callback after which the target no longer exists. -/
def KeyEvent.destroysTarget : KeyEvent → Bool
  | .listenerCalled _ _ _ targetAlive => ! targetAlive
  | .handlerCalled _ _ targetAlive => ! targetAlive
  | _ => false

/-- The result of the callback of a call event. -/
def KeyEvent.keyWasUsed : KeyEvent → Bool
  | .listenerCalled _ _ keyWasUsed _ => keyWasUsed
  | .handlerCalled _ keyWasUsed _ => keyWasUsed
  | _ => false

/-- The listeners called by a run, in the order called. -/
def listenersCalled : List KeyEvent → List KeyListener
  | [] => []
  | .listenerCalled listener _ _ _ :: rest => listener :: listenersCalled rest
  | _ :: rest => listenersCalled rest

/-- The elements of the `keyListeners` array of `target`, none for a null array. -/
def listenersOf (w : World) (target : Component) : List KeyListener :=
  (w.keyListeners target).getD []

/-- The loop `for (int i = keyListeners->size(); --i >= 0;) { keyWasUsed = ...; if (keyWasUsed
|| deletionChecker == nullptr) return keyWasUsed; i = jmin (i, keyListeners->size()); }` that
`handleKeyPress` and `handleKeyUpOrDown` both contain, for the listener method `call`.  The
second argument is `i` before `--i`; the first bounds the number of iterations, and `i` never
exceeds it. -/
def keyListenerLoop (call : KeyListener → World → Bool × World) (target : Component) :
    ℕ → ℕ → World → KeyRun
  | _, 0, w => { events := [], world := w, exit := .completed }
  | 0, _ + 1, w => { events := [], world := w, exit := .outOfFuel }
  | bound + 1, i + 1, w =>
    match (listenersOf w target).get? i with
    | none => { events := [], world := w, exit := .invalidIndex }
    | some listener =>
      let called := call listener w
      let targetAlive := called.2.isAlive target
      if called.1 = true ∨ targetAlive = false then
        { events := [.listenerCalled listener target called.1 targetAlive]
          world := called.2
          exit := .returned called.1 }
      else
        (keyListenerLoop call target bound (min i (listenersOf called.2 target).length)
            called.2).precededBy
          [.listenerCalled listener target called.1 targetAlive, .readListenerCount target]

/-- The block `const Array <KeyListener*>* const keyListeners = target->keyListeners;
if (keyListeners != nullptr) { for ... }` of both key methods. -/
def callKeyListeners (call : KeyListener → World → Bool × World) (target : Component)
    (w : World) : KeyRun :=
  match w.keyListeners target with
  | none => { events := [.readKeyListeners target], world := w, exit := .completed }
  | some listeners =>
    (keyListenerLoop call target listeners.length listeners.length w).precededBy
      [.readKeyListeners target]

/-- The choice of the first target in both key methods: the focused component, else the
peer's component, replaced by the modal component when it is blocked by one. -/
def resolveKeyTarget (w : World) (component : Component) : Component :=
  let target :=
    match w.currentlyFocusedComponent with
    | some focused => focused
    | none => component
  if w.isCurrentlyBlockedByAnotherModalComponent target then
    match w.currentlyModalComponent with
    | some currentModalComp => currentModalComp
    | none => target
  else target

/-- The loop `while (target != nullptr) { ... }` of `handleKeyPress`, for at most `fuel`
targets; the third argument is the variable `keyWasUsed`. -/
def keyPressLoop (u : UserCode) (keyInfo : KeyPress) :
    ℕ → Option Component → Bool → World → KeyRun
  | _, none, keyWasUsed, w => { events := [], world := w, exit := .returned keyWasUsed }
  | 0, some _, _, w => { events := [], world := w, exit := .outOfFuel }
  | fuel + 1, some target, _, w =>
    let listeners :=
      callKeyListeners (fun listener w => u.listenerKeyPressed listener keyInfo target w) target w
    match listeners.exit with
    | .completed =>
      let handled := u.keyPressed target keyInfo listeners.world
      let targetAlive := handled.2.isAlive target
      if handled.1 = true ∨ targetAlive = false then
        ({ events := [.handlerCalled target handled.1 targetAlive]
           world := handled.2
           exit := .returned handled.1 } : KeyRun).precededBy listeners.events
      else
        let goOn : KeyRun :=
          (keyPressLoop u keyInfo fuel (handled.2.getParentComponent target) handled.1
              handled.2).precededBy
            (listeners.events
              ++ [.handlerCalled target handled.1 targetAlive, .getParentComponent target])
        match handled.2.currentlyFocusedComponent with
        | none => goOn
        | some currentlyFocused =>
          if u.isTab keyInfo = true ∨ u.isShiftTab keyInfo = true then
            let moved :=
              u.moveKeyboardFocusToSibling currentlyFocused (u.isTab keyInfo) handled.2
            ({ events := [.handlerCalled target handled.1 targetAlive,
                 .moveKeyboardFocusToSibling currentlyFocused (u.isTab keyInfo)]
               world := moved
               exit := .returned
                 (decide (some currentlyFocused ≠ moved.currentlyFocusedComponent)) }
              : KeyRun).precededBy listeners.events
          else goOn
    | _ => listeners

/-- The method `ComponentPeer::handleKeyPress` of the peer of `component`. -/
def handleKeyPress (u : UserCode) (component : Component) (fuel : ℕ) (keyCode : ℤ)
    (textCharacter : ℕ) (w : World) : KeyRun :=
  let target := resolveKeyTarget w component
  let keyInfo : KeyPress :=
    { keyCode := keyCode, modifiers := w.currentKeyboardModifiers,
      textCharacter := textCharacter }
  keyPressLoop u keyInfo fuel (some target) false w

/-- The loop `while (target != nullptr) { ... }` of `handleKeyUpOrDown`, for at most `fuel`
targets; the third argument is the variable `keyWasUsed`, which is `false` whenever the loop
goes on to the parent. -/
def keyUpOrDownLoop (u : UserCode) (isKeyDown : Bool) :
    ℕ → Option Component → Bool → World → KeyRun
  | _, none, keyWasUsed, w => { events := [], world := w, exit := .returned keyWasUsed }
  | 0, some _, _, w => { events := [], world := w, exit := .outOfFuel }
  | fuel + 1, some target, _, w =>
    let handled := u.keyStateChanged target isKeyDown w
    let targetAlive := handled.2.isAlive target
    if handled.1 = true ∨ targetAlive = false then
      { events := [.handlerCalled target handled.1 targetAlive]
        world := handled.2
        exit := .returned handled.1 }
    else
      let listeners :=
        callKeyListeners
          (fun listener w => u.listenerKeyStateChanged listener isKeyDown target w) target
          handled.2
      match listeners.exit with
      | .completed =>
        (keyUpOrDownLoop u isKeyDown fuel (listeners.world.getParentComponent target) false
            listeners.world).precededBy
          ([.handlerCalled target handled.1 targetAlive] ++ listeners.events
            ++ [.getParentComponent target])
      | _ => listeners.precededBy [.handlerCalled target handled.1 targetAlive]

/-- The method `ComponentPeer::handleKeyUpOrDown` of the peer of `component`. -/
def handleKeyUpOrDown (u : UserCode) (component : Component) (fuel : ℕ) (isKeyDown : Bool)
    (w : World) : KeyRun :=
  keyUpOrDownLoop u isKeyDown fuel (some (resolveKeyTarget w component)) false w

/-- A run stops on destruction: a callback after which the target no longer exists is the
last thing the run does, and the run returns that callback's result. -/
def KeyRun.StopsOnDestruction (r : KeyRun) : Prop :=
  ∀ (before : List KeyEvent) (e : KeyEvent) (later : List KeyEvent),
    r.events = before ++ e :: later → e.destroysTarget = true →
      later = [] ∧ r.exit = .returned e.keyWasUsed

/-- An effect a listener callback can have: `Array::removeValue` of `listener` on the
`keyListeners` array of `c`. -/
def removeKeyListener (w : World) (c : Component) (listener : KeyListener) : World :=
  { w with
    keyListeners := fun c' =>
      if c' = c then (w.keyListeners c).map (fun listeners => listeners.erase listener)
      else w.keyListeners c' }

/-- An example world: component 2 is a child of component 1 and has the focus; its key
listeners are 10, 11 and 12, added in that order; nothing is modal. -/
def exampleWorld : World where
  isAlive := fun _ => true
  getParentComponent := fun c => if c = 2 then some 1 else none
  keyListeners := fun c => if c = 2 then some [10, 11, 12] else none
  currentlyFocusedComponent := some 2
  currentlyModalComponent := none
  isCurrentlyBlockedByAnotherModalComponent := fun _ => false
  currentKeyboardModifiers := 0

/-- Example callbacks: `remover` is a listener that removes the listener `removed` from the
array of its target; no other callback does anything, all return `false`, and no key press is
taken to be Tab or Shift+Tab. -/
def removingCode (remover removed : KeyListener) : UserCode where
  listenerKeyPressed := fun listener _ target w =>
    (false, if listener = remover then removeKeyListener w target removed else w)
  keyPressed := fun _ _ w => (false, w)
  listenerKeyStateChanged := fun listener _ target w =>
    (false, if listener = remover then removeKeyListener w target removed else w)
  keyStateChanged := fun _ _ w => (false, w)
  moveKeyboardFocusToSibling := fun _ _ w => w
  isTab := fun _ => false
  isShiftTab := fun _ => false

/-- Example callbacks for focus traversal: nothing uses a key, the Tab key has the code 9,
Shift is the modifier flag 1, and moving the focus to a sibling gives it to the component
numbered one higher (next) or one lower (previous), except that component 2 has no next
sibling and keeps the focus. -/
def tabCode : UserCode where
  listenerKeyPressed := fun _ _ _ w => (false, w)
  keyPressed := fun _ _ w => (false, w)
  listenerKeyStateChanged := fun _ _ _ w => (false, w)
  keyStateChanged := fun _ _ w => (false, w)
  moveKeyboardFocusToSibling := fun focused moveToNext w =>
    { w with
      currentlyFocusedComponent :=
        some (if moveToNext then (if focused = 2 then 2 else focused + 1) else focused - 1) }
  isTab := fun keyInfo => decide (keyInfo.keyCode = 9) && decide (keyInfo.modifiers = 0)
  isShiftTab := fun keyInfo => decide (keyInfo.keyCode = 9) && decide (keyInfo.modifiers = 1)

/-- The example world with the Shift key held. -/
def exampleWorldShift : World := { exampleWorld with currentKeyboardModifiers := 1 }

/-- The drag members a peer can have: both are null at first, and each returning call of
`handleDragMove`, `handleDragExit` or `handleDragDrop` leaves the next ones. -/
inductive DragReachable (t : ComponentTree) : DragState → Prop
  | init : DragReachable t
      { dragAndDropTargetComponent := none, lastDragAndDropCompUnderMouse := none }
  | move (st : DragState) (fuel : ℕ) (info : DragInfo) (r : DragResult) :
      DragReachable t st → handleDragMove t fuel st info = .ok r → DragReachable t r.state
  | exit (st : DragState) (fuel : ℕ) (info : DragInfo) (r : DragResult) :
      DragReachable t st → handleDragExit t fuel st info = .ok r → DragReachable t r.state
  | drop (st : DragState) (fuel : ℕ) (info : DragInfo) (r : DragResult) :
      DragReachable t st → handleDragDrop t fuel st info = .ok r → DragReachable t r.state

/-- The example tree with a hit test that finds no component at points left of the peer. -/
def boundedTree : ComponentTree :=
  { exampleTree with
    getComponentAt := fun p =>
      if p.x < 0 then none else if p = { x := 0, y := 0 } then some 1 else some 2 }

/-- The drag members of a peer whose locked target and last component under the mouse are
both component `2`. -/
def lockedOnTwo : DragState :=
  { dragAndDropTargetComponent := some 2, lastDragAndDropCompUnderMouse := some 2 }

end ComponentPeer

namespace Slider

open SliderStyle

/-! ## Facts about `constrainedValue` -/

theorem snappedValue_of_nonpos (s : Pimpl) (v : ℚ) (h : s.interval ≤ 0) :
    snappedValue s v = v := by
  simp [snappedValue, not_lt.mpr h]

theorem snappedValue_of_pos (s : Pimpl) (v : ℚ) (h : 0 < s.interval) :
    snappedValue s v
      = s.minimum + s.interval * ((⌊(v - s.minimum) / s.interval + 1 / 2⌋ : ℤ) : ℚ) := by
  simp [snappedValue, h]

/-- A point of the grid `minimum + interval * k` snaps to itself. -/
theorem snappedValue_grid (s : Pimpl) (k : ℤ) (h : 0 < s.interval) :
    snappedValue s (s.minimum + s.interval * (k : ℚ)) = s.minimum + s.interval * (k : ℚ) := by
  rw [snappedValue_of_pos s _ h]
  have hk : (s.minimum + s.interval * (k : ℚ) - s.minimum) / s.interval + 1 / 2
      = (k : ℚ) + 1 / 2 := by
    field_simp
  rw [hk, Int.floor_int_add]
  have : (⌊(1 / 2 : ℚ)⌋ : ℤ) = 0 := by norm_num
  rw [this, add_zero]

theorem snappedValue_minimum (s : Pimpl) : snappedValue s s.minimum = s.minimum := by
  rcases le_or_lt s.interval 0 with h | h
  · exact snappedValue_of_nonpos s _ h
  · simpa using snappedValue_grid s 0 h

theorem snappedValue_snappedValue (s : Pimpl) (v : ℚ) :
    snappedValue s (snappedValue s v) = snappedValue s v := by
  rcases le_or_lt s.interval 0 with h | h
  · rw [snappedValue_of_nonpos s _ h]
  · rw [snappedValue_of_pos s v h]
    exact snappedValue_grid s _ h

theorem constrainedValue_of_le_minimum (s : Pimpl) (v : ℚ) (h : snappedValue s v ≤ s.minimum) :
    constrainedValue s v = s.minimum := by
  simp [constrainedValue, h]

theorem constrainedValue_of_degenerate (s : Pimpl) (v : ℚ) (h : s.maximum ≤ s.minimum) :
    constrainedValue s v = s.minimum := by
  simp [constrainedValue, h]

theorem constrainedValue_of_ge_maximum (s : Pimpl) (v : ℚ) (hr : s.minimum < s.maximum)
    (h : s.maximum ≤ snappedValue s v) : constrainedValue s v = s.maximum := by
  have h1 : ¬ snappedValue s v ≤ s.minimum := not_le.mpr (lt_of_lt_of_le hr h)
  simp [constrainedValue, h1, not_le.mpr hr, h]

theorem constrainedValue_of_inside (s : Pimpl) (v : ℚ) (h1 : s.minimum < snappedValue s v)
    (h2 : snappedValue s v < s.maximum) : constrainedValue s v = snappedValue s v := by
  have hr : s.minimum < s.maximum := lt_trans h1 h2
  simp [constrainedValue, not_le.mpr h1, not_le.mpr hr, not_le.mpr h2]

theorem constrainedValue_eq_maximum (s : Pimpl) (v : ℚ) (hr : s.minimum ≤ s.maximum)
    (h : s.maximum ≤ snappedValue s v) : constrainedValue s v = s.maximum := by
  rcases eq_or_lt_of_le hr with he | hlt
  · rw [constrainedValue_of_degenerate s v (le_of_eq he.symm), he]
  · exact constrainedValue_of_ge_maximum s v hlt h

theorem minimum_le_constrainedValue (s : Pimpl) (v : ℚ) (hr : s.minimum ≤ s.maximum) :
    s.minimum ≤ constrainedValue s v := by
  rcases le_or_lt (snappedValue s v) s.minimum with h1 | h1
  · rw [constrainedValue_of_le_minimum s v h1]
  rcases lt_or_le (snappedValue s v) s.maximum with h2 | h2
  · rw [constrainedValue_of_inside s v h1 h2]; exact le_of_lt h1
  · rw [constrainedValue_eq_maximum s v hr h2]; exact hr

theorem constrainedValue_le_maximum (s : Pimpl) (v : ℚ) (hr : s.minimum ≤ s.maximum) :
    constrainedValue s v ≤ s.maximum := by
  rcases le_or_lt (snappedValue s v) s.minimum with h1 | h1
  · rw [constrainedValue_of_le_minimum s v h1]; exact hr
  rcases lt_or_le (snappedValue s v) s.maximum with h2 | h2
  · rw [constrainedValue_of_inside s v h1 h2]; exact le_of_lt h2
  · rw [constrainedValue_eq_maximum s v hr h2]

theorem constrainedValue_minimum (s : Pimpl) : constrainedValue s s.minimum = s.minimum :=
  constrainedValue_of_le_minimum s _ (le_of_eq (snappedValue_minimum s))

theorem constrainedValue_idem_of_not_offGrid (s : Pimpl) (v : ℚ)
    (h : ¬ clampsToOffGridMaximum s v) :
    constrainedValue s (constrainedValue s v) = constrainedValue s v := by
  rcases le_or_lt s.maximum s.minimum with hd | hr
  · rw [constrainedValue_of_degenerate s v hd, constrainedValue_of_degenerate s _ hd]
  rcases le_or_lt (snappedValue s v) s.minimum with h1 | h1
  · rw [constrainedValue_of_le_minimum s v h1, constrainedValue_minimum]
  rcases lt_or_le (snappedValue s v) s.maximum with h2 | h2
  · rw [constrainedValue_of_inside s v h1 h2]
    have e := snappedValue_snappedValue s v
    rw [constrainedValue_of_inside s _ (by rw [e]; exact h1) (by rw [e]; exact h2), e]
  · rw [constrainedValue_of_ge_maximum s v hr h2]
    apply constrainedValue_of_ge_maximum s _ hr
    rcases le_or_lt s.interval 0 with hi | hi
    · rw [snappedValue_of_nonpos s _ hi]
    · by_contra hc
      exact h ⟨hi, hr, h2, not_le.mp hc⟩

theorem constrainedValue_not_idem_of_offGrid (s : Pimpl) (v : ℚ)
    (h : clampsToOffGridMaximum s v) :
    constrainedValue s (constrainedValue s v) ≠ constrainedValue s v := by
  obtain ⟨_, hr, h2, h3⟩ := h
  rw [constrainedValue_of_ge_maximum s v hr h2]
  rcases le_or_lt (snappedValue s s.maximum) s.minimum with h1 | h1
  · rw [constrainedValue_of_le_minimum s _ h1]
    exact ne_of_lt hr
  · rw [constrainedValue_of_inside s _ h1 h3]
    exact ne_of_lt h3

/-- When `maximum - minimum` is a whole number of intervals the maximum snaps to itself. -/
theorem not_offGrid_of_range_multiple (s : Pimpl) (v : ℚ) (h : rangeIsWholeIntervals s) :
    ¬ clampsToOffGridMaximum s v := by
  rintro ⟨hi, hr, _, h3⟩
  rcases h with h | h | ⟨n, hn⟩
  · exact absurd hi (not_lt.mpr h)
  · exact absurd hr (not_lt.mpr h)
  · have e := snappedValue_grid s n hi
    rw [← hn] at e
    rw [e] at h3
    exact lt_irrefl _ h3

theorem constrainedValue_thirds_11 (style : SliderStyle) :
    constrainedValue (thirdsSlider style) 11 = 10 := by
  norm_num [constrainedValue, snappedValue, thirdsSlider, Pimpl.init]

theorem constrainedValue_thirds_10 (style : SliderStyle) :
    constrainedValue (thirdsSlider style) 10 = 9 := by
  norm_num [constrainedValue, snappedValue, thirdsSlider, Pimpl.init]

/-! ## C1: idempotence of `constrainedValue` -/

/-- C1, as stated, fails: with range `[0, 10]` and interval `3` the value `11` is constrained
to `10`, and `10` is constrained to `9`. -/
theorem constrainedValue_idempotent_counterexample :
    constrainedValue (thirdsSlider LinearHorizontal) 11 = 10
      ∧ constrainedValue (thirdsSlider LinearHorizontal)
          (constrainedValue (thirdsSlider LinearHorizontal) 11) = 9
      ∧ constrainedValue (thirdsSlider LinearHorizontal)
          (constrainedValue (thirdsSlider LinearHorizontal) 11)
        ≠ constrainedValue (thirdsSlider LinearHorizontal) 11 := by
  rw [constrainedValue_thirds_11, constrainedValue_thirds_10]
  norm_num

/-- C1, amended: constraining twice equals constraining once exactly when the value is not
clamped to a maximum that itself snaps below the maximum (interval > 0, minimum < maximum,
the snapped value is at least maximum, and maximum snaps to less than maximum).  In
particular it is idempotent for every value when the interval is not positive, when
maximum <= minimum, or when maximum - minimum is a whole number of intervals. -/
theorem constrainedValue_idempotent_iff (s : Pimpl) (v : ℚ) :
    (constrainedValue s (constrainedValue s v) = constrainedValue s v
        ↔ ¬ clampsToOffGridMaximum s v)
      ∧ (rangeIsWholeIntervals s →
          constrainedValue s (constrainedValue s v) = constrainedValue s v) := by
  refine ⟨⟨fun h hc => constrainedValue_not_idem_of_offGrid s v hc h,
    constrainedValue_idem_of_not_offGrid s v⟩, fun h => ?_⟩
  exact constrainedValue_idem_of_not_offGrid s v (not_offGrid_of_range_multiple s v h)

/-- Witness for C1: range `[0, 10]` with interval `1` is ten whole intervals, and `17 / 5`
is constrained to the same value once and twice. -/
theorem constrainedValue_idempotent_iff_witness :
    rangeIsWholeIntervals (unitSlider LinearHorizontal)
      ∧ constrainedValue (unitSlider LinearHorizontal)
          (constrainedValue (unitSlider LinearHorizontal) (17 / 5))
        = constrainedValue (unitSlider LinearHorizontal) (17 / 5) :=
  have h : rangeIsWholeIntervals (unitSlider LinearHorizontal) :=
    Or.inr (Or.inr ⟨10, by norm_num [unitSlider, Pimpl.init]⟩)
  ⟨h, (constrainedValue_idempotent_iff (unitSlider LinearHorizontal) (17 / 5)).2 h⟩

/-! ## C2: the constrained value and the interval grid -/

/-- C2, as stated, fails: with range `[0, 10]` and interval `3` the value `11` is constrained
to `10`, which is not `0` plus a whole number of threes. -/
theorem constrainedValue_grid_counterexample :
    (thirdsSlider LinearHorizontal).minimum ≤ (thirdsSlider LinearHorizontal).maximum
      ∧ 0 < (thirdsSlider LinearHorizontal).interval
      ∧ ¬ ∃ k : ℤ, constrainedValue (thirdsSlider LinearHorizontal) 11
            = (thirdsSlider LinearHorizontal).minimum
                + (k : ℚ) * (thirdsSlider LinearHorizontal).interval := by
  refine ⟨by norm_num [thirdsSlider, Pimpl.init], by norm_num [thirdsSlider, Pimpl.init], ?_⟩
  rintro ⟨k, hk⟩
  rw [constrainedValue_thirds_11] at hk
  have h1 : ((10 : ℤ) : ℚ) = ((k * 3 : ℤ) : ℚ) := by
    push_cast
    simpa [thirdsSlider, Pimpl.init] using hk
  have h2 : (10 : ℤ) = k * 3 := by exact_mod_cast h1
  omega

/-- C2, amended: for minimum <= maximum and interval i > 0 the constrained value is minimum
plus an integer multiple of i whenever the snapped value is below maximum or the range is a
whole number of intervals; when the snapped value is at least maximum the constrained value
is maximum itself. -/
theorem constrainedValue_grid_or_maximum (s : Pimpl) (v : ℚ) (hr : s.minimum ≤ s.maximum)
    (hi : 0 < s.interval) :
    ((snappedValue s v < s.maximum ∨ ∃ n : ℤ, s.maximum = s.minimum + s.interval * (n : ℚ)) →
        ∃ k : ℤ, constrainedValue s v = s.minimum + (k : ℚ) * s.interval)
      ∧ (s.maximum ≤ snappedValue s v → constrainedValue s v = s.maximum) := by
  have hmin : ∃ k : ℤ, s.minimum = s.minimum + (k : ℚ) * s.interval := ⟨0, by simp⟩
  have hsnap : ∃ k : ℤ, snappedValue s v = s.minimum + (k : ℚ) * s.interval :=
    ⟨_, by rw [snappedValue_of_pos s v hi, mul_comm]⟩
  have hmax : s.maximum ≤ snappedValue s v → constrainedValue s v = s.maximum :=
    constrainedValue_eq_maximum s v hr
  refine ⟨fun h => ?_, hmax⟩
  rcases le_or_lt (snappedValue s v) s.minimum with h1 | h1
  · rw [constrainedValue_of_le_minimum s v h1]; exact hmin
  rcases lt_or_le (snappedValue s v) s.maximum with h2 | h2
  · rw [constrainedValue_of_inside s v h1 h2]; exact hsnap
  · rcases h with h | ⟨n, hn⟩
    · exact absurd h (not_lt.mpr h2)
    · rw [hmax h2]
      exact ⟨n, by rw [mul_comm]; exact hn⟩

/-- Witness for C2: range `[0, 10]`, interval `3`, value `7` snaps to `6 < 10`. -/
theorem constrainedValue_grid_or_maximum_witness :
    ∃ k : ℤ, constrainedValue (thirdsSlider LinearHorizontal) 7
      = (thirdsSlider LinearHorizontal).minimum
          + (k : ℚ) * (thirdsSlider LinearHorizontal).interval :=
  (constrainedValue_grid_or_maximum (thirdsSlider LinearHorizontal) 7
      (by norm_num [thirdsSlider, Pimpl.init]) (by norm_num [thirdsSlider, Pimpl.init])).1
    (Or.inl (by norm_num [snappedValue, thirdsSlider, Pimpl.init]))

/-! ## C3: the constrained value lies in the range -/

/-- C3: for minimum <= maximum the constrained value lies in `[minimum, maximum]`, a snapped
value <= minimum gives exactly minimum and a snapped value >= maximum gives exactly maximum;
and when maximum <= minimum the result is minimum for every value. -/
theorem constrainedValue_mem_range (s : Pimpl) (v : ℚ) :
    (s.minimum ≤ s.maximum →
        s.minimum ≤ constrainedValue s v ∧ constrainedValue s v ≤ s.maximum
          ∧ (snappedValue s v ≤ s.minimum → constrainedValue s v = s.minimum)
          ∧ (s.maximum ≤ snappedValue s v → constrainedValue s v = s.maximum))
      ∧ (s.maximum ≤ s.minimum → constrainedValue s v = s.minimum) := by
  exact ⟨fun hr => ⟨minimum_le_constrainedValue s v hr, constrainedValue_le_maximum s v hr,
    constrainedValue_of_le_minimum s v, constrainedValue_eq_maximum s v hr⟩,
    constrainedValue_of_degenerate s v⟩

/-- Witness for C3: range `[0, 10]` with interval `3` at the value `11` (snapped to `12`), and
the empty range `[10, 10]` obtained by raising the minimum. -/
theorem constrainedValue_mem_range_witness :
    ((thirdsSlider LinearHorizontal).minimum ≤ constrainedValue (thirdsSlider LinearHorizontal) 11
        ∧ constrainedValue (thirdsSlider LinearHorizontal) 11
            ≤ (thirdsSlider LinearHorizontal).maximum
        ∧ constrainedValue (thirdsSlider LinearHorizontal) 11
            = (thirdsSlider LinearHorizontal).maximum)
      ∧ constrainedValue { thirdsSlider LinearHorizontal with minimum := 10 } 4 = 10 :=
  have h := (constrainedValue_mem_range (thirdsSlider LinearHorizontal) 11).1
    (by norm_num [thirdsSlider, Pimpl.init])
  ⟨⟨h.1, h.2.1, h.2.2.2 (by norm_num [snappedValue, thirdsSlider, Pimpl.init])⟩,
    (constrainedValue_mem_range { thirdsSlider LinearHorizontal with minimum := 10 } 4).2
      (by norm_num [thirdsSlider, Pimpl.init])⟩

theorem setValue_lastCurrentValue (s : Pimpl) (v : ℚ) (a b : Bool) (h3 : isThreeValue s = false) :
    (setValue s v a b).lastCurrentValue = constrainedValue s v := by
  unfold setValue
  simp only [h3]
  by_cases h : constrainedValue s v = s.lastCurrentValue
  · simp [h]
  · simp only [Bool.false_eq_true, ↓reduceIte, ne_eq, h, not_false_eq_true]
    split_ifs <;> rfl

theorem setValue_currentValue (s : Pimpl) (v : ℚ) (a b : Bool) (h3 : isThreeValue s = false)
    (hs : s.currentValue = s.lastCurrentValue) :
    (setValue s v a b).currentValue = constrainedValue s v := by
  unfold setValue
  simp only [h3]
  by_cases h : constrainedValue s v = s.lastCurrentValue
  · simp [h, hs]
  · simp only [Bool.false_eq_true, ↓reduceIte, ne_eq, h, not_false_eq_true]
    have h' : ¬ s.currentValue = constrainedValue s v := by rw [hs]; exact fun e => h e.symm
    simp only [h', not_false_eq_true, ↓reduceIte]
    split_ifs <;> rfl


/-! ## The decimal-places loop of `setRange` -/

theorem decimalPlacesLoop_fuel_zero (v : ℕ) (n : ℤ) :
    decimalPlacesLoop 0 v n = if v % 10 = 0 then none else some n := by
  rw [decimalPlacesLoop]

theorem decimalPlacesLoop_fuel_succ (k v : ℕ) (n : ℤ) :
    decimalPlacesLoop (k + 1) v n
      = if v % 10 = 0 then decimalPlacesLoop k (v / 10) (n - 1) else some n := by
  rw [decimalPlacesLoop]

/-- Started at `v = 0` the decimal-places loop is still running after any number of
iterations. -/
theorem decimalPlacesLoop_zero (fuel : ℕ) (n : ℤ) : decimalPlacesLoop fuel 0 n = none := by
  induction fuel generalizing n with
  | zero => simp [decimalPlacesLoop_fuel_zero]
  | succ k ih =>
    rw [decimalPlacesLoop_fuel_succ]
    simpa using ih (n - 1)

/-- Started at a positive `v` the loop exits within `v` iterations. -/
theorem decimalPlacesLoop_isSome (fuel v : ℕ) (n : ℤ) (hv : 0 < v) (hf : v ≤ fuel) :
    (decimalPlacesLoop fuel v n).isSome = true := by
  induction fuel generalizing v n with
  | zero => omega
  | succ k ih =>
    rw [decimalPlacesLoop_fuel_succ]
    split_ifs with h
    · exact ih (v / 10) (n - 1) (by omega) (by omega)
    · rfl

/-- More iterations do not change the result of a loop that has exited. -/
theorem decimalPlacesLoop_succ (fuel v : ℕ) (n m : ℤ)
    (h : decimalPlacesLoop fuel v n = some m) : decimalPlacesLoop (fuel + 1) v n = some m := by
  induction fuel generalizing v n with
  | zero =>
    rw [decimalPlacesLoop_fuel_zero] at h
    rw [decimalPlacesLoop_fuel_succ]
    by_cases hc : v % 10 = 0
    · simp [hc] at h
    · simpa [hc] using h
  | succ k ih =>
    rw [decimalPlacesLoop_fuel_succ] at h
    rw [decimalPlacesLoop_fuel_succ]
    by_cases hc : v % 10 = 0
    · simp only [hc, ↓reduceIte] at h ⊢
      exact ih _ _ h
    · simpa [hc] using h

theorem decimalPlacesFor_isSome_iff (newInt : ℚ) :
    (decimalPlacesFor newInt).isSome = true ↔ newInt = 0 ∨ truncToInt (newInt * 10000000) ≠ 0 := by
  unfold decimalPlacesFor
  by_cases h0 : newInt = 0
  · simp [h0]
  · simp only [ne_eq, h0, not_false_eq_true, ↓reduceIte, false_or]
    by_cases hv : truncToInt (newInt * 10000000) = 0
    · simp [hv, decimalPlacesLoop_zero]
    · simp only [hv, not_false_eq_true, iff_true]
      exact decimalPlacesLoop_isSome _ _ _ (Int.natAbs_pos.mpr hv) (le_refl _)

theorem decimalPlacesFor_one : decimalPlacesFor 1 = some 0 := by
  have h : (truncToInt (1 * 10000000)).natAbs = 10000000 := by norm_num [truncToInt]
  have h2 : decimalPlacesLoop 10000000 10000000 7 = some 0 := by rfl
  simp only [decimalPlacesFor, h, h2]
  norm_num

theorem decimalPlacesFor_three : decimalPlacesFor 3 = some 0 := by
  have h : (truncToInt (3 * 10000000)).natAbs = 30000000 := by norm_num [truncToInt]
  have h2 : decimalPlacesLoop 30000000 30000000 7 = some 0 := by rfl
  simp only [decimalPlacesFor, h, h2]
  norm_num

theorem setRange_unitSlider :
    setRange (Pimpl.init LinearHorizontal) 0 10 1 = some (unitSlider LinearHorizontal) := by
  simp only [setRange, decimalPlacesFor_one, keepValuesInsideRange]
  norm_num +decide [Pimpl.init, unitSlider, isTwoValue, setValue, getValue, constrainedValue,
    snappedValue, isThreeValue]

theorem constrainedValue_unit_17_5 : constrainedValue (unitSlider LinearHorizontal) (17 / 5) = 3 := by
  norm_num [constrainedValue, snappedValue, unitSlider, Pimpl.init]

theorem constrainedValue_unit_18_5 : constrainedValue (unitSlider LinearHorizontal) (18 / 5) = 4 := by
  norm_num [constrainedValue, snappedValue, unitSlider, Pimpl.init]

/-! ## C4: `setValue` stores the constrained value -/

/-- C4: for a slider whose style is neither two-value nor three-value, after `setValue (v, ...)`
the stored value `lastCurrentValue` is `constrainedValue (v)`, the nearest interval step to
`v` clamped into the range, and so is `getValue ()` when the value object agreed with
`lastCurrentValue` before the call, as it does after every slider operation. -/
theorem setValue_stores_constrainedValue (s : Pimpl) (v : ℚ)
    (sendUpdateMessage sendMessageSynchronously : Bool)
    (_h2 : isTwoValue s = false) (h3 : isThreeValue s = false) :
    (setValue s v sendUpdateMessage sendMessageSynchronously).lastCurrentValue
        = constrainedValue s v
      ∧ (s.currentValue = s.lastCurrentValue →
          getValue (setValue s v sendUpdateMessage sendMessageSynchronously)
            = constrainedValue s v) :=
  ⟨setValue_lastCurrentValue s v _ _ h3, setValue_currentValue s v _ _ h3⟩

/-- Witness for C4: range `[0, 10]` with interval `1`, as `setRange (0, 10, 1)` leaves a new
slider: `setValue (3.4)` stores `3` and `setValue (3.6)` stores `4`. -/
theorem setValue_stores_constrainedValue_witness :
    setRange (Pimpl.init LinearHorizontal) 0 10 1 = some (unitSlider LinearHorizontal)
      ∧ (setValue (unitSlider LinearHorizontal) (17 / 5) true false).lastCurrentValue = 3
      ∧ getValue (setValue (unitSlider LinearHorizontal) (17 / 5) true false) = 3
      ∧ (setValue (unitSlider LinearHorizontal) (18 / 5) true false).lastCurrentValue = 4
      ∧ getValue (setValue (unitSlider LinearHorizontal) (18 / 5) true false) = 4 :=
  have h34 := setValue_stores_constrainedValue (unitSlider LinearHorizontal) (17 / 5) true false
    rfl rfl
  have h36 := setValue_stores_constrainedValue (unitSlider LinearHorizontal) (18 / 5) true false
    rfl rfl
  ⟨setRange_unitSlider,
    h34.1.trans constrainedValue_unit_17_5, (h34.2 rfl).trans constrainedValue_unit_17_5,
    h36.1.trans constrainedValue_unit_18_5, (h36.2 rfl).trans constrainedValue_unit_18_5⟩

/-! ## The two-value setters -/

theorem setMaxValue_noNudge (s : Pimpl) (v : ℚ) (a b : Bool) :
    setMaxValue s v a b false
      = storeMaxValue s
          (max (if isTwoValue s then s.valueMin else s.lastCurrentValue) (constrainedValue s v))
          a b := by
  rw [setMaxValue]
  by_cases h : isTwoValue s = true <;> simp [h]

theorem setMinValue_noNudge (s : Pimpl) (v : ℚ) (a b : Bool) :
    setMinValue s v a b false
      = storeMinValue s
          (min (if isTwoValue s then s.valueMax else s.lastCurrentValue) (constrainedValue s v))
          a b := by
  rw [setMinValue]
  by_cases h : isTwoValue s = true <;> simp [h]

theorem setMinValue_twoValue (s : Pimpl) (v : ℚ) (a b n : Bool) (h : isTwoValue s = true) :
    setMinValue s v a b n
      = storeMinValue
          (if n = true ∧ constrainedValue s v > s.valueMax
            then storeMaxValue s (max s.valueMin (constrainedValue s (constrainedValue s v))) a b
            else s)
          (min (if n = true ∧ constrainedValue s v > s.valueMax
            then storeMaxValue s (max s.valueMin (constrainedValue s (constrainedValue s v))) a b
            else s).valueMax (constrainedValue s v)) a b := by
  rw [setMinValue]
  simp only [h, ↓reduceIte, setMaxValue_noNudge]
  by_cases hc : n = true ∧ constrainedValue s v > s.valueMax
  · simp only [hc, and_self, ↓reduceDIte, ↓reduceIte, dite_true]
  · simp only [hc, ↓reduceDIte, ↓reduceIte, dite_false]

theorem setMaxValue_twoValue (s : Pimpl) (v : ℚ) (a b n : Bool) (h : isTwoValue s = true) :
    setMaxValue s v a b n
      = storeMaxValue
          (if n = true ∧ constrainedValue s v < s.valueMin
            then storeMinValue s (min s.valueMax (constrainedValue s (constrainedValue s v))) a b
            else s)
          (max (if n = true ∧ constrainedValue s v < s.valueMin
            then storeMinValue s (min s.valueMax (constrainedValue s (constrainedValue s v))) a b
            else s).valueMin (constrainedValue s v)) a b := by
  rw [setMaxValue]
  simp only [h, ↓reduceIte, setMinValue_noNudge]
  by_cases hc : n = true ∧ constrainedValue s v < s.valueMin
  · simp only [hc, and_self, ↓reduceDIte, ↓reduceIte, dite_true]
  · simp only [hc, ↓reduceDIte, ↓reduceIte, dite_false]


theorem storeMaxValue_valueMax (s : Pimpl) (x : ℚ) (a b : Bool) :
    (storeMaxValue s x a b).valueMax = if s.lastValueMax ≠ x then x else s.valueMax := by
  unfold storeMaxValue triggerChangeMessage
  split_ifs <;> rfl

theorem storeMaxValue_lastValueMax (s : Pimpl) (x : ℚ) (a b : Bool) :
    (storeMaxValue s x a b).lastValueMax = x := by
  unfold storeMaxValue triggerChangeMessage
  split_ifs with h1 h2
  · rfl
  · rfl
  · exact not_not.mp h1

theorem storeMaxValue_valueMin (s : Pimpl) (x : ℚ) (a b : Bool) :
    (storeMaxValue s x a b).valueMin = s.valueMin := by
  unfold storeMaxValue triggerChangeMessage
  split_ifs <;> rfl

theorem storeMaxValue_lastValueMin (s : Pimpl) (x : ℚ) (a b : Bool) :
    (storeMaxValue s x a b).lastValueMin = s.lastValueMin := by
  unfold storeMaxValue triggerChangeMessage
  split_ifs <;> rfl

theorem storeMinValue_valueMin (s : Pimpl) (x : ℚ) (a b : Bool) :
    (storeMinValue s x a b).valueMin = if s.lastValueMin ≠ x then x else s.valueMin := by
  unfold storeMinValue triggerChangeMessage
  split_ifs <;> rfl

theorem storeMinValue_lastValueMin (s : Pimpl) (x : ℚ) (a b : Bool) :
    (storeMinValue s x a b).lastValueMin = x := by
  unfold storeMinValue triggerChangeMessage
  split_ifs with h1 h2
  · rfl
  · rfl
  · exact not_not.mp h1

theorem storeMinValue_valueMax (s : Pimpl) (x : ℚ) (a b : Bool) :
    (storeMinValue s x a b).valueMax = s.valueMax := by
  unfold storeMinValue triggerChangeMessage
  split_ifs <;> rfl

theorem storeMinValue_lastValueMax (s : Pimpl) (x : ℚ) (a b : Bool) :
    (storeMinValue s x a b).lastValueMax = s.lastValueMax := by
  unfold storeMinValue triggerChangeMessage
  split_ifs <;> rfl

/-- With the stored last value in step with the value object, storing makes the value. -/
theorem storeMaxValue_valueMax_of_sync (s : Pimpl) (x : ℚ) (a b : Bool)
    (h : s.lastValueMax = s.valueMax) : (storeMaxValue s x a b).valueMax = x := by
  rw [storeMaxValue_valueMax]
  split_ifs with h1
  · rfl
  · rw [← h]; exact not_not.mp h1

theorem storeMinValue_valueMin_of_sync (s : Pimpl) (x : ℚ) (a b : Bool)
    (h : s.lastValueMin = s.valueMin) : (storeMinValue s x a b).valueMin = x := by
  rw [storeMinValue_valueMin]
  split_ifs with h1
  · rfl
  · rw [← h]; exact not_not.mp h1

theorem constrainedValue_constrainedValue_le (s : Pimpl) (v : ℚ) :
    constrainedValue s (constrainedValue s v) ≤ constrainedValue s v := by
  by_cases h : clampsToOffGridMaximum s v
  · rw [constrainedValue_of_ge_maximum s v h.2.1 h.2.2.1]
    exact constrainedValue_le_maximum s s.maximum (le_of_lt h.2.1)
  · exact le_of_eq (constrainedValue_idem_of_not_offGrid s v h)

theorem setMinValue_nudge_valueMax (s : Pimpl) (v : ℚ) (a b : Bool) (h2 : isTwoValue s = true)
    (hmax : s.lastValueMax = s.valueMax) (hgt : constrainedValue s v > s.valueMax) :
    (setMinValue s v a b true).valueMax
      = max s.valueMin (constrainedValue s (constrainedValue s v)) := by
  rw [setMinValue_twoValue s v a b true h2]
  simp only [hgt, and_self, ↓reduceIte, storeMinValue_valueMax]
  exact storeMaxValue_valueMax_of_sync s _ a b hmax

theorem setMinValue_nudge_valueMin (s : Pimpl) (v : ℚ) (a b : Bool) (h2 : isTwoValue s = true)
    (hmin : s.lastValueMin = s.valueMin) (hmax : s.lastValueMax = s.valueMax)
    (hle : s.valueMin ≤ s.valueMax) (hgt : constrainedValue s v > s.valueMax) :
    (setMinValue s v a b true).valueMin
      = max s.valueMin (constrainedValue s (constrainedValue s v)) := by
  rw [setMinValue_twoValue s v a b true h2]
  simp only [hgt, and_self, ↓reduceIte]
  rw [storeMinValue_valueMin_of_sync _ _ a b
    (by rw [storeMaxValue_lastValueMin, storeMaxValue_valueMin]; exact hmin)]
  rw [storeMaxValue_valueMax_of_sync s _ a b hmax]
  apply min_eq_left
  exact max_le (le_of_lt (lt_of_le_of_lt hle hgt)) (constrainedValue_constrainedValue_le s v)

theorem setMaxValue_nudge_valueMin (s : Pimpl) (v : ℚ) (a b : Bool) (h2 : isTwoValue s = true)
    (hmin : s.lastValueMin = s.valueMin) (hlt : constrainedValue s v < s.valueMin) :
    (setMaxValue s v a b true).valueMin
      = min s.valueMax (constrainedValue s (constrainedValue s v)) := by
  rw [setMaxValue_twoValue s v a b true h2]
  simp only [hlt, and_self, ↓reduceIte, storeMaxValue_valueMin]
  exact storeMinValue_valueMin_of_sync s _ a b hmin

theorem setMaxValue_nudge_valueMax (s : Pimpl) (v : ℚ) (a b : Bool) (h2 : isTwoValue s = true)
    (hmin : s.lastValueMin = s.valueMin) (hmax : s.lastValueMax = s.valueMax)
    (hlt : constrainedValue s v < s.valueMin) :
    (setMaxValue s v a b true).valueMax = constrainedValue s v := by
  rw [setMaxValue_twoValue s v a b true h2]
  simp only [hlt, and_self, ↓reduceIte]
  rw [storeMaxValue_valueMax_of_sync _ _ a b
    (by rw [storeMinValue_lastValueMax, storeMinValue_valueMax]; exact hmax)]
  rw [storeMinValue_valueMin_of_sync s _ a b hmin]
  apply max_eq_right
  exact le_trans (min_le_right _ _) (constrainedValue_constrainedValue_le s v)


theorem setRange_thirdsSlider (style : SliderStyle) :
    setRange (Pimpl.init style) 0 10 3 = some (thirdsSlider style) := by
  simp only [setRange, decimalPlacesFor_three, keepValuesInsideRange, setMinValue_noNudge,
    setMaxValue_noNudge]
  cases style <;>
    norm_num +decide [Pimpl.init, thirdsSlider, isTwoValue, setValue, getValue, getMinValue,
      getMaxValue, constrainedValue, snappedValue, isThreeValue, storeMinValue, storeMaxValue,
      jlimit]

theorem setMaxValue_thirdsSlider :
    setMaxValue (thirdsSlider TwoValueHorizontal) 3 false false false = thirdsTwoValueSlider := by
  rw [setMaxValue_noNudge]
  norm_num +decide [Pimpl.init, thirdsSlider, thirdsTwoValueSlider, isTwoValue, constrainedValue,
    snappedValue, storeMaxValue]

/-! ## C5: nudging the other value -/

/-- C5, as stated, fails: the two-value slider with range `[0, 10]`, interval `3`, min value
`0` and max value `3` is what `setRange (0, 10, 3)` and `setMaxValue (3)` leave; there
`constrainedValue (11) = 10` exceeds the max value, and `setMinValue (11)` with nudging
leaves the min value and the max value at `9`, not at `10`. -/
theorem twoValue_nudging_counterexample :
    setRange (Pimpl.init TwoValueHorizontal) 0 10 3 = some (thirdsSlider TwoValueHorizontal)
      ∧ setMaxValue (thirdsSlider TwoValueHorizontal) 3 false false false = thirdsTwoValueSlider
      ∧ isTwoValue thirdsTwoValueSlider = true
      ∧ getMinValue thirdsTwoValueSlider ≤ getMaxValue thirdsTwoValueSlider
      ∧ constrainedValue thirdsTwoValueSlider 11 = 10
      ∧ constrainedValue thirdsTwoValueSlider 11 > getMaxValue thirdsTwoValueSlider
      ∧ getMinValue (setMinValue thirdsTwoValueSlider 11 true false true) = 9
      ∧ getMaxValue (setMinValue thirdsTwoValueSlider 11 true false true) = 9 := by
  have hcv : constrainedValue thirdsTwoValueSlider 11 = 10 := by
    norm_num [constrainedValue, snappedValue, thirdsTwoValueSlider, thirdsSlider, Pimpl.init]
  have hcv2 : constrainedValue thirdsTwoValueSlider 10 = 9 := by
    norm_num [constrainedValue, snappedValue, thirdsTwoValueSlider, thirdsSlider, Pimpl.init]
  have hgt : constrainedValue thirdsTwoValueSlider 11 > thirdsTwoValueSlider.valueMax := by
    rw [hcv]; norm_num [thirdsTwoValueSlider]
  refine ⟨setRange_thirdsSlider _, setMaxValue_thirdsSlider, rfl, ?_, hcv, hgt, ?_, ?_⟩
  · norm_num [getMinValue, getMaxValue, thirdsTwoValueSlider, thirdsSlider, Pimpl.init]
  · rw [getMinValue, setMinValue_nudge_valueMin thirdsTwoValueSlider 11 true false rfl rfl rfl
      (by norm_num [thirdsTwoValueSlider, thirdsSlider, Pimpl.init]) hgt, hcv, hcv2]
    norm_num [thirdsTwoValueSlider, thirdsSlider, Pimpl.init]
  · rw [getMaxValue, setMinValue_nudge_valueMax thirdsTwoValueSlider 11 true false rfl rfl hgt,
      hcv, hcv2]
    norm_num [thirdsTwoValueSlider, thirdsSlider, Pimpl.init]

/-- C5, amended: for a two-value slider with min value <= max value whose `lastValueMin` and
`lastValueMax` agree with the value objects, `setMinValue (v)` with nudging and
`constrainedValue (v)` above the max value leaves the min value and the max value both equal
to the larger of the old min value and `constrainedValue (constrainedValue (v))`;
`setMaxValue (v)` with nudging and `constrainedValue (v)` below the min value leaves the max
value at `constrainedValue (v)` and the min value at the smaller of the old max value and
`constrainedValue (constrainedValue (v))`.  Whenever constraining `v` twice equals
constraining it once, both values are `constrainedValue (v)` in either case. -/
theorem twoValue_nudging (s : Pimpl) (v : ℚ) (a b : Bool) (h2 : isTwoValue s = true)
    (hmin : s.lastValueMin = s.valueMin) (hmax : s.lastValueMax = s.valueMax)
    (hle : getMinValue s ≤ getMaxValue s) :
    (constrainedValue s v > getMaxValue s →
        getMinValue (setMinValue s v a b true)
            = max (getMinValue s) (constrainedValue s (constrainedValue s v))
          ∧ getMaxValue (setMinValue s v a b true)
            = max (getMinValue s) (constrainedValue s (constrainedValue s v)))
      ∧ (constrainedValue s v < getMinValue s →
        getMinValue (setMaxValue s v a b true)
            = min (getMaxValue s) (constrainedValue s (constrainedValue s v))
          ∧ getMaxValue (setMaxValue s v a b true) = constrainedValue s v)
      ∧ (constrainedValue s (constrainedValue s v) = constrainedValue s v →
          (constrainedValue s v > getMaxValue s →
            getMinValue (setMinValue s v a b true) = constrainedValue s v
              ∧ getMaxValue (setMinValue s v a b true) = constrainedValue s v)
          ∧ (constrainedValue s v < getMinValue s →
            getMinValue (setMaxValue s v a b true) = constrainedValue s v
              ∧ getMaxValue (setMaxValue s v a b true) = constrainedValue s v)) := by
  unfold getMinValue getMaxValue at *
  have up : constrainedValue s v > s.valueMax →
      (setMinValue s v a b true).valueMin
          = max s.valueMin (constrainedValue s (constrainedValue s v))
        ∧ (setMinValue s v a b true).valueMax
          = max s.valueMin (constrainedValue s (constrainedValue s v)) := fun hgt =>
    ⟨setMinValue_nudge_valueMin s v a b h2 hmin hmax hle hgt,
      setMinValue_nudge_valueMax s v a b h2 hmax hgt⟩
  have down : constrainedValue s v < s.valueMin →
      (setMaxValue s v a b true).valueMin
          = min s.valueMax (constrainedValue s (constrainedValue s v))
        ∧ (setMaxValue s v a b true).valueMax = constrainedValue s v := fun hlt =>
    ⟨setMaxValue_nudge_valueMin s v a b h2 hmin hlt,
      setMaxValue_nudge_valueMax s v a b h2 hmin hmax hlt⟩
  refine ⟨up, down, fun hid => ⟨fun hgt => ?_, fun hlt => ?_⟩⟩
  · have e : max s.valueMin (constrainedValue s v) = constrainedValue s v :=
      max_eq_right (le_of_lt (lt_of_le_of_lt hle hgt))
    obtain ⟨h1, h3⟩ := up hgt
    rw [hid, e] at h1 h3
    exact ⟨h1, h3⟩
  · have e : min s.valueMax (constrainedValue s v) = constrainedValue s v :=
      min_eq_right (le_of_lt (lt_of_lt_of_le hlt hle))
    obtain ⟨h1, h3⟩ := down hlt
    rw [hid, e] at h1
    exact ⟨h1, h3⟩

theorem constrainedValue_twoEight_9 : constrainedValue twoEightSlider 9 = 9 := by
  norm_num [constrainedValue, snappedValue, twoEightSlider, Pimpl.init]

/-- Witness for C5: range `[0, 10]`, min value `2`, max value `8`: `setMinValue (9)` with
nudging leaves the min value and the max value at `9`. -/
theorem twoValue_nudging_witness :
    getMinValue (setMinValue twoEightSlider 9 true false true) = 9
      ∧ getMaxValue (setMinValue twoEightSlider 9 true false true) = 9 := by
  have h := (twoValue_nudging twoEightSlider 9 true false rfl rfl rfl
    (by norm_num [getMinValue, getMaxValue, twoEightSlider, Pimpl.init])).2.2
    (by rw [constrainedValue_twoEight_9, constrainedValue_twoEight_9])
  have h' := h.1 (by
    rw [constrainedValue_twoEight_9]; norm_num [getMaxValue, twoEightSlider, Pimpl.init])
  rw [constrainedValue_twoEight_9] at h'
  exact h'


theorem snappedValue_mono (s : Pimpl) {x y : ℚ} (h : x ≤ y) :
    snappedValue s x ≤ snappedValue s y := by
  rcases le_or_lt s.interval 0 with hi | hi
  · rw [snappedValue_of_nonpos s x hi, snappedValue_of_nonpos s y hi]; exact h
  · rw [snappedValue_of_pos s x hi, snappedValue_of_pos s y hi]
    have h1 : (x - s.minimum) / s.interval + 1 / 2 ≤ (y - s.minimum) / s.interval + 1 / 2 := by
      have := div_le_div_of_nonneg_right (sub_le_sub_right h s.minimum) (le_of_lt hi)
      linarith
    have h2 : ((⌊(x - s.minimum) / s.interval + 1 / 2⌋ : ℤ) : ℚ)
        ≤ ((⌊(y - s.minimum) / s.interval + 1 / 2⌋ : ℤ) : ℚ) := by
      exact_mod_cast Int.floor_mono h1
    have := mul_le_mul_of_nonneg_left h2 (le_of_lt hi)
    linarith

theorem constrainedValue_eq_clamp (s : Pimpl) (v : ℚ) (hr : s.minimum < s.maximum) :
    constrainedValue s v = max s.minimum (min s.maximum (snappedValue s v)) := by
  rcases le_or_lt (snappedValue s v) s.minimum with h1 | h1
  · rw [constrainedValue_of_le_minimum s v h1, min_eq_right (le_trans h1 (le_of_lt hr)),
      max_eq_left h1]
  rcases lt_or_le (snappedValue s v) s.maximum with h2 | h2
  · rw [constrainedValue_of_inside s v h1 h2, min_eq_right (le_of_lt h2),
      max_eq_right (le_of_lt h1)]
  · rw [constrainedValue_of_ge_maximum s v hr h2, min_eq_left h2, max_eq_right (le_of_lt hr)]

theorem constrainedValue_mono (s : Pimpl) {x y : ℚ} (h : x ≤ y) :
    constrainedValue s x ≤ constrainedValue s y := by
  rcases le_or_lt s.maximum s.minimum with hd | hr
  · rw [constrainedValue_of_degenerate s x hd, constrainedValue_of_degenerate s y hd]
  · rw [constrainedValue_eq_clamp s x hr, constrainedValue_eq_clamp s y hr]
    exact max_le_max le_rfl (min_le_min le_rfl (snappedValue_mono s h))

theorem storeMinValue_le (s : Pimpl) (x : ℚ) (a b : Bool) (h : s.valueMin ≤ s.valueMax)
    (hx : x ≤ s.valueMax) : (storeMinValue s x a b).valueMin ≤ (storeMinValue s x a b).valueMax := by
  rw [storeMinValue_valueMin, storeMinValue_valueMax]
  split_ifs
  · exact hx
  · exact h

theorem storeMaxValue_le (s : Pimpl) (x : ℚ) (a b : Bool) (h : s.valueMin ≤ s.valueMax)
    (hx : s.valueMin ≤ x) : (storeMaxValue s x a b).valueMin ≤ (storeMaxValue s x a b).valueMax := by
  rw [storeMaxValue_valueMin, storeMaxValue_valueMax]
  split_ifs
  · exact hx
  · exact h

theorem setMinValue_min_le_max (s : Pimpl) (v : ℚ) (a b n : Bool) (h2 : isTwoValue s = true)
    (h : s.valueMin ≤ s.valueMax) :
    (setMinValue s v a b n).valueMin ≤ (setMinValue s v a b n).valueMax := by
  rw [setMinValue_twoValue s v a b n h2]
  apply storeMinValue_le _ _ _ _ _ (min_le_left _ _)
  split_ifs
  · exact storeMaxValue_le s _ a b h (le_max_left _ _)
  · exact h

theorem setMaxValue_min_le_max (s : Pimpl) (v : ℚ) (a b n : Bool) (h2 : isTwoValue s = true)
    (h : s.valueMin ≤ s.valueMax) :
    (setMaxValue s v a b n).valueMin ≤ (setMaxValue s v a b n).valueMax := by
  rw [setMaxValue_twoValue s v a b n h2]
  apply storeMaxValue_le _ _ _ _ _ (le_max_left _ _)
  split_ifs
  · exact storeMinValue_le s _ a b h (min_le_left _ _)
  · exact h

theorem setMinAndMaxValues_min_le_max (s : Pimpl) (x y : ℚ) (a b : Bool)
    (h : s.valueMin ≤ s.valueMax) :
    (setMinAndMaxValues s x y a b).valueMin ≤ (setMinAndMaxValues s x y a b).valueMax := by
  have hsw : (if y < x then (y, x) else (x, y) : ℚ × ℚ).1
      ≤ (if y < x then (y, x) else (x, y) : ℚ × ℚ).2 := by
    split_ifs with hc
    · exact le_of_lt hc
    · exact not_lt.mp hc
  have hcv := constrainedValue_mono s hsw
  unfold setMinAndMaxValues triggerChangeMessage
  simp only
  generalize (if y < x then (y, x) else (x, y) : ℚ × ℚ) = sw at hcv ⊢
  split_ifs <;> first | exact hcv | exact h

theorem storeMinValue_style (s : Pimpl) (x : ℚ) (a b : Bool) :
    (storeMinValue s x a b).style = s.style := by
  unfold storeMinValue triggerChangeMessage
  split_ifs <;> rfl

theorem storeMaxValue_style (s : Pimpl) (x : ℚ) (a b : Bool) :
    (storeMaxValue s x a b).style = s.style := by
  unfold storeMaxValue triggerChangeMessage
  split_ifs <;> rfl

theorem setMinValue_style (s : Pimpl) (v : ℚ) (a b : Bool) :
    (setMinValue s v a b false).style = s.style := by
  rw [setMinValue_noNudge, storeMinValue_style]

theorem isTwoValue_congr {s t : Pimpl} (h : t.style = s.style) : isTwoValue t = isTwoValue s := by
  simp [isTwoValue, h]

theorem setRange_eq_some {s s' : Pimpl} {lo hi i : ℚ} (h : setRange s lo hi i = some s') :
    s' = s ∨ ∃ n : ℤ, s' = keepValuesInsideRange
      { s with minimum := lo, maximum := hi, interval := i, numDecimalPlaces := n } := by
  unfold setRange at h
  split_ifs at h with hc
  · split at h
    · exact absurd h (by simp)
    · rename_i n _
      exact Or.inr ⟨n, (Option.some.inj h).symm⟩
  · exact Or.inl (Option.some.inj h).symm

theorem keepValuesInsideRange_min_le_max (s : Pimpl) (h2 : isTwoValue s = true)
    (h : s.valueMin ≤ s.valueMax) :
    (keepValuesInsideRange s).valueMin ≤ (keepValuesInsideRange s).valueMax := by
  unfold keepValuesInsideRange
  simp only [h2, not_true_eq_false, ↓reduceIte]
  apply setMaxValue_min_le_max
  · rw [isTwoValue_congr (setMinValue_style s _ _ _), h2]
  · exact setMinValue_min_le_max s _ _ _ _ h2 h

theorem setRange_min_le_max (s s' : Pimpl) (lo hi i : ℚ) (h2 : isTwoValue s = true)
    (h : s.valueMin ≤ s.valueMax) (hs : setRange s lo hi i = some s') :
    s'.valueMin ≤ s'.valueMax := by
  rcases setRange_eq_some hs with e | ⟨n, e⟩
  · rw [e]; exact h
  · rw [e]
    exact keepValuesInsideRange_min_le_max _ (by rw [isTwoValue_congr rfl]; exact h2) h

/-! ## C6: min value <= max value -/

/-- C6: for a two-value slider `min value <= max value` is an invariant: a new slider has
both values `0`, and from a state with min value <= max value every `setMinValue` and
`setMaxValue` (with or without nudging), every `setMinAndMaxValues` (in either argument
order) and every `setRange` that returns leaves min value <= max value. -/
theorem twoValue_min_le_max_invariant :
    (∀ style : SliderStyle,
        getMinValue (Pimpl.init style) = 0 ∧ getMaxValue (Pimpl.init style) = 0
          ∧ getMinValue (Pimpl.init style) ≤ getMaxValue (Pimpl.init style))
      ∧ ∀ s : Pimpl, isTwoValue s = true → getMinValue s ≤ getMaxValue s →
          (∀ (v : ℚ) (a b n : Bool),
              getMinValue (setMinValue s v a b n) ≤ getMaxValue (setMinValue s v a b n))
            ∧ (∀ (v : ℚ) (a b n : Bool),
              getMinValue (setMaxValue s v a b n) ≤ getMaxValue (setMaxValue s v a b n))
            ∧ (∀ (x y : ℚ) (a b : Bool),
              getMinValue (setMinAndMaxValues s x y a b)
                ≤ getMaxValue (setMinAndMaxValues s x y a b))
            ∧ (∀ (lo hi i : ℚ) (s' : Pimpl), setRange s lo hi i = some s' →
              getMinValue s' ≤ getMaxValue s') := by
  refine ⟨fun style => ⟨rfl, rfl, le_refl _⟩, fun s h2 h => ⟨?_, ?_, ?_, ?_⟩⟩
  · exact fun v a b n => setMinValue_min_le_max s v a b n h2 h
  · exact fun v a b n => setMaxValue_min_le_max s v a b n h2 h
  · exact fun x y a b => setMinAndMaxValues_min_le_max s x y a b h
  · exact fun lo hi i s' hs => setRange_min_le_max s s' lo hi i h2 h hs


theorem decimalPlacesFor_zero : decimalPlacesFor 0 = some 7 := by
  simp [decimalPlacesFor]

/-- Witness for C6: from range `[0, 10]`, min value `2`, max value `8`, a nudging
`setMinValue (9)` and `setRange (0, 5, 0)`, which pulls the max value down to `5`. -/
theorem twoValue_min_le_max_invariant_witness :
    getMinValue (setMinValue twoEightSlider 9 true false true)
        ≤ getMaxValue (setMinValue twoEightSlider 9 true false true)
      ∧ setRange twoEightSlider 0 5 0
          = some { twoEightSlider with maximum := 5, valueMax := 5, lastValueMax := 5 }
      ∧ getMinValue { twoEightSlider with maximum := 5, valueMax := 5, lastValueMax := 5 }
          ≤ getMaxValue { twoEightSlider with maximum := 5, valueMax := 5, lastValueMax := 5 } :=
  have h := twoValue_min_le_max_invariant.2 twoEightSlider rfl
    (by norm_num [getMinValue, getMaxValue, twoEightSlider, Pimpl.init])
  have hs : setRange twoEightSlider 0 5 0
      = some { twoEightSlider with maximum := 5, valueMax := 5, lastValueMax := 5 } := by
    simp only [setRange, decimalPlacesFor_zero, keepValuesInsideRange, setMinValue_noNudge,
      setMaxValue_noNudge]
    norm_num +decide [Pimpl.init, twoEightSlider, isTwoValue, getMinValue, getMaxValue,
      constrainedValue, snappedValue, storeMinValue, storeMaxValue]
  ⟨h.1 9 true false true, hs, h.2.2.2 0 5 0 _ hs⟩

/-! ## C7: setting the current value again -/

theorem constrainedValue_congr {s t : Pimpl} (h1 : t.minimum = s.minimum)
    (h2 : t.maximum = s.maximum) (h3 : t.interval = s.interval) (v : ℚ) :
    constrainedValue t v = constrainedValue s v := by
  simp only [constrainedValue, snappedValue, h1, h2, h3]

theorem setValue_range (s : Pimpl) (v : ℚ) (a b : Bool) :
    (setValue s v a b).style = s.style ∧ (setValue s v a b).minimum = s.minimum
      ∧ (setValue s v a b).maximum = s.maximum ∧ (setValue s v a b).interval = s.interval := by
  unfold setValue triggerChangeMessage
  simp only
  split_ifs <;> exact ⟨rfl, rfl, rfl, rfl⟩

theorem isThreeValue_congr {s t : Pimpl} (h : t.style = s.style) :
    isThreeValue t = isThreeValue s := by
  simp [isThreeValue, h]

theorem setValue_eq_self_iff (s : Pimpl) (v : ℚ) (a b : Bool) (h3 : isThreeValue s = false) :
    setValue s v a b = s ↔ constrainedValue s v = s.lastCurrentValue := by
  constructor
  · intro h
    have := setValue_lastCurrentValue s v a b h3
    rw [h] at this
    exact this.symm
  · intro h
    unfold setValue
    simp [h3, h]

theorem setValue_inv (s : Pimpl) (v : ℚ) (a b : Bool) (h2 : isTwoValue s = false)
    (h3 : isThreeValue s = false) (hc : s.currentValue = s.lastCurrentValue) :
    isTwoValue (setValue s v a b) = false ∧ isThreeValue (setValue s v a b) = false
      ∧ (setValue s v a b).currentValue = (setValue s v a b).lastCurrentValue
      ∧ ∃ x : ℚ, (setValue s v a b).lastCurrentValue = constrainedValue (setValue s v a b) x := by
  obtain ⟨r1, r2, r3, r4⟩ := setValue_range s v a b
  refine ⟨by rw [isTwoValue_congr r1]; exact h2, by rw [isThreeValue_congr r1]; exact h3,
    ?_, v, ?_⟩
  · rw [setValue_currentValue _ _ _ _ h3 hc, setValue_lastCurrentValue _ _ _ _ h3]
  · rw [setValue_lastCurrentValue _ _ _ _ h3, constrainedValue_congr r2 r3 r4]

/-- What every reachable single-value state satisfies: the style stays single-value, the
value object agrees with `lastCurrentValue`, and the value is a constrained value. -/
theorem reachableSingleValue_inv {s : Pimpl} (h : ReachableSingleValue s) :
    isTwoValue s = false ∧ isThreeValue s = false ∧ s.currentValue = s.lastCurrentValue
      ∧ ∃ x : ℚ, s.lastCurrentValue = constrainedValue s x := by
  induction h with
  | init style h2 h3 =>
    refine ⟨h2, h3, rfl, 0, ?_⟩
    simp [constrainedValue, snappedValue, Pimpl.init]
  | @setRange s s' lo hi i _ hs ih =>
    obtain ⟨h2, h3, hc, hx⟩ := ih
    rcases setRange_eq_some hs with e | ⟨n, e⟩
    · rw [e]; exact ⟨h2, h3, hc, hx⟩
    · have h2' : isTwoValue
          { s with minimum := lo, maximum := hi, interval := i, numDecimalPlaces := n } = false :=
        by rw [isTwoValue_congr rfl]; exact h2
      have h3' : isThreeValue
          { s with minimum := lo, maximum := hi, interval := i, numDecimalPlaces := n } = false :=
        by rw [isThreeValue_congr rfl]; exact h3
      unfold keepValuesInsideRange at e
      simp only [h2', Bool.false_eq_true, not_false_eq_true, ↓reduceIte] at e
      rw [e]
      exact setValue_inv _ _ _ _ h2' h3' hc
  | @setValue s v a b _ ih =>
    obtain ⟨h2, h3, hc, _⟩ := ih
    exact setValue_inv s v a b h2 h3 hc

theorem setValue_thirdsSlider_11 :
    setValue (thirdsSlider LinearHorizontal) 11 false false = thirdsSliderAtMaximum := by
  unfold setValue
  rw [constrainedValue_thirds_11]
  norm_num +decide [thirdsSlider, thirdsSliderAtMaximum, Pimpl.init, isThreeValue]

theorem reachable_thirdsSliderAtMaximum : ReachableSingleValue thirdsSliderAtMaximum := by
  rw [← setValue_thirdsSlider_11]
  exact .setValue 11 false false
    (.setRange 0 10 3 (.init LinearHorizontal rfl rfl) (setRange_thirdsSlider LinearHorizontal))

/-- C7, as stated, fails: a slider given `setRange (0, 10, 3)` and `setValue (11)` holds the
value `10` and has sent no change message; `setValue (getValue ())` then stores `9` and
sends a change message. -/
theorem setValue_current_noop_counterexample :
    ReachableSingleValue thirdsSliderAtMaximum
      ∧ getValue thirdsSliderAtMaximum = 10
      ∧ thirdsSliderAtMaximum.changeMessages = []
      ∧ getValue (setValue thirdsSliderAtMaximum (getValue thirdsSliderAtMaximum) true true) = 9
      ∧ (setValue thirdsSliderAtMaximum (getValue thirdsSliderAtMaximum) true true).changeMessages
          = [true] := by
  have hcv : constrainedValue thirdsSliderAtMaximum 10 = 9 := by
    norm_num [constrainedValue, snappedValue, thirdsSliderAtMaximum, thirdsSlider, Pimpl.init]
  have hg : getValue thirdsSliderAtMaximum = 10 := rfl
  refine ⟨reachable_thirdsSliderAtMaximum, hg, rfl, ?_, ?_⟩
  · rw [hg, getValue, setValue_currentValue thirdsSliderAtMaximum 10 true true rfl rfl, hcv]
  · rw [hg]
    unfold setValue
    rw [hcv]
    norm_num +decide [thirdsSliderAtMaximum, thirdsSlider, Pimpl.init, isThreeValue,
      triggerChangeMessage]

/-- C7, amended: in every state a single-value slider reaches through `setRange` and
`setValue`, `setValue (getValue (), sendUpdateMessage = true, ...)` leaves the whole state
unchanged (same stored value, no change message) exactly when the current value is its own
constrained value; this is so in every such state whose range is a whole number of
intervals (or has no positive interval, or maximum <= minimum). -/
theorem setValue_current_noop (s : Pimpl) (h : ReachableSingleValue s)
    (sendMessageSynchronously : Bool) :
    (setValue s (getValue s) true sendMessageSynchronously = s
        ↔ constrainedValue s (getValue s) = getValue s)
      ∧ (rangeIsWholeIntervals s → setValue s (getValue s) true sendMessageSynchronously = s) := by
  obtain ⟨_, h3, hc, x, hx⟩ := reachableSingleValue_inv h
  have hiff : setValue s (getValue s) true sendMessageSynchronously = s
      ↔ constrainedValue s (getValue s) = getValue s := by
    rw [setValue_eq_self_iff s _ _ _ h3, getValue, hc]
  refine ⟨hiff, fun hw => hiff.mpr ?_⟩
  rw [getValue, hc, hx]
  exact constrainedValue_idem_of_not_offGrid s x (not_offGrid_of_range_multiple s x hw)

/-- Witness for C7: after `setRange (0, 10, 1)` on a new slider, setting the current value
again changes nothing. -/
theorem setValue_current_noop_witness :
    setValue (unitSlider LinearHorizontal) (getValue (unitSlider LinearHorizontal)) true true
      = unitSlider LinearHorizontal :=
  (setValue_current_noop (unitSlider LinearHorizontal)
      (.setRange 0 10 1 (.init LinearHorizontal rfl rfl) setRange_unitSlider) true).2
    (Or.inr (Or.inr ⟨10, by norm_num [unitSlider, Pimpl.init]⟩))


end Slider

namespace ScrollBar

/-! ## Ranges and the scroll bar's visible range -/

theorem jlimit_mem {lower upper : ℚ} (h : lower ≤ upper) (v : ℚ) :
    lower ≤ jlimit lower upper v ∧ jlimit lower upper v ≤ upper := by
  unfold jlimit
  split_ifs with h1 h2
  · exact ⟨le_refl _, h⟩
  · exact ⟨h, le_refl _⟩
  · exact ⟨not_lt.mp h1, not_lt.mp h2⟩

theorem jlimit_of_mem {lower upper v : ℚ} (h1 : lower ≤ v) (h2 : v ≤ upper) :
    jlimit lower upper v = v := by
  unfold jlimit
  rw [if_neg (not_lt.mpr h1), if_neg (not_lt.mpr h2)]

theorem Range.eq_iff (r t : Range) : r = t ↔ r.start = t.start ∧ r.end_ = t.end_ := by
  cases r; cases t; simp

theorem constrainRange_within (total r : Range) :
    total.start ≤ (total.constrainRange r).start
      ∧ (total.constrainRange r).end_ ≤ total.end_ := by
  unfold Range.constrainRange
  simp only
  split_ifs with h
  · exact ⟨le_refl _, le_refl _⟩
  · have hl : total.start ≤ total.end_ - r.getLength := by
      unfold Range.getLength at h ⊢
      linarith [not_le.mp h]
    obtain ⟨h1, h2⟩ := jlimit_mem hl r.start
    unfold Range.movedToStartAt
    simp only
    refine ⟨h1, ?_⟩
    unfold Range.getLength at *
    linarith

theorem constrainRange_getLength_le (total r : Range) :
    (total.constrainRange r).getLength ≤ total.getLength := by
  obtain ⟨h1, h2⟩ := constrainRange_within total r
  unfold Range.getLength
  linarith

theorem constrainRange_of_within (total r : Range) (h1 : total.start ≤ r.start)
    (h2 : r.end_ ≤ total.end_) : total.constrainRange r = r := by
  unfold Range.constrainRange
  simp only
  split_ifs with h
  · unfold Range.getLength at h
    rw [Range.eq_iff]
    constructor <;> linarith
  · rw [jlimit_of_mem h1 (by unfold Range.getLength; linarith)]
    unfold Range.movedToStartAt
    rw [Range.eq_iff]
    simp

/-- When the range is no longer than `total`, constraining keeps its length and clamps its
start into `[total.start, total.end - length]`. -/
theorem constrainRange_of_length_le (total r : Range) (h : r.getLength ≤ total.getLength) :
    (total.constrainRange r).start
        = jlimit total.start (total.end_ - r.getLength) r.start
      ∧ (total.constrainRange r).getLength = r.getLength := by
  unfold Range.constrainRange
  simp only
  split_ifs with h'
  · have e : r.getLength = total.getLength := le_antisymm h h'
    refine ⟨?_, e.symm⟩
    have e2 : total.end_ - r.getLength = total.start := by
      rw [e]; unfold Range.getLength; ring
    rw [e2]
    obtain ⟨h1, h2⟩ := jlimit_mem (le_refl total.start) r.start
    exact le_antisymm h1 h2
  · refine ⟨rfl, ?_⟩
    unfold Range.movedToStartAt Range.getLength
    simp only
    ring

theorem updateThumbPosition_ranges (sb : ScrollBar) :
    (updateThumbPosition sb).totalRange = sb.totalRange
      ∧ (updateThumbPosition sb).visibleRange = sb.visibleRange := by
  unfold updateThumbPosition
  simp only
  split_ifs <;> exact ⟨rfl, rfl⟩

theorem setCurrentRange_totalRange (sb : ScrollBar) (r : Range) :
    (setCurrentRange sb r).totalRange = sb.totalRange := by
  unfold setCurrentRange triggerAsyncUpdate
  simp only
  split_ifs
  · exact (updateThumbPosition_ranges _).1
  · rfl

theorem setCurrentRange_visibleRange (sb : ScrollBar) (r : Range) :
    (setCurrentRange sb r).visibleRange = sb.totalRange.constrainRange r := by
  unfold setCurrentRange triggerAsyncUpdate
  simp only
  split_ifs with h
  · exact (updateThumbPosition_ranges _).2
  · exact not_not.mp h

theorem setCurrentRange_within (sb : ScrollBar) (r : Range) :
    visibleWithinTotal (setCurrentRange sb r) := by
  unfold visibleWithinTotal
  rw [setCurrentRange_totalRange, setCurrentRange_visibleRange]
  exact constrainRange_within _ _

theorem setRangeLimits_within (sb : ScrollBar) (r : Range) (h : visibleWithinTotal sb) :
    visibleWithinTotal (setRangeLimits sb r) := by
  unfold setRangeLimits
  split_ifs with hc
  · have := setCurrentRange_within { sb with totalRange := r } sb.visibleRange
    unfold visibleWithinTotal at this ⊢
    simp only
    rw [(updateThumbPosition_ranges _).1, (updateThumbPosition_ranges _).2]
    exact this
  · exact h

theorem updateThumbPosition_within (sb : ScrollBar) (h : visibleWithinTotal sb) :
    visibleWithinTotal (updateThumbPosition sb) := by
  unfold visibleWithinTotal at h ⊢
  rw [(updateThumbPosition_ranges _).1, (updateThumbPosition_ranges _).2]
  exact h

theorem visibleWithinTotal_congr {sb t : ScrollBar} (h1 : t.totalRange = sb.totalRange)
    (h2 : t.visibleRange = sb.visibleRange) (h : visibleWithinTotal sb) :
    visibleWithinTotal t := by
  unfold visibleWithinTotal at h ⊢
  rw [h1, h2]; exact h

theorem startTimer_within (sb : ScrollBar) (ms : ℕ) (h : visibleWithinTotal sb) :
    visibleWithinTotal (startTimer sb ms) := h

theorem stopTimer_within (sb : ScrollBar) (h : visibleWithinTotal sb) :
    visibleWithinTotal (stopTimer sb) := h

theorem moveScrollbarInPages_within (sb : ScrollBar) (n : ℤ) :
    visibleWithinTotal (moveScrollbarInPages sb n) :=
  setCurrentRange_within sb _

theorem setCurrentRangeStart_within (sb : ScrollBar) (x : ℚ) :
    visibleWithinTotal (setCurrentRangeStart sb x) :=
  setCurrentRange_within sb _

theorem mouseDown_within (sb : ScrollBar) (e : MouseEvent) (h : visibleWithinTotal sb) :
    visibleWithinTotal (mouseDown sb e) := by
  unfold mouseDown
  simp only
  generalize (if sb.vertical = true then e.y else e.x) = pos
  split_ifs
  · exact startTimer_within _ _ (moveScrollbarInPages_within _ _)
  · exact startTimer_within _ _ (moveScrollbarInPages_within _ _)
  · exact h

theorem mouseDrag_within (sb : ScrollBar) (e : MouseEvent) (h : visibleWithinTotal sb) :
    visibleWithinTotal (mouseDrag sb e) := by
  unfold mouseDrag
  simp only
  generalize (if sb.vertical = true then e.y else e.x) = pos
  split_ifs
  · exact setCurrentRangeStart_within _ _
  · exact h

theorem timerCallback_within (sb : ScrollBar) (b : Bool) (h : visibleWithinTotal sb) :
    visibleWithinTotal (timerCallback sb b) := by
  unfold timerCallback
  simp only
  split_ifs
  · exact setCurrentRange_within _ _
  · exact setCurrentRangeStart_within _ _
  · exact h
  · exact h

/-- The visible range of every reachable state lies inside the total range. -/
theorem visibleWithinTotal_of_reachable {sb : ScrollBar} (h : Reachable sb) :
    visibleWithinTotal sb := by
  induction h with
  | init v bv m l d r =>
    apply updateThumbPosition_within
    unfold visibleWithinTotal
    norm_num
  | setRangeLimits r _ ih => exact setRangeLimits_within _ r ih
  | setCurrentRange r _ _ => exact setCurrentRange_within _ r
  | setCurrentRangeStart x _ _ => exact setCurrentRange_within _ _
  | setSingleStepSize x _ ih => exact ih
  | moveScrollbarInSteps n _ _ => exact setCurrentRange_within _ _
  | moveScrollbarInPages n _ _ => exact setCurrentRange_within _ _
  | scrollToTop _ _ => exact setCurrentRange_within _ _
  | scrollToBottom _ _ => exact setCurrentRange_within _ _
  | setOrientation b _ ih =>
    unfold setOrientation
    split_ifs
    · exact updateThumbPosition_within _ ih
    · exact ih
  | setButtonVisibility b _ ih => exact updateThumbPosition_within _ ih
  | setAutoHide b _ ih => exact updateThumbPosition_within _ ih
  | resized l bs _ ih =>
    unfold resized
    simp only
    apply updateThumbPosition_within
    split_ifs <;> exact ih
  | mouseDown e _ ih => exact mouseDown_within _ e ih
  | mouseDrag e _ ih => exact mouseDrag_within _ e ih
  | mouseUp _ ih => exact ih
  | mouseWheelMove w _ _ => exact setCurrentRange_within _ _
  | timerCallback b _ ih => exact timerCallback_within _ b ih


theorem setRangeLimits_totalRange (sb : ScrollBar) (r : Range) :
    (setRangeLimits sb r).totalRange = r := by
  unfold setRangeLimits
  split_ifs with h
  · simp only
    rw [(updateThumbPosition_ranges _).1, setCurrentRange_totalRange]
  · exact not_not.mp h

/-- A new scroll bar has total range `[0, 1]` and visible range `[0, 0.1]`. -/
theorem init_ranges (vertical buttonsAreVisible : Bool) (minimumScrollbarThumbSize : ℤ)
    (lastMousePos dragStartMousePos : ℤ) (dragStartRange : ℚ) :
    (ScrollBar.init vertical buttonsAreVisible minimumScrollbarThumbSize lastMousePos
        dragStartMousePos dragStartRange).totalRange = { start := 0, end_ := 1 }
      ∧ (ScrollBar.init vertical buttonsAreVisible minimumScrollbarThumbSize lastMousePos
        dragStartMousePos dragStartRange).visibleRange = { start := 0, end_ := 1 / 10 } :=
  updateThumbPosition_ranges _

theorem reachable_hundredBar : Reachable hundredBar :=
  .setCurrentRange _ (.setRangeLimits _ (.init false false 0 0 0 0))

theorem hundredBar_totalRange : hundredBar.totalRange = { start := 0, end_ := 100 } := by
  unfold hundredBar
  rw [setCurrentRange_totalRange, setRangeLimits_totalRange]

theorem hundredBar_visibleRange : hundredBar.visibleRange = { start := 0, end_ := 10 } := by
  unfold hundredBar
  rw [setCurrentRange_visibleRange, setRangeLimits_totalRange]
  exact constrainRange_of_within _ _ (by norm_num) (by norm_num)

/-! ## C8: setting the current range again -/

/-- C8: in every scroll bar state whose visible range lies inside the total range,
`setCurrentRange (visibleRange)` returns the state unchanged (no field changes, no
asynchronous update is triggered), and `setRangeLimits (totalRange)` returns any state
unchanged. -/
theorem setCurrentRange_same_noop (sb : ScrollBar) (h : visibleWithinTotal sb) :
    setCurrentRange sb sb.visibleRange = sb ∧ setRangeLimits sb sb.totalRange = sb := by
  constructor
  · unfold setCurrentRange
    simp only
    rw [constrainRange_of_within _ _ h.1 h.2]
    simp
  · unfold setRangeLimits
    simp

/-- Witness for C8: the scroll bar with total range `[0, 100]` and visible range `[0, 10]`. -/
theorem setCurrentRange_same_noop_witness :
    setCurrentRange hundredBar hundredBar.visibleRange = hundredBar
      ∧ setRangeLimits hundredBar hundredBar.totalRange = hundredBar :=
  setCurrentRange_same_noop hundredBar (visibleWithinTotal_of_reachable reachable_hundredBar)

/-! ## C9: moving by pages -/

/-- C9: `moveScrollbarInPages (n)` sets the visible range to the current visible range
shifted by `n` times its own length and then constrained into the total range; in every
reachable state that is the range of the same length whose start is the shifted start
clamped into `[total.start, total.end - length]`. -/
theorem moveScrollbarInPages_visibleRange (sb : ScrollBar) (n : ℤ) :
    (moveScrollbarInPages sb n).visibleRange
        = sb.totalRange.constrainRange
            (sb.visibleRange.shifted ((n : ℚ) * sb.visibleRange.getLength))
      ∧ (Reachable sb →
          (moveScrollbarInPages sb n).visibleRange.start
              = jlimit sb.totalRange.start (sb.totalRange.end_ - sb.visibleRange.getLength)
                  (sb.visibleRange.start + (n : ℚ) * sb.visibleRange.getLength)
            ∧ (moveScrollbarInPages sb n).visibleRange.getLength
              = sb.visibleRange.getLength) := by
  have h1 : (moveScrollbarInPages sb n).visibleRange
      = sb.totalRange.constrainRange
          (sb.visibleRange.shifted ((n : ℚ) * sb.visibleRange.getLength)) :=
    setCurrentRange_visibleRange sb _
  refine ⟨h1, fun hr => ?_⟩
  obtain ⟨w1, w2⟩ := visibleWithinTotal_of_reachable hr
  have hlen : (sb.visibleRange.shifted ((n : ℚ) * sb.visibleRange.getLength)).getLength
      = sb.visibleRange.getLength := by
    unfold Range.shifted Range.getLength
    simp only
    ring
  have hle : (sb.visibleRange.shifted ((n : ℚ) * sb.visibleRange.getLength)).getLength
      ≤ sb.totalRange.getLength := by
    rw [hlen]
    unfold Range.getLength
    linarith
  obtain ⟨c1, c2⟩ := constrainRange_of_length_le sb.totalRange _ hle
  rw [h1, c1, c2, hlen]
  exact ⟨rfl, rfl⟩

/-- Witness for C9: with total range `[0, 100]` and visible range `[0, 10]`,
`moveScrollbarInPages (1)` makes the visible range `[10, 20]`. -/
theorem moveScrollbarInPages_visibleRange_witness :
    (moveScrollbarInPages hundredBar 1).visibleRange = { start := 10, end_ := 20 }
      ∧ (moveScrollbarInPages hundredBar 1).visibleRange.getLength
          = hundredBar.visibleRange.getLength := by
  have h := moveScrollbarInPages_visibleRange hundredBar 1
  refine ⟨?_, (h.2 reachable_hundredBar).2⟩
  rw [h.1, hundredBar_totalRange, hundredBar_visibleRange]
  norm_num [Range.constrainRange, Range.shifted, Range.getLength, Range.movedToStartAt, jlimit]

/-! ## C10: the visible range stays inside the total range -/

end ScrollBar

namespace Slider
open SliderStyle

/-! ## C11: the linear position round trip -/

/-- C11: for a slider with skew factor `1` and maximum > minimum, for every `p` in `[0, 1]`,
`valueToProportionOfLength (proportionOfLengthToValue (p)) = p` in exact arithmetic,
whatever the C library's `exp`, `log` and `pow` are. -/
theorem proportion_round_trip (exp log : ℚ → ℚ) (pow : ℚ → ℚ → ℚ) (s : Pimpl) (p : ℚ)
    (hskew : s.skewFactor = 1) (hrange : s.maximum > s.minimum) (_hp0 : 0 ≤ p) (_hp1 : p ≤ 1) :
    valueToProportionOfLength pow s (proportionOfLengthToValue exp log s p) = p := by
  have hne : s.maximum - s.minimum ≠ 0 := ne_of_gt (sub_pos.mpr hrange)
  simp only [valueToProportionOfLength, proportionOfLengthToValue, hskew, ne_eq,
    not_true_eq_false, false_and, ↓reduceIte]
  field_simp

/-- Witness for C11: a new slider (range `[0, 10]`, skew factor `1`) at `p = 1 / 4`. -/
theorem proportion_round_trip_witness :
    valueToProportionOfLength (fun x _ => x) (Pimpl.init LinearHorizontal)
      (proportionOfLengthToValue id id (Pimpl.init LinearHorizontal) (1 / 4)) = 1 / 4 :=
  proportion_round_trip id id (fun x _ => x) (Pimpl.init LinearHorizontal) (1 / 4) rfl
    (by norm_num [Pimpl.init]) (by norm_num) (by norm_num)

end Slider

namespace ComponentPeer

/-! ## The list of peers -/

theorem peersReachable_inv {r : PeerRegistry} {live : Finset ℕ} {n : ℕ}
    (h : PeersReachable r live n) :
    r.heavyweightPeers.Nodup ∧ (∀ p, p ∈ r.heavyweightPeers ↔ p ∈ live)
      ∧ r.lastUniqueID = (1 + 2 * n) % 2 ^ 32 := by
  induction h with
  | init => simp [PeerRegistry.init]
  | @construct r live n this c _ hfresh ih =>
    obtain ⟨hnd, hmem, hid⟩ := ih
    refine ⟨?_, ?_, ?_⟩
    · simp only [construct]
      rw [List.nodup_append]
      refine ⟨hnd, List.nodup_singleton _, ?_⟩
      intro a ha hb
      rw [List.mem_singleton] at hb
      subst hb
      exact hfresh ((hmem a).mp ha)
    · intro p
      simp only [construct, List.mem_append, List.mem_singleton, Finset.mem_insert, hmem]
      tauto
    · simp only [construct, hid]
      omega
  | @destroy r live n this _ hlive ih =>
    obtain ⟨hnd, hmem, hid⟩ := ih
    refine ⟨?_, ?_, hid⟩
    · exact hnd.erase this
    · intro p
      simp only [destroy, Finset.mem_erase]
      rw [hnd.mem_erase_iff, hmem]

theorem getPeerForFrom_some (r : PeerRegistry) (c : Component) (i peer : ℕ)
    (h : getPeerForFrom r c i = some peer) :
    peer ∈ r.heavyweightPeers ∧ r.component peer = c := by
  induction i with
  | zero => simp [getPeerForFrom] at h
  | succ k ih =>
    rw [getPeerForFrom] at h
    split at h
    · rename_i q hq
      split_ifs at h with hc
      · have e : q = peer := Option.some.inj h
        subst e
        exact ⟨List.get?_mem hq, hc⟩
      · exact ih h
    · exact ih h

theorem getPeerForFrom_none (r : PeerRegistry) (c : Component) (i : ℕ)
    (h : getPeerForFrom r c i = none) :
    ∀ j peer, j < i → r.heavyweightPeers.get? j = some peer → r.component peer ≠ c := by
  induction i with
  | zero => intro j peer hj; omega
  | succ k ih =>
    rw [getPeerForFrom] at h
    intro j peer hj hget
    rcases Nat.lt_succ_iff_lt_or_eq.mp hj with hlt | heq
    · split at h
      · split_ifs at h
        exact ih h j peer hlt hget
      · exact ih h j peer hlt hget
    · subst heq
      rw [hget] at h
      simp only at h
      split_ifs at h with hc
      exact hc

theorem getPeerFor_none (r : PeerRegistry) (c : Component) (h : getPeerFor r c = none) :
    ∀ peer ∈ r.heavyweightPeers, r.component peer ≠ c := by
  intro peer hp
  obtain ⟨j, hj⟩ := List.get?_of_mem hp
  have hlt : j < r.heavyweightPeers.length := by
    rcases Nat.lt_or_ge j r.heavyweightPeers.length with h1 | h1
    · exact h1
    · rw [List.get?_eq_none.mpr h1] at hj
      exact absurd hj (by simp)
  exact getPeerForFrom_none r c _ h j peer hlt hj


theorem reachable_examplePeers :
    PeersReachable (destroy (construct (construct PeerRegistry.init 10 1) 20 2) 10)
      ((insert 20 (insert 10 (∅ : Finset ℕ))).erase 10) 2 :=
  .destroy 10 (.construct 20 2 (.construct 10 1 .init (by decide)) (by decide)) (by decide)

/-! ## C18: the peer list holds exactly the live peers -/

/-- C18: after any sequence of peer constructions (at addresses holding no live peer) and
destructions (of live peers) the peer list contains each live peer exactly once and no
other address; `getNumPeers ()` is the number of live peers, `isValidPeer (p)` is true iff
`p` is live, and `getPeerFor (c)` returns a live peer whose component is `c`, or null when
no live peer is bound to `c`. -/
theorem peer_registry_invariant (r : PeerRegistry) (live : Finset ℕ) (n : ℕ)
    (h : PeersReachable r live n) :
    (∀ p, r.heavyweightPeers.count p = if p ∈ live then 1 else 0)
      ∧ getNumPeers r = live.card
      ∧ (∀ p, isValidPeer r p = true ↔ p ∈ live)
      ∧ ∀ c : Component,
          (∀ peer, getPeerFor r c = some peer → peer ∈ live ∧ r.component peer = c)
            ∧ (getPeerFor r c = none → ∀ peer ∈ live, r.component peer ≠ c) := by
  obtain ⟨hnd, hmem, _⟩ := peersReachable_inv h
  refine ⟨fun p => ?_, ?_, fun p => ?_, fun c => ⟨fun peer hp => ?_, fun hn peer hp => ?_⟩⟩
  · split_ifs with hp
    · exact List.count_eq_one_of_mem hnd ((hmem p).mpr hp)
    · exact List.count_eq_zero_of_not_mem (fun hq => hp ((hmem p).mp hq))
  · unfold getNumPeers
    rw [← List.toFinset_card_of_nodup hnd]
    congr 1
    ext p
    rw [List.mem_toFinset, hmem]
  · unfold isValidPeer
    rw [← hmem]
    simp
  · obtain ⟨h1, h2⟩ := getPeerForFrom_some r c _ peer hp
    exact ⟨(hmem peer).mp h1, h2⟩
  · exact getPeerFor_none r c hn peer ((hmem peer).mpr hp)

/-- Witness for C18: peers are constructed at addresses `10` (component `1`) and `20`
(component `2`), then the peer at `10` is destroyed: one peer is left, the one at `20`. -/
theorem peer_registry_invariant_witness :
    getNumPeers (destroy (construct (construct PeerRegistry.init 10 1) 20 2) 10)
        = ((insert 20 (insert 10 (∅ : Finset ℕ))).erase 10).card
      ∧ (isValidPeer (destroy (construct (construct PeerRegistry.init 10 1) 20 2) 10) 20 = true
          ↔ 20 ∈ (insert 20 (insert 10 (∅ : Finset ℕ))).erase 10)
      ∧ (isValidPeer (destroy (construct (construct PeerRegistry.init 10 1) 20 2) 10) 10 = true
          ↔ 10 ∈ (insert 20 (insert 10 (∅ : Finset ℕ))).erase 10) :=
  have h := peer_registry_invariant _ _ _ reachable_examplePeers
  ⟨h.2.1, h.2.2.1 20, h.2.2.1 10⟩

/-! ## C19: unique IDs -/

/-- C19: the peer constructed after `n` earlier constructions, the `(n + 1)`-th, gets the
unique ID `(1 + 2 (n + 1)) mod 2^32`, which is odd and so not zero, also after the 32-bit
counter has wrapped around. -/
theorem uniqueID_odd (r : PeerRegistry) (live : Finset ℕ) (n : ℕ) (this : ℕ)
    (component_ : Component) (h : PeersReachable r live n) :
    (construct r this component_).uniqueID this = (1 + 2 * (n + 1)) % 2 ^ 32
      ∧ (construct r this component_).uniqueID this % 2 = 1
      ∧ (construct r this component_).uniqueID this ≠ 0 := by
  obtain ⟨_, _, hid⟩ := peersReachable_inv h
  have e : (construct r this component_).uniqueID this = (1 + 2 * (n + 1)) % 2 ^ 32 := by
    simp only [construct, ↓reduceIte, hid]
    omega
  rw [e]
  omega

/-- Witness for C19: the first and the third peer constructed get the unique IDs `3` and
`7`. -/
theorem uniqueID_odd_witness :
    (construct PeerRegistry.init 10 1).uniqueID 10 = 3
      ∧ (construct (destroy (construct (construct PeerRegistry.init 10 1) 20 2) 10) 30 3).uniqueID
          30 = 7 :=
  ⟨(uniqueID_odd PeerRegistry.init ∅ 0 10 1 .init).1,
    (uniqueID_odd _ _ 2 30 3 reachable_examplePeers).1⟩

end ComponentPeer

namespace ComponentPeer

/-! ## Drag and drop -/

theorem findDragAndDropTarget_queries (t : ComponentTree) (fuel : ℕ) (c : Option Component)
    (info : DragInfo) (lastOne found : Option Component) (queries : List DragEvent)
    (h : findDragAndDropTarget t fuel c info lastOne = .ok (found, queries)) :
    (∀ e ∈ queries, e.isInterestQuery = true)
      ∧ (∀ b, found = some b → isSuitableTarget t info (some b) = true) := by
  induction fuel generalizing c queries with
  | zero =>
    cases c with
    | none =>
      simp only [findDragAndDropTarget, Except.ok.injEq, Prod.mk.injEq] at h
      obtain ⟨h1, h2⟩ := h
      subst h1 h2
      simp
    | some c => simp [findDragAndDropTarget] at h
  | succ k ih =>
    cases c with
    | none =>
      simp only [findDragAndDropTarget, Except.ok.injEq, Prod.mk.injEq] at h
      obtain ⟨h1, h2⟩ := h
      subst h1 h2
      simp
    | some c =>
      have hq : (interestQuery info c).isInterestQuery = true := by
        unfold interestQuery
        split_ifs <;> rfl
      rw [findDragAndDropTarget] at h
      split_ifs at h with hs hl hi
      · simp only [Except.ok.injEq, Prod.mk.injEq] at h
        obtain ⟨h1, h2⟩ := h
        subst h1 h2
        refine ⟨by simp, fun b hb => ?_⟩
        rw [← hb]; exact hs
      · simp only [Except.ok.injEq, Prod.mk.injEq] at h
        obtain ⟨h1, h2⟩ := h
        subst h1 h2
        refine ⟨by simpa using hq, fun b hb => ?_⟩
        rw [← hb]; exact hs
      · split at h
        · rename_i f qs hrec
          simp only [Except.ok.injEq, Prod.mk.injEq] at h
          obtain ⟨h1, h2⟩ := h
          subst h1 h2
          obtain ⟨i1, i2⟩ := ih _ _ hrec
          refine ⟨?_, i2⟩
          intro e he
          rcases List.mem_cons.mp he with he | he
          · rw [he]; exact hq
          · exact i1 e he
        · simp at h
      · exact ih _ _ h

theorem finishDragMove_events (t : ComponentTree) (info : DragInfo) (newTarget : Option Component)
    (st : DragState) (events : List DragEvent) :
    (finishDragMove t info newTarget st events).state = st
      ∧ ∃ tail : List DragEvent, (finishDragMove t info newTarget st events).events = events ++ tail
          ∧ ∀ e ∈ tail, e.isModalInputAttempt = false ∧ e.isDropMessage = false := by
  unfold finishDragMove
  cases newTarget with
  | none => exact ⟨rfl, [], by simp, by simp⟩
  | some c =>
    simp only
    split_ifs
    · refine ⟨rfl, _, rfl, ?_⟩
      intro e he
      rw [List.mem_singleton] at he
      subst he
      unfold dragMoveEvent
      split_ifs <;> exact ⟨rfl, rfl⟩
    · exact ⟨rfl, [], by simp, by simp⟩

theorem interestQuery_plain (e : DragEvent) (h : e.isInterestQuery = true) :
    e.isModalInputAttempt = false ∧ e.isDropMessage = false := by
  cases e <;> simp_all [DragEvent.isInterestQuery, DragEvent.isModalInputAttempt,
    DragEvent.isDropMessage]

theorem exitLastTarget_plain (t : ComponentTree) (info : DragInfo) (lastTarget : Option Component)
    (exits : List DragEvent) (h : exitLastTarget t info lastTarget = .ok exits) :
    ∀ e ∈ exits, e.isModalInputAttempt = false ∧ e.isDropMessage = false := by
  unfold exitLastTarget at h
  cases lastTarget with
  | none =>
    simp only [Except.ok.injEq] at h
    subst h
    simp
  | some c =>
    simp only at h
    split_ifs at h
    simp only [Except.ok.injEq] at h
    subst h
    intro e he
    rw [List.mem_singleton] at he
    subst he
    unfold dragExitEvent
    split_ifs <;> exact ⟨rfl, rfl⟩

theorem enterNewTarget_plain (t : ComponentTree) (info : DragInfo) (newTarget : Option Component)
    (st : DragState) :
    ∀ e ∈ (enterNewTarget t info newTarget st).2,
      e.isModalInputAttempt = false ∧ e.isDropMessage = false := by
  unfold enterNewTarget
  cases newTarget with
  | none => simp
  | some c =>
    simp only
    split_ifs
    · intro e he
      rw [List.mem_singleton] at he
      subst he
      unfold dragEnterEvent
      split_ifs <;> exact ⟨rfl, rfl⟩
    · simp

/-- A call of `handleDragMove` neither attempts modal input nor posts a drop message. -/
theorem handleDragMove_plain (t : ComponentTree) (fuel : ℕ) (st : DragState) (info : DragInfo)
    (r : DragResult) (h : handleDragMove t fuel st info = .ok r) :
    ∀ e ∈ r.events, e.isModalInputAttempt = false ∧ e.isDropMessage = false := by
  unfold handleDragMove at h
  simp only at h
  split_ifs at h with hc
  · split at h
    · simp at h
    · rename_i newTarget queries hfind
      have hq := (findDragAndDropTarget_queries t fuel _ info _ _ _ hfind).1
      split_ifs at h with hn
      · split at h
        · simp at h
        · rename_i exits hex
          simp only [Except.ok.injEq] at h
          subst h
          obtain ⟨_, tail, he, ht⟩ := finishDragMove_events t info newTarget
            (enterNewTarget t info newTarget
              { st with lastDragAndDropCompUnderMouse := t.getComponentAt info.position }).1
            (queries ++ exits ++ (enterNewTarget t info newTarget
              { st with lastDragAndDropCompUnderMouse := t.getComponentAt info.position }).2)
          rw [he]
          intro e hmem
          simp only [List.mem_append] at hmem
          rcases hmem with ((h1 | h1) | h1) | h1
          · exact interestQuery_plain e (hq e h1)
          · exact exitLastTarget_plain t info _ exits hex e h1
          · exact enterNewTarget_plain t info newTarget _ e h1
          · exact ht e h1
      · simp only [Except.ok.injEq] at h
        subst h
        obtain ⟨_, tail, he, ht⟩ := finishDragMove_events t info newTarget
          { st with lastDragAndDropCompUnderMouse := t.getComponentAt info.position } queries
        rw [he]
        intro e hmem
        simp only [List.mem_append] at hmem
        rcases hmem with h1 | h1
        · exact interestQuery_plain e (hq e h1)
        · exact ht e h1
  · simp only [Except.ok.injEq] at h
    subst h
    obtain ⟨_, tail, he, ht⟩ := finishDragMove_events t info st.dragAndDropTargetComponent st []
    rw [he]
    intro e hmem
    simp only [List.nil_append] at hmem
    exact ht e hmem

/-! ## C12: a drag moves to a new target -/

/-- C12: in a `handleDragMove` in which the component under the pointer differs from the
last-seen one, a target `A` of the drag's kind is locked and the target search finds a
target `B` other than `A`, the call returns, the calls it makes after the interest queries
of the search are, in this order, the drag exit on `A`, the drag enter on `B` and the drag
move on `B` (the file callbacks for a file drag, the text callbacks for a text drag);
afterwards `B` is the locked target and the result is `true`. -/
theorem handleDragMove_target_change (t : ComponentTree) (fuel : ℕ) (st : DragState)
    (info : DragInfo) (A B : Component) (queries : List DragEvent)
    (hcomp : t.getComponentAt info.position ≠ st.lastDragAndDropCompUnderMouse)
    (hA : st.dragAndDropTargetComponent = some A)
    (hAkind : isSuitableTarget t info (some A) = true)
    (hfind : findDragAndDropTarget t fuel (t.getComponentAt info.position) info (some A)
      = .ok (some B, queries))
    (hne : B ≠ A) :
    ∃ r : DragResult, handleDragMove t fuel st info = .ok r
      ∧ (∀ e ∈ queries, e.isInterestQuery = true)
      ∧ r.events = queries ++
          (if isFileDrag info then
            [.fileDragExit A info.files,
              .fileDragEnter B info.files (t.getLocalPoint B info.position).x
                (t.getLocalPoint B info.position).y,
              .fileDragMove B info.files (t.getLocalPoint B info.position).x
                (t.getLocalPoint B info.position).y]
          else
            [.textDragExit A info.text,
              .textDragEnter B info.text (t.getLocalPoint B info.position).x
                (t.getLocalPoint B info.position).y,
              .textDragMove B info.text (t.getLocalPoint B info.position).x
                (t.getLocalPoint B info.position).y])
      ∧ r.state.dragAndDropTargetComponent = some B
      ∧ r.state.lastDragAndDropCompUnderMouse = t.getComponentAt info.position
      ∧ r.returned = true := by
  obtain ⟨hq, hB⟩ := findDragAndDropTarget_queries t fuel _ info _ _ _ hfind
  have hBkind : isSuitableTarget t info (some B) = true := hB B rfl
  have hne' : (some B : Option Component) ≠ some A := fun h => hne (Option.some.inj h)
  have hval : handleDragMove t fuel st info = .ok
      (finishDragMove t info (some B)
        (enterNewTarget t info (some B)
          { st with lastDragAndDropCompUnderMouse := t.getComponentAt info.position }).1
        (queries ++ [dragExitEvent info A] ++ (enterNewTarget t info (some B)
          { st with lastDragAndDropCompUnderMouse := t.getComponentAt info.position }).2)) := by
    unfold handleDragMove
    simp only [ne_eq, hcomp, not_false_eq_true, ↓reduceIte, hA, hfind, hne', exitLastTarget,
      hAkind]
  refine ⟨_, hval, hq, ?_, ?_, ?_, ?_⟩
  · simp only [finishDragMove, enterNewTarget, hBkind, ↓reduceIte, dragExitEvent,
      dragEnterEvent, dragMoveEvent]
    split_ifs <;> simp
  · simp only [finishDragMove, enterNewTarget, hBkind, ↓reduceIte]
  · simp only [finishDragMove, enterNewTarget, hBkind, ↓reduceIte]
  · simp only [finishDragMove, enterNewTarget, hBkind, ↓reduceIte]

/-- Witness for C12: component `1` is locked and last seen, the pointer moves to `(3, 4)`
over its child `2`, an interested file target: after the interest query on `2` the calls are
`fileDragExit` on `1`, `fileDragEnter` on `2`, `fileDragMove` on `2`. -/
theorem handleDragMove_target_change_witness :
    ∃ r : DragResult, handleDragMove exampleTree 5 lockedOnOne (exampleFileDrag 3 4) = .ok r
      ∧ r.events = [.isInterestedInFileDrag 2 ["a.txt"], .fileDragExit 1 ["a.txt"],
          .fileDragEnter 2 ["a.txt"] 3 4, .fileDragMove 2 ["a.txt"] 3 4]
      ∧ r.state.dragAndDropTargetComponent = some 2
      ∧ r.returned = true := by
  obtain ⟨r, h1, _, h3, h4, _, h6⟩ :=
    handleDragMove_target_change exampleTree 5 lockedOnOne (exampleFileDrag 3 4) 1 2
      [.isInterestedInFileDrag 2 ["a.txt"]] (by decide) rfl rfl rfl (by decide)
  exact ⟨r, h1, h3, h4, h6⟩

/-! ## C13: a drag moves over the same target -/

/-- C13: in a `handleDragMove` in which the component under the pointer is the last-seen
one and a target `T` of the drag's kind is locked, the only call made is the drag move on
`T` (no enter, no exit, no interest query), the locked target and the last-seen component
are unchanged, and the result is `true`. -/
theorem handleDragMove_same_target (t : ComponentTree) (fuel : ℕ) (st : DragState)
    (info : DragInfo) (T : Component)
    (hcomp : t.getComponentAt info.position = st.lastDragAndDropCompUnderMouse)
    (hT : st.dragAndDropTargetComponent = some T)
    (hkind : isSuitableTarget t info (some T) = true) :
    handleDragMove t fuel st info = .ok
      { returned := true
        state := st
        events :=
          if isFileDrag info then
            [.fileDragMove T info.files (t.getLocalPoint T info.position).x
              (t.getLocalPoint T info.position).y]
          else
            [.textDragMove T info.text (t.getLocalPoint T info.position).x
              (t.getLocalPoint T info.position).y]
        jassertHeld := true } := by
  unfold handleDragMove
  simp only [ne_eq, hcomp, not_true_eq_false, ↓reduceIte, hT, finishDragMove, hkind,
    List.nil_append, dragMoveEvent]
  split_ifs <;> rfl

/-- Witness for C13: component `1` is locked and last seen and the pointer stays on it at
`(0, 0)`: the only call is `fileDragMove` on `1`. -/
theorem handleDragMove_same_target_witness :
    handleDragMove exampleTree 5 lockedOnOne (exampleFileDrag 0 0) = .ok
      { returned := true
        state := lockedOnOne
        events := [.fileDragMove 1 ["a.txt"] 0 0]
        jassertHeld := true } :=
  handleDragMove_same_target exampleTree 5 lockedOnOne (exampleFileDrag 0 0) 1 rfl rfl rfl

/-! ## C14: a drop on a target blocked by a modal component -/

/-- C14: in a `handleDragDrop` whose locked target `T` (the target of the drag's kind that
is locked after the drop's own move) is blocked by another modal component both before and
after the modal input attempt, the calls after those of the move are exactly one
`internalModalInputAttempt` on `T`, no drop message is posted, and both drag members of the
peer are cleared. -/
theorem handleDragDrop_modal_blocked (t : ComponentTree) (fuel : ℕ) (st : DragState)
    (info : DragInfo) (moved : DragResult) (T : Component)
    (hmove : handleDragMove t fuel st info = .ok moved)
    (hT : moved.state.dragAndDropTargetComponent = some T)
    (hkind : isSuitableTarget t info (some T) = true)
    (hbefore : t.isCurrentlyBlockedByAnotherModalComponent T = true)
    (hafter : t.isBlockedAfterModalInputAttempt T = true) :
    ∃ r : DragResult, handleDragDrop t fuel st info = .ok r
      ∧ r.events = moved.events ++ [.internalModalInputAttempt T]
      ∧ r.events.filter DragEvent.isModalInputAttempt = [.internalModalInputAttempt T]
      ∧ (∀ e ∈ r.events, e.isDropMessage = false)
      ∧ r.state = { dragAndDropTargetComponent := none, lastDragAndDropCompUnderMouse := none }
      := by
  have hplain := handleDragMove_plain t fuel st info moved hmove
  refine ⟨{ returned := true
            state := { dragAndDropTargetComponent := none,
                       lastDragAndDropCompUnderMouse := none }
            events := moved.events ++ [.internalModalInputAttempt T]
            jassertHeld := true }, ?_, rfl, ?_, ?_, rfl⟩
  · unfold handleDragDrop
    simp only [hmove, hT, hkind, ↓reduceIte, hbefore, hafter]
  · simp only [List.filter_append]
    have h0 : moved.events.filter DragEvent.isModalInputAttempt = [] := by
      rw [List.filter_eq_nil_iff]
      intro e he
      rw [(hplain e he).1]
      simp
    rw [h0]
    rfl
  · intro e he
    simp only [List.mem_append, List.mem_singleton] at he
    rcases he with he | he
    · exact (hplain e he).2
    · rw [he]; rfl

/-- Witness for C14: component `1` is locked, under the pointer and blocked by a modal
component before and after the attempt: the drop makes the move call and one
`internalModalInputAttempt`, and clears the drag members. -/
theorem handleDragDrop_modal_blocked_witness :
    ∃ r : DragResult, handleDragDrop exampleTree 5 lockedOnOne (exampleFileDrag 0 0) = .ok r
      ∧ r.events = [.fileDragMove 1 ["a.txt"] 0 0, .internalModalInputAttempt 1]
      ∧ r.state = { dragAndDropTargetComponent := none, lastDragAndDropCompUnderMouse := none }
      := by
  obtain ⟨r, h1, h2, _, _, h5⟩ :=
    handleDragDrop_modal_blocked exampleTree 5 lockedOnOne (exampleFileDrag 0 0)
      { returned := true, state := lockedOnOne, events := [.fileDragMove 1 ["a.txt"] 0 0],
        jassertHeld := true } 1 rfl rfl rfl rfl rfl
  exact ⟨r, h1, h2, h5⟩

/-! ## C15: the result of `handleDragDrop` -/

/-- C15, as stated, fails: with component `1` locked, under the pointer, a file target and
blocked by a modal component before and after the attempt, `handleDragDrop` returns `true`
although it posts no drop message. -/
theorem handleDragDrop_returned_counterexample :
    ∃ r : DragResult, handleDragDrop exampleTree 5 lockedOnOne (exampleFileDrag 0 0) = .ok r
      ∧ r.returned = true
      ∧ r.events.any DragEvent.isDropMessage = false :=
  ⟨_, rfl, rfl, rfl⟩

/-- C15, amended: whenever the drop's own move returns, `handleDragDrop` returns, and its
result is `true` if and only if a target of the drag's kind is locked after that move.  A
drop message is posted if and only if such a target is locked and it is not blocked by a
modal component both before and after the modal input attempt; so a posted drop message
gives the result `true`, and the result `true` comes without a drop message exactly for a
target that is still blocked. -/
theorem handleDragDrop_returned (t : ComponentTree) (fuel : ℕ) (st : DragState)
    (info : DragInfo) (moved : DragResult)
    (hmove : handleDragMove t fuel st info = .ok moved) :
    ∃ r : DragResult, handleDragDrop t fuel st info = .ok r
      ∧ (r.returned = true ↔
          ∃ T, moved.state.dragAndDropTargetComponent = some T
            ∧ isSuitableTarget t info (some T) = true)
      ∧ ((∃ e ∈ r.events, e.isDropMessage = true) ↔
          ∃ T, moved.state.dragAndDropTargetComponent = some T
            ∧ isSuitableTarget t info (some T) = true
            ∧ ¬ (t.isCurrentlyBlockedByAnotherModalComponent T = true
                  ∧ t.isBlockedAfterModalInputAttempt T = true)) := by
  have hplain := handleDragMove_plain t fuel st info moved hmove
  have hnone : ¬ ∃ e ∈ moved.events, e.isDropMessage = true := by
    rintro ⟨e, he, hd⟩
    rw [(hplain e he).2] at hd
    exact absurd hd (by simp)
  unfold handleDragDrop
  simp only [hmove]
  cases hT : moved.state.dragAndDropTargetComponent with
  | none =>
    refine ⟨_, rfl, ?_, ?_⟩
    · simp
    · constructor
      · intro h
        exact absurd h hnone
      · rintro ⟨T, hT', _⟩
        exact absurd hT' (by simp)
  | some T =>
    simp only
    by_cases hk : isSuitableTarget t info (some T) = true
    · by_cases hb : t.isCurrentlyBlockedByAnotherModalComponent T = true
      · by_cases ha : t.isBlockedAfterModalInputAttempt T = true
        · simp only [hk, ↓reduceIte, hb, ha]
          refine ⟨_, rfl, ?_, ?_⟩
          · simp [hk]
          · constructor
            · rintro ⟨e, he, hd⟩
              rcases List.mem_append.mp he with he | he
              · exact absurd ⟨e, he, hd⟩ hnone
              · rw [List.mem_singleton.mp he] at hd
                exact absurd hd (by simp [DragEvent.isDropMessage])
            · rintro ⟨T', hT', _, hnb⟩
              rw [← Option.some.inj hT'] at hnb
              exact absurd ⟨hb, ha⟩ hnb
        · simp only [hk, ↓reduceIte, hb, ha]
          refine ⟨_, rfl, ?_, ?_⟩
          · simp [hk]
          · constructor
            · intro _
              exact ⟨T, rfl, hk, fun h => ha h.2⟩
            · intro _
              exact ⟨.postAsyncDropMessage T info, by simp, rfl⟩
      · simp only [hk, ↓reduceIte, hb]
        refine ⟨_, rfl, ?_, ?_⟩
        · simp [hk]
        · constructor
          · intro _
            exact ⟨T, rfl, hk, fun h => hb h.1⟩
          · intro _
            exact ⟨.postAsyncDropMessage T info, by simp, rfl⟩
    · simp only [hk, ↓reduceIte]
      refine ⟨_, rfl, ?_, ?_⟩
      · simp [hk]
      · constructor
        · intro h
          exact absurd h hnone
        · rintro ⟨T', hT', hk', _⟩
          rw [← Option.some.inj hT'] at hk'
          exact absurd hk' hk

/-- Witness for C15: the pointer moves from component `1` to its child `2`, which is not
blocked: the drop posts a drop message for `2` and returns `true`. -/
theorem handleDragDrop_returned_witness :
    ∃ r : DragResult, handleDragDrop exampleTree 5 lockedOnOne (exampleFileDrag 3 4) = .ok r
      ∧ (r.returned = true ↔
          ∃ T, (some 2 : Option Component) = some T
            ∧ isSuitableTarget exampleTree (exampleFileDrag 3 4) (some T) = true) :=
  have h := handleDragDrop_returned exampleTree 5 lockedOnOne (exampleFileDrag 3 4)
    { returned := true
      state := { dragAndDropTargetComponent := some 2, lastDragAndDropCompUnderMouse := some 2 }
      events := [.isInterestedInFileDrag 2 ["a.txt"], .fileDragExit 1 ["a.txt"],
        .fileDragEnter 2 ["a.txt"] 3 4, .fileDragMove 2 ["a.txt"] 3 4]
      jassertHeld := true } rfl
  match h with
  | ⟨r, h1, h2, _⟩ => ⟨r, h1, h2⟩

end ComponentPeer

namespace ComponentPeer

/-! ## Key dispatch -/

theorem precededBy_events (r : KeyRun) (earlier : List KeyEvent) :
    (r.precededBy earlier).events = earlier ++ r.events := rfl

theorem precededBy_world (r : KeyRun) (earlier : List KeyEvent) :
    (r.precededBy earlier).world = r.world := rfl

/-- A run none of whose events destroys the target stops on destruction. -/
theorem stopsOnDestruction_of_none (r : KeyRun)
    (h : ∀ e ∈ r.events, e.destroysTarget = false) : r.StopsOnDestruction := by
  intro before e later hev hd
  have : e ∈ r.events := by rw [hev]; simp
  rw [h e this] at hd
  cases hd

/-- A run of one callback that returns the callback's result stops on destruction. -/
theorem stopsOnDestruction_single (e : KeyEvent) (w : World) :
    KeyRun.StopsOnDestruction { events := [e], world := w, exit := .returned e.keyWasUsed } := by
  intro before e' later hev _
  cases before with
  | nil =>
    simp only [List.nil_append, List.cons.injEq] at hev
    obtain ⟨h1, h2⟩ := hev
    subst h1
    exact ⟨h2.symm, rfl⟩
  | cons b bs =>
    simp only [List.cons_append, List.cons.injEq] at hev
    have := congrArg List.length hev.2
    simp only [List.length_nil, List.length_append, List.length_cons] at this
    omega

/-- Events that destroy nothing, put before a run that stops on destruction. -/
theorem stopsOnDestruction_precededBy (r : KeyRun) (earlier : List KeyEvent)
    (h : ∀ e ∈ earlier, e.destroysTarget = false) (hr : r.StopsOnDestruction) :
    (r.precededBy earlier).StopsOnDestruction := by
  induction earlier with
  | nil => simpa [KeyRun.precededBy] using hr
  | cons a as ih =>
    have ih := ih (fun e he => h e (List.mem_cons_of_mem _ he))
    intro before e later hev hd
    rw [precededBy_events] at hev
    cases before with
    | nil =>
      simp only [List.nil_append, List.cons_append, List.cons.injEq] at hev
      rw [← hev.1, h a (List.mem_cons_self _ _)] at hd
      cases hd
    | cons b bs =>
      simp only [List.cons_append, List.cons.injEq] at hev
      exact ih bs e later (by rw [precededBy_events]; exact hev.2) hd

/-- A run that stops on destruction and does not return has destroyed nothing. -/
theorem destroysTarget_false_of_completed (r : KeyRun) (hr : r.StopsOnDestruction)
    (hexit : r.exit = .completed) : ∀ e ∈ r.events, e.destroysTarget = false := by
  intro e he
  obtain ⟨before, later, hev⟩ := List.append_of_mem he
  by_contra hd
  have hd : e.destroysTarget = true := by simpa using hd
  have := (hr before e later hev hd).2
  rw [hexit] at this
  cases this

theorem keyListenerLoop_stopsOnDestruction (call : KeyListener → World → Bool × World)
    (target : Component) (bound i : ℕ) (w : World) :
    (keyListenerLoop call target bound i w).StopsOnDestruction := by
  induction bound generalizing i w with
  | zero =>
    cases i with
    | zero => exact stopsOnDestruction_of_none _ (by simp [keyListenerLoop])
    | succ i => exact stopsOnDestruction_of_none _ (by simp [keyListenerLoop])
  | succ bound ih =>
    cases i with
    | zero => exact stopsOnDestruction_of_none _ (by simp [keyListenerLoop])
    | succ i =>
      rw [keyListenerLoop]
      cases hget : (listenersOf w target).get? i with
      | none => exact stopsOnDestruction_of_none _ (by simp)
      | some listener =>
        simp only
        split_ifs with hstop
        · exact stopsOnDestruction_single
            (.listenerCalled listener target (call listener w).1
              ((call listener w).2.isAlive target)) _
        · apply stopsOnDestruction_precededBy _ _ _ (ih _ _)
          intro e he
          have halive : (call listener w).2.isAlive target = true := by
            by_contra hne
            exact hstop (Or.inr (by simpa using hne))
          simp only [List.mem_cons, List.mem_singleton, List.not_mem_nil, or_false] at he
          rcases he with rfl | rfl
          · simp [KeyEvent.destroysTarget, halive]
          · rfl

theorem callKeyListeners_stopsOnDestruction (call : KeyListener → World → Bool × World)
    (target : Component) (w : World) :
    (callKeyListeners call target w).StopsOnDestruction := by
  unfold callKeyListeners
  cases w.keyListeners target with
  | none => exact stopsOnDestruction_of_none _ (by simp [KeyEvent.destroysTarget])
  | some listeners =>
    exact stopsOnDestruction_precededBy _ _ (by simp [KeyEvent.destroysTarget])
      (keyListenerLoop_stopsOnDestruction _ _ _ _ _)

theorem keyPressLoop_stopsOnDestruction (u : UserCode) (keyInfo : KeyPress) (fuel : ℕ)
    (target : Option Component) (keyWasUsed : Bool) (w : World) :
    (keyPressLoop u keyInfo fuel target keyWasUsed w).StopsOnDestruction := by
  induction fuel generalizing target keyWasUsed w with
  | zero =>
    cases target with
    | none => exact stopsOnDestruction_of_none _ (by simp [keyPressLoop])
    | some target => exact stopsOnDestruction_of_none _ (by simp [keyPressLoop])
  | succ fuel ih =>
    cases target with
    | none => exact stopsOnDestruction_of_none _ (by simp [keyPressLoop])
    | some target =>
      rw [keyPressLoop]
      have hl := callKeyListeners_stopsOnDestruction
        (fun listener w => u.listenerKeyPressed listener keyInfo target w) target w
      generalize callKeyListeners
        (fun listener w => u.listenerKeyPressed listener keyInfo target w) target w = ls at hl
      simp only
      split
      next hexit =>
        have hnone := destroysTarget_false_of_completed ls hl hexit
        by_cases hstop : (u.keyPressed target keyInfo ls.world).1 = true
            ∨ (u.keyPressed target keyInfo ls.world).2.isAlive target = false
        · rw [if_pos hstop]
          exact stopsOnDestruction_precededBy _ _ hnone
            (stopsOnDestruction_single
              (.handlerCalled target (u.keyPressed target keyInfo ls.world).1
                ((u.keyPressed target keyInfo ls.world).2.isAlive target)) _)
        · rw [if_neg hstop]
          have halive : (u.keyPressed target keyInfo ls.world).2.isAlive target = true := by
            by_contra hne
            exact hstop (Or.inr (by simpa using hne))
          have hgo : ∀ e ∈ ls.events ++
              [KeyEvent.handlerCalled target (u.keyPressed target keyInfo ls.world).1
                ((u.keyPressed target keyInfo ls.world).2.isAlive target),
               KeyEvent.getParentComponent target], e.destroysTarget = false := by
            intro e he
            rcases List.mem_append.mp he with he | he
            · exact hnone e he
            · simp only [List.mem_cons, List.mem_singleton, List.not_mem_nil, or_false] at he
              rcases he with rfl | rfl
              · simp [KeyEvent.destroysTarget, halive]
              · rfl
          split
          · exact stopsOnDestruction_precededBy _ _ hgo (ih _ _ _)
          · by_cases htab : u.isTab keyInfo = true ∨ u.isShiftTab keyInfo = true
            · rw [if_pos htab]
              apply stopsOnDestruction_precededBy _ _ hnone
              apply stopsOnDestruction_of_none
              intro e he
              simp only [List.mem_cons, List.mem_singleton, List.not_mem_nil, or_false] at he
              rcases he with rfl | rfl
              · simp [KeyEvent.destroysTarget, halive]
              · rfl
            · rw [if_neg htab]
              exact stopsOnDestruction_precededBy _ _ hgo (ih _ _ _)
      next => exact hl

theorem keyUpOrDownLoop_stopsOnDestruction (u : UserCode) (isKeyDown : Bool) (fuel : ℕ)
    (target : Option Component) (keyWasUsed : Bool) (w : World) :
    (keyUpOrDownLoop u isKeyDown fuel target keyWasUsed w).StopsOnDestruction := by
  induction fuel generalizing target keyWasUsed w with
  | zero =>
    cases target with
    | none => exact stopsOnDestruction_of_none _ (by simp [keyUpOrDownLoop])
    | some target => exact stopsOnDestruction_of_none _ (by simp [keyUpOrDownLoop])
  | succ fuel ih =>
    cases target with
    | none => exact stopsOnDestruction_of_none _ (by simp [keyUpOrDownLoop])
    | some target =>
      rw [keyUpOrDownLoop]
      simp only
      split_ifs with hstop
      · exact stopsOnDestruction_single
          (.handlerCalled target (u.keyStateChanged target isKeyDown w).1
            ((u.keyStateChanged target isKeyDown w).2.isAlive target)) _
      · have halive : (u.keyStateChanged target isKeyDown w).2.isAlive target = true := by
          by_contra hne
          exact hstop (Or.inr (by simpa using hne))
        have hhandler : ∀ e ∈ [KeyEvent.handlerCalled target
            (u.keyStateChanged target isKeyDown w).1
            ((u.keyStateChanged target isKeyDown w).2.isAlive target)],
            e.destroysTarget = false := by
          intro e he
          simp only [List.mem_singleton] at he
          subst he
          simp [KeyEvent.destroysTarget, halive]
        have hl := callKeyListeners_stopsOnDestruction
          (fun listener w => u.listenerKeyStateChanged listener isKeyDown target w) target
          (u.keyStateChanged target isKeyDown w).2
        generalize callKeyListeners
          (fun listener w => u.listenerKeyStateChanged listener isKeyDown target w) target
          (u.keyStateChanged target isKeyDown w).2 = ls at hl
        split
        next hexit =>
          have hnone := destroysTarget_false_of_completed ls hl hexit
          apply stopsOnDestruction_precededBy _ _ _ (ih _ _ _)
          intro e he
          rcases List.mem_append.mp he with he | he
          · rcases List.mem_append.mp he with he | he
            · exact hhandler e he
            · exact hnone e he
          · simp only [List.mem_singleton] at he
            subst he
            rfl
        next => exact stopsOnDestruction_precededBy _ _ hhandler hl

/-- C16: key dispatch stops on destruction.  In every run of `handleKeyPress` and of
`handleKeyUpOrDown`, for any callbacks, any world and any bound on the walk, a key listener
call or a call of the target's own handler after which the target no longer exists is the
last event of the run (no further listener call, handler call, read of the listener array
or its size, focus move or parent lookup follows it), and the method returns the result of
that call. -/
theorem key_dispatch_stops_on_destruction (u : UserCode) (component : Component) (fuel : ℕ)
    (keyCode : ℤ) (textCharacter : ℕ) (isKeyDown : Bool) (w : World) :
    (∀ (before : List KeyEvent) (e : KeyEvent) (later : List KeyEvent),
      (handleKeyPress u component fuel keyCode textCharacter w).events = before ++ e :: later →
      e.destroysTarget = true →
        later = []
          ∧ (handleKeyPress u component fuel keyCode textCharacter w).exit
              = .returned e.keyWasUsed)
      ∧ ∀ (before : List KeyEvent) (e : KeyEvent) (later : List KeyEvent),
        (handleKeyUpOrDown u component fuel isKeyDown w).events = before ++ e :: later →
        e.destroysTarget = true →
          later = []
            ∧ (handleKeyUpOrDown u component fuel isKeyDown w).exit = .returned e.keyWasUsed :=
  ⟨keyPressLoop_stopsOnDestruction u _ fuel _ false w,
    keyUpOrDownLoop_stopsOnDestruction u isKeyDown fuel _ false w⟩

end ComponentPeer
namespace ComponentPeer

/-! ## Listener removal during key dispatch -/

theorem listenersCalled_append (a b : List KeyEvent) :
    listenersCalled (a ++ b) = listenersCalled a ++ listenersCalled b := by
  induction a with
  | nil => rfl
  | cons e a ih => cases e <;> simp [listenersCalled, ih]

/-- An element of a sublist that is among the first `i` elements of a list without
duplicates is among the first `i` elements of the sublist. -/
theorem mem_take_of_sublist {α : Type} {L' L : List α} (hsub : L'.Sublist L) :
    ∀ (i : ℕ) (l : α), L.Nodup → l ∈ L' → l ∈ L.take i → l ∈ L'.take i := by
  induction hsub with
  | slnil => intro i l _ h _; cases h
  | @cons L' L a hsub ih =>
    intro i l hnodup hl htake
    cases i with
    | zero => simp at htake
    | succ j =>
      rw [List.take_succ_cons, List.mem_cons] at htake
      rw [List.nodup_cons] at hnodup
      rcases htake with rfl | htake
      · exact absurd (hsub.subset hl) hnodup.1
      · exact (List.take_sublist_take_left L' (Nat.le_succ j)).subset (ih j l hnodup.2 hl htake)
  | @cons₂ L' L a hsub ih =>
    intro i l hnodup hl htake
    cases i with
    | zero => simp at htake
    | succ j =>
      rw [List.take_succ_cons, List.mem_cons] at htake ⊢
      rw [List.nodup_cons] at hnodup
      rcases List.mem_cons.mp hl with rfl | hl
      · exact Or.inl rfl
      · rcases htake with rfl | htake
        · exact Or.inl rfl
        · exact Or.inr (ih j l hnodup.2 hl htake)


theorem take_min_length {α : Type} (L : List α) (i : ℕ) :
    L.take (min i L.length) = L.take i := by
  rcases Nat.le_total i L.length with h | h
  · rw [Nat.min_eq_left h]
  · rw [Nat.min_eq_right h, List.take_length, List.take_of_length_le h]

theorem take_succ_of_get? {α : Type} (L : List α) (i : ℕ) (l : α) (h : L.get? i = some l) :
    L.take (i + 1) = L.take i ++ [l] := by
  rw [List.take_succ, ← List.get?_eq_getElem?, h]
  rfl

/-- The listener loop under callbacks that only remove listeners, use no key and leave the
target alive: it runs to its end, and every listener left at the end that stood among the
first `i` is called. -/
theorem keyListenerLoop_calls_survivors (call : KeyListener → World → Bool × World)
    (target : Component)
    (hremove : ∀ l w, w.isAlive target = true →
      (call l w).1 = false ∧ (call l w).2.isAlive target = true
        ∧ (listenersOf (call l w).2 target).Sublist (listenersOf w target))
    (bound : ℕ) : ∀ (i : ℕ) (w : World), w.isAlive target = true →
      (listenersOf w target).Nodup → i ≤ (listenersOf w target).length → i ≤ bound →
      (keyListenerLoop call target bound i w).exit = .completed
        ∧ (keyListenerLoop call target bound i w).world.isAlive target = true
        ∧ (listenersOf (keyListenerLoop call target bound i w).world target).Sublist
            (listenersOf w target)
        ∧ ∀ l ∈ listenersOf (keyListenerLoop call target bound i w).world target,
            l ∈ (listenersOf w target).take i →
              l ∈ listenersCalled (keyListenerLoop call target bound i w).events := by
  induction bound with
  | zero =>
    intro i w halive _ _ hb
    obtain rfl : i = 0 := by omega
    exact ⟨rfl, halive, List.Sublist.refl _, fun l _ h => by simp at h⟩
  | succ bound ih =>
    intro i w halive hnodup hi hb
    cases i with
    | zero => exact ⟨rfl, halive, List.Sublist.refl _, fun l _ h => by simp at h⟩
    | succ i =>
      obtain ⟨listener, hget⟩ : ∃ listener, (listenersOf w target).get? i = some listener :=
        ⟨(listenersOf w target).get ⟨i, by omega⟩, List.get?_eq_get _⟩
      obtain ⟨hres, halive', hsub⟩ := hremove listener w halive
      have hstop : ¬ ((call listener w).1 = true ∨ (call listener w).2.isAlive target = false) := by
        rw [hres, halive']
        simp
      have hrun : keyListenerLoop call target (bound + 1) (i + 1) w
          = (keyListenerLoop call target bound
              (min i (listenersOf (call listener w).2 target).length)
              (call listener w).2).precededBy
            [.listenerCalled listener target (call listener w).1
                ((call listener w).2.isAlive target), .readListenerCount target] := by
        rw [keyListenerLoop]
        simp only [hget]
        rw [if_neg hstop]
      obtain ⟨h1, h2, h3, h4⟩ := ih (min i (listenersOf (call listener w).2 target).length)
        (call listener w).2 halive' (hsub.nodup hnodup) (Nat.min_le_right _ _)
        (le_trans (Nat.min_le_left _ _) (by omega))
      rw [hrun]
      refine ⟨h1, h2, h3.trans hsub, ?_⟩
      intro l hl htake
      rw [precededBy_events, listenersCalled_append]
      rw [take_succ_of_get? _ _ _ hget, List.mem_append, List.mem_singleton] at htake
      rcases htake with htake | rfl
      · refine List.mem_append_right _ (h4 l hl ?_)
        rw [take_min_length]
        exact mem_take_of_sublist hsub i l hnodup (h3.subset hl) htake
      · exact List.mem_append_left _ (by simp [listenersCalled])

/-- The listener loop under callbacks that only remove listeners, use no key, leave the
target alive and leave the listeners before the called one in place: the listeners among
the first `i` are called once each, from the last to the first. -/
theorem keyListenerLoop_calls_in_order (call : KeyListener → World → Bool × World)
    (target : Component)
    (hremove : ∀ l w, w.isAlive target = true →
      (call l w).1 = false ∧ (call l w).2.isAlive target = true
        ∧ (listenersOf (call l w).2 target).Sublist (listenersOf w target))
    (hkeep : ∀ l w i, w.isAlive target = true → (listenersOf w target).Nodup →
      (listenersOf w target).get? i = some l →
        (listenersOf (call l w).2 target).take i = (listenersOf w target).take i)
    (bound : ℕ) : ∀ (i : ℕ) (w : World), w.isAlive target = true →
      (listenersOf w target).Nodup → i ≤ (listenersOf w target).length → i ≤ bound →
      listenersCalled (keyListenerLoop call target bound i w).events
        = ((listenersOf w target).take i).reverse := by
  induction bound with
  | zero =>
    intro i w _ _ _ hb
    obtain rfl : i = 0 := by omega
    rfl
  | succ bound ih =>
    intro i w halive hnodup hi hb
    cases i with
    | zero => rfl
    | succ i =>
      obtain ⟨listener, hget⟩ : ∃ listener, (listenersOf w target).get? i = some listener :=
        ⟨(listenersOf w target).get ⟨i, by omega⟩, List.get?_eq_get _⟩
      obtain ⟨hres, halive', hsub⟩ := hremove listener w halive
      have htake := hkeep listener w i halive hnodup hget
      have hstop : ¬ ((call listener w).1 = true ∨ (call listener w).2.isAlive target = false) := by
        rw [hres, halive']
        simp
      have hlen : i ≤ (listenersOf (call listener w).2 target).length := by
        have := congrArg List.length htake
        rw [List.length_take, List.length_take] at this
        omega
      have hrun : keyListenerLoop call target (bound + 1) (i + 1) w
          = (keyListenerLoop call target bound i (call listener w).2).precededBy
            [.listenerCalled listener target (call listener w).1
                ((call listener w).2.isAlive target), .readListenerCount target] := by
        rw [keyListenerLoop]
        simp only [hget]
        rw [if_neg hstop, Nat.min_eq_left hlen]
      have h2 := ih i (call listener w).2 halive' (hsub.nodup hnodup) hlen (by omega)
      rw [hrun, precededBy_events, listenersCalled_append, h2, htake,
        take_succ_of_get? _ _ _ hget, List.reverse_append]
      rfl

theorem listenersOf_removeKeyListener (w : World) (c : Component) (listener : KeyListener) :
    listenersOf (removeKeyListener w c listener) c = (listenersOf w c).erase listener := by
  unfold listenersOf removeKeyListener
  simp only [if_true]
  cases w.keyListeners c <;> rfl

/-- Removing the element at index `i` of a list without duplicates leaves the first `i`
elements in place. -/
theorem take_erase_of_get? {α : Type} [DecidableEq α] (L : List α) :
    ∀ (i : ℕ) (l : α), L.Nodup → L.get? i = some l → (L.erase l).take i = L.take i := by
  induction L with
  | nil => intro i l _ h; simp at h
  | cons a L ih =>
    intro i l hnodup hget
    cases i with
    | zero => simp
    | succ j =>
      rw [List.nodup_cons] at hnodup
      rw [List.get?_cons_succ] at hget
      have hne : a ≠ l := by
        rintro rfl
        exact hnodup.1 (List.get?_mem hget)
      rw [List.erase_cons_tail (by simpa using hne), List.take_succ_cons, List.take_succ_cons,
        ih j l hnodup.2 hget]

/-- C17 counterexample: component 2 has the key listeners 10, 11, 12 (added in that order),
and listener 12 removes listener 10 in its callback.  No callback uses the key and nothing is
destroyed, yet in the passes of `handleKeyPress` and of `handleKeyUpOrDown` over that list
listener 12, which is still registered at the end, is called twice: the removal moves it from
index 2 to index 1, the index the loop visits next. -/
theorem keyListeners_removal_counterexample :
    (handleKeyPress (removingCode 12 10) 1 5 65 0 exampleWorld).exit = .returned false
      ∧ (handleKeyPress (removingCode 12 10) 1 5 65 0 exampleWorld).world.isAlive 2 = true
      ∧ listenersOf (handleKeyPress (removingCode 12 10) 1 5 65 0 exampleWorld).world 2
          = [11, 12]
      ∧ listenersCalled (handleKeyPress (removingCode 12 10) 1 5 65 0 exampleWorld).events
          = [12, 12, 11]
      ∧ (listenersCalled (handleKeyPress (removingCode 12 10) 1 5 65 0 exampleWorld).events).count
          12 = 2
      ∧ listenersCalled (handleKeyUpOrDown (removingCode 12 10) 1 5 true exampleWorld).events
          = [12, 12, 11] :=
  ⟨rfl, rfl, rfl, rfl, rfl, rfl⟩

/-- C17 (amended): the pass over the key listeners of a target that `handleKeyPress` and
`handleKeyUpOrDown` both make, for any listener method `call`.  When the listeners of the
target are distinct, and every callback uses no key, leaves the target alive and at most
removes listeners from the list, the pass runs to its end and each listener still registered
at the end is called at least once.  When moreover no callback changes the part of the list
that stands before the called listener (it removes only itself or listeners already called),
the listeners of the initial list are called from the most recently added to the oldest, and
each listener still registered at the end is called exactly once. -/
theorem keyListeners_removal (call : KeyListener → World → Bool × World) (target : Component)
    (w : World) (halive : w.isAlive target = true) (hnodup : (listenersOf w target).Nodup)
    (hremove : ∀ l w', w'.isAlive target = true →
      (call l w').1 = false ∧ (call l w').2.isAlive target = true
        ∧ (listenersOf (call l w').2 target).Sublist (listenersOf w' target)) :
    (callKeyListeners call target w).exit = .completed
      ∧ (∀ l ∈ listenersOf (callKeyListeners call target w).world target,
          1 ≤ (listenersCalled (callKeyListeners call target w).events).count l)
      ∧ ((∀ l w' i, w'.isAlive target = true → (listenersOf w' target).Nodup →
            (listenersOf w' target).get? i = some l →
              (listenersOf (call l w').2 target).take i = (listenersOf w' target).take i) →
          listenersCalled (callKeyListeners call target w).events
              = (listenersOf w target).reverse
            ∧ ∀ l ∈ listenersOf (callKeyListeners call target w).world target,
                (listenersCalled (callKeyListeners call target w).events).count l = 1) := by
  cases hk : w.keyListeners target with
  | none =>
    have hnil : listenersOf w target = [] := by simp [listenersOf, hk]
    have hrun : callKeyListeners call target w
        = { events := [.readKeyListeners target], world := w, exit := .completed } := by
      simp only [callKeyListeners, hk]
    rw [hrun]
    have hno : ∀ l, l ∉ listenersOf w target := by
      intro l hl
      rw [hnil] at hl
      cases hl
    refine ⟨rfl, fun l hl => absurd hl (hno l), fun _ => ⟨?_, fun l hl => absurd hl (hno l)⟩⟩
    rw [hnil]
    rfl
  | some listeners =>
    have hL : listenersOf w target = listeners := by simp [listenersOf, hk]
    have hrun : callKeyListeners call target w
        = (keyListenerLoop call target (listenersOf w target).length
            (listenersOf w target).length w).precededBy [.readKeyListeners target] := by
      simp only [callKeyListeners, hk, hL]
    obtain ⟨h1, _, h3, h4⟩ := keyListenerLoop_calls_survivors call target hremove
      (listenersOf w target).length (listenersOf w target).length w halive hnodup
      (le_refl _) (le_refl _)
    have hcalled : listenersCalled (callKeyListeners call target w).events
        = listenersCalled (keyListenerLoop call target (listenersOf w target).length
            (listenersOf w target).length w).events := by
      rw [hrun, precededBy_events, listenersCalled_append]
      rfl
    have hworld : (callKeyListeners call target w).world
        = (keyListenerLoop call target (listenersOf w target).length
            (listenersOf w target).length w).world := by
      rw [hrun]
      rfl
    rw [hcalled, hworld]
    refine ⟨by rw [hrun]; exact h1, ?_, ?_⟩
    · intro l hl
      exact List.count_pos_iff.mpr (h4 l hl (by rw [List.take_length]; exact h3.subset hl))
    · intro hkeep
      have horder := keyListenerLoop_calls_in_order call target hremove hkeep
        (listenersOf w target).length (listenersOf w target).length w halive hnodup
        (le_refl _) (le_refl _)
      rw [List.take_length] at horder
      refine ⟨horder, ?_⟩
      intro l hl
      rw [horder]
      exact List.count_eq_one_of_mem (List.nodup_reverse.mpr hnodup)
        (List.mem_reverse.mpr (h3.subset hl))

/-- C17 witness: listener 12 of component 2 removes itself in its `keyPressed`; the listeners
12, 11, 10 are called in that order, and the two left at the end once each. -/
theorem keyListeners_removal_witness :
    listenersCalled (callKeyListeners
        (fun l w => (removingCode 12 12).listenerKeyPressed l ⟨65, 0, 0⟩ 2 w) 2
        exampleWorld).events = [12, 11, 10]
      ∧ ∀ l ∈ listenersOf (callKeyListeners
          (fun l w => (removingCode 12 12).listenerKeyPressed l ⟨65, 0, 0⟩ 2 w) 2
          exampleWorld).world 2,
          (listenersCalled (callKeyListeners
            (fun l w => (removingCode 12 12).listenerKeyPressed l ⟨65, 0, 0⟩ 2 w) 2
            exampleWorld).events).count l = 1 :=
  (keyListeners_removal
    (fun l w => (removingCode 12 12).listenerKeyPressed l ⟨65, 0, 0⟩ 2 w) 2 exampleWorld rfl
    (by decide)
    (fun l w' h => by
      refine ⟨rfl, ?_, ?_⟩
      · simp only [removingCode]
        split_ifs
        · exact h
        · exact h
      · simp only [removingCode]
        split_ifs
        · rw [listenersOf_removeKeyListener]
          exact List.erase_sublist _ _
        · exact List.Sublist.refl _)).2.2
    (fun l w' i _ hnodup hget => by
      simp only [removingCode]
      split_ifs with h12
      · rw [listenersOf_removeKeyListener, ← h12]
        exact take_erase_of_get? _ i l hnodup hget
      · rfl)

end ComponentPeer
namespace ComponentPeer

/-! ## The order of key dispatch -/

end ComponentPeer
namespace ComponentPeer

end ComponentPeer
namespace ComponentPeer

/-- C22: focus traversal in `handleKeyPress`.  In any round of the walk (the first target or
a parent reached later, so the listeners and handlers tried before left the key unused), when
the listeners of the target leave the key unused and the target alive, the target's own
`keyPressed` does too, a component `focused` has the focus after these calls, and the key is
Tab or Shift+Tab, the walk ends there: after the handler the only thing done is
`moveKeyboardFocusToSibling` on `focused`, to the next sibling for Tab and to the previous
one for Shift+Tab, and the result is `true` if and only if the focused component after that
call is not `focused`. -/
theorem keyPress_tab_traversal (u : UserCode) (keyInfo : KeyPress) (fuel : ℕ)
    (target : Component) (keyWasUsed : Bool) (w : World) (focused : Component)
    (hlisteners : (callKeyListeners
      (fun listener w => u.listenerKeyPressed listener keyInfo target w) target w).exit
        = .completed)
    (hhandler : (u.keyPressed target keyInfo (callKeyListeners
      (fun listener w => u.listenerKeyPressed listener keyInfo target w) target w).world).1
        = false)
    (halive : (u.keyPressed target keyInfo (callKeyListeners
      (fun listener w => u.listenerKeyPressed listener keyInfo target w) target w).world).2.isAlive
        target = true)
    (hfocus : (u.keyPressed target keyInfo (callKeyListeners
      (fun listener w => u.listenerKeyPressed listener keyInfo target w) target
        w).world).2.currentlyFocusedComponent = some focused)
    (htab : u.isTab keyInfo = true ∨ u.isShiftTab keyInfo = true) :
    (keyPressLoop u keyInfo (fuel + 1) (some target) keyWasUsed w).events
        = (callKeyListeners
            (fun listener w => u.listenerKeyPressed listener keyInfo target w) target w).events
          ++ [.handlerCalled target false true,
              .moveKeyboardFocusToSibling focused (u.isTab keyInfo)]
      ∧ (keyPressLoop u keyInfo (fuel + 1) (some target) keyWasUsed w).world
          = u.moveKeyboardFocusToSibling focused (u.isTab keyInfo)
              (u.keyPressed target keyInfo (callKeyListeners
                (fun listener w => u.listenerKeyPressed listener keyInfo target w) target
                  w).world).2
      ∧ ∃ result : Bool,
          (keyPressLoop u keyInfo (fuel + 1) (some target) keyWasUsed w).exit = .returned result
            ∧ (result = true ↔
                (keyPressLoop u keyInfo (fuel + 1) (some target) keyWasUsed
                  w).world.currentlyFocusedComponent ≠ some focused) := by
  rw [keyPressLoop]
  generalize callKeyListeners
    (fun listener w => u.listenerKeyPressed listener keyInfo target w) target w = ls
    at hlisteners hhandler halive hfocus
  simp only [hlisteners, hhandler, halive, hfocus]
  rw [if_neg (by simp), if_pos htab]
  refine ⟨rfl, rfl, _, rfl, ?_⟩
  simp only [precededBy_world, decide_eq_true_eq, ne_eq]
  exact ⟨fun h h' => h h'.symm, fun h h' => h h'.symm⟩

/-- C22 witness: component 2 has the focus and nothing uses a key.  With Shift+Tab the focus
moves to the previous sibling and the result is `true`; with Tab component 2, which has no
next sibling, keeps the focus and the result is `false`. -/
theorem keyPress_tab_traversal_witness :
    (handleKeyPress tabCode 1 5 9 0 exampleWorldShift).exit = .returned true
      ∧ (handleKeyPress tabCode 1 5 9 0 exampleWorld).exit = .returned false := by
  obtain ⟨_, _, r1, h1, h1'⟩ :=
    keyPress_tab_traversal tabCode ⟨9, 1, 0⟩ 4 2 false exampleWorldShift 2 rfl rfl rfl rfl
      (Or.inr rfl)
  obtain ⟨_, _, r2, h2, h2'⟩ :=
    keyPress_tab_traversal tabCode ⟨9, 0, 0⟩ 4 2 false exampleWorld 2 rfl rfl rfl rfl
      (Or.inl rfl)
  refine ⟨?_, ?_⟩
  · have : r1 = true := h1'.mpr (by decide)
    rw [← this]
    exact h1
  · have : r2 = false := by
      cases r2
      · rfl
      · exact absurd rfl (h2'.mp rfl)
    rw [← this]
    exact h2

end ComponentPeer
namespace ComponentPeer

/-! ## C23: `handleDragExit` clears the drag state -/

/-- What `handleDragMove` does at a position where the hit test finds no component. -/
theorem handleDragMove_nothing_under_mouse (t : ComponentTree) (fuel : ℕ) (st : DragState)
    (info : DragInfo) (hnull : t.getComponentAt info.position = none) :
    handleDragMove t fuel st info =
      if st.lastDragAndDropCompUnderMouse = none then
        .ok (finishDragMove t info st.dragAndDropTargetComponent st [])
      else
        match st.dragAndDropTargetComponent with
        | none =>
          .ok { returned := false
                state := { st with lastDragAndDropCompUnderMouse := none }
                events := []
                jassertHeld := true }
        | some T =>
          if isSuitableTarget t info (some T) = true then
            .ok { returned := false
                  state := { dragAndDropTargetComponent := none
                             lastDragAndDropCompUnderMouse := none }
                  events := [dragExitEvent info T]
                  jassertHeld := true }
          else .error .nullPointerCall := by
  unfold handleDragMove
  simp only [hnull]
  by_cases hlast : st.lastDragAndDropCompUnderMouse = none
  · rw [if_neg (by simp [hlast]), if_pos hlast]
  · rw [if_pos (by simpa [eq_comm] using hlast), if_neg hlast]
    cases hT : st.dragAndDropTargetComponent with
    | none => simp [findDragAndDropTarget, finishDragMove]
    | some T =>
      by_cases hk : isSuitableTarget t info (some T) = true
      · simp [findDragAndDropTarget, exitLastTarget, hk, finishDragMove, enterNewTarget]
      · simp [findDragAndDropTarget, exitLastTarget, hk]

theorem finishDragMove_state (t : ComponentTree) (info : DragInfo)
    (newTarget : Option Component) (st : DragState) (events : List DragEvent) :
    (finishDragMove t info newTarget st events).state = st := by
  unfold finishDragMove
  cases newTarget with
  | none => rfl
  | some c =>
    simp only
    split_ifs <;> rfl

theorem enterNewTarget_last (t : ComponentTree) (info : DragInfo)
    (newTarget : Option Component) (st : DragState) :
    (enterNewTarget t info newTarget st).1.lastDragAndDropCompUnderMouse
      = st.lastDragAndDropCompUnderMouse := by
  unfold enterNewTarget
  cases newTarget with
  | none => rfl
  | some c =>
    simp only
    split_ifs <;> rfl

/-- A returning `handleDragMove` keeps the invariant that a null last component under the
mouse comes with no locked target. -/
theorem handleDragMove_inv (t : ComponentTree) (fuel : ℕ) (st : DragState) (info : DragInfo)
    (r : DragResult) (h : handleDragMove t fuel st info = .ok r)
    (hinv : st.lastDragAndDropCompUnderMouse = none → st.dragAndDropTargetComponent = none) :
    r.state.lastDragAndDropCompUnderMouse = none → r.state.dragAndDropTargetComponent = none := by
  cases hcomp : t.getComponentAt info.position with
  | none =>
    rw [handleDragMove_nothing_under_mouse t fuel st info hcomp] at h
    split_ifs at h with hlast
    · simp only [Except.ok.injEq] at h
      subst h
      rw [finishDragMove_state]
      exact hinv
    · cases hT : st.dragAndDropTargetComponent with
      | none =>
        simp only [hT, Except.ok.injEq] at h
        subst h
        intro _
        rfl
      | some T =>
        simp only [hT] at h
        split_ifs at h
        simp only [Except.ok.injEq] at h
        subst h
        intro _
        rfl
  | some c =>
    unfold handleDragMove at h
    simp only [hcomp] at h
    split_ifs at h with hne
    · split at h
      · cases h
      · split_ifs at h
        · split at h
          · cases h
          · simp only [Except.ok.injEq] at h
            subst h
            rw [finishDragMove_state, enterNewTarget_last]
            intro hn
            cases hn
        · simp only [Except.ok.injEq] at h
          subst h
          rw [finishDragMove_state]
          intro hn
          cases hn
    · simp only [Except.ok.injEq] at h
      subst h
      rw [finishDragMove_state]
      exact hinv

/-- What `handleDragExit` does when the hit test finds no component at `(-1, -1)` and a null
last component under the mouse comes with no locked target. -/
theorem handleDragExit_eq (t : ComponentTree) (fuel : ℕ) (st : DragState) (info : DragInfo)
    (hnull : t.getComponentAt { x := -1, y := -1 } = none)
    (hinv : st.lastDragAndDropCompUnderMouse = none → st.dragAndDropTargetComponent = none) :
    handleDragExit t fuel st info =
      match st.dragAndDropTargetComponent with
      | none =>
        .ok { returned := false
              state := { dragAndDropTargetComponent := none
                         lastDragAndDropCompUnderMouse := none }
              events := []
              jassertHeld := true }
      | some T =>
        if isSuitableTarget t info (some T) = true then
          .ok { returned := false
                state := { dragAndDropTargetComponent := none
                           lastDragAndDropCompUnderMouse := none }
                events := [dragExitEvent info T]
                jassertHeld := true }
        else .error .nullPointerCall := by
  unfold handleDragExit
  simp only
  rw [handleDragMove_nothing_under_mouse t fuel st _ hnull]
  by_cases hlast : st.lastDragAndDropCompUnderMouse = none
  · have hT := hinv hlast
    rw [if_pos hlast]
    simp only [hT, finishDragMove]
    rfl
  · rw [if_neg hlast]
    cases hT : st.dragAndDropTargetComponent with
    | none => rfl
    | some T =>
      simp only
      have hs : isSuitableTarget t { info with position := { x := -1, y := -1 } } (some T)
          = isSuitableTarget t info (some T) := rfl
      rw [hs]
      split_ifs
      · rfl
      · rfl

/-- The state invariant of the drag members: in every state the peer can reach, a null last
component under the mouse comes with no locked target. -/
theorem dragReachable_inv (t : ComponentTree)
    (hnull : t.getComponentAt { x := -1, y := -1 } = none) {st : DragState}
    (h : DragReachable t st) :
    st.lastDragAndDropCompUnderMouse = none → st.dragAndDropTargetComponent = none := by
  induction h with
  | init => intro _; rfl
  | move st fuel info r _ hrun ih => exact handleDragMove_inv t fuel st info r hrun ih
  | exit st fuel info r _ hrun ih =>
    rw [handleDragExit_eq t fuel st info hnull ih] at hrun
    cases hT : st.dragAndDropTargetComponent with
    | none =>
      simp only [hT, Except.ok.injEq] at hrun
      subst hrun
      intro _
      rfl
    | some T =>
      simp only [hT] at hrun
      split_ifs at hrun
      simp only [Except.ok.injEq] at hrun
      subst hrun
      intro _
      rfl
  | drop st fuel info r _ hrun ih =>
    unfold handleDragDrop at hrun
    split at hrun
    · cases hrun
    · rename_i moved hmove
      have hm := handleDragMove_inv t fuel st info moved hmove ih
      split at hrun
      · simp only [Except.ok.injEq] at hrun
        subst hrun
        exact hm
      · intro _
        simp only at hrun
        split_ifs at hrun <;>
          (simp only [Except.ok.injEq] at hrun; subst hrun; rfl)

theorem reachable_lockedOnTwo : DragReachable boundedTree lockedOnTwo :=
  DragReachable.move _ 5 (exampleFileDrag 3 4)
    { returned := true
      state := lockedOnTwo
      events := [.isInterestedInFileDrag 2 ["a.txt"], .fileDragEnter 2 ["a.txt"] 3 4,
        .fileDragMove 2 ["a.txt"] 3 4]
      jassertHeld := true }
    DragReachable.init rfl

/-- C23: `handleDragExit` clears the drag state.  In every state the peer can reach through
`handleDragMove`, `handleDragExit` and `handleDragDrop` (in which a null last component under
the mouse comes with no locked target), when the hit test finds no component at `(-1, -1)`
and a locked target is a target of the kind of the drag that exits, `handleDragExit` returns;
afterwards no target is locked (its assertion holds) and the last component under the mouse
is null; a target locked before receives exactly one drag exit and no drag move, and with no
target locked no call is made. -/
theorem handleDragExit_clears (t : ComponentTree) (fuel : ℕ) (st : DragState) (info : DragInfo)
    (hreach : DragReachable t st)
    (hnull : t.getComponentAt { x := -1, y := -1 } = none)
    (hkind : ∀ T, st.dragAndDropTargetComponent = some T →
      isSuitableTarget t info (some T) = true) :
    (st.lastDragAndDropCompUnderMouse = none → st.dragAndDropTargetComponent = none)
      ∧ ∃ r : DragResult, handleDragExit t fuel st info = .ok r
        ∧ r.state = { dragAndDropTargetComponent := none, lastDragAndDropCompUnderMouse := none }
        ∧ r.jassertHeld = true
        ∧ r.events =
            (match st.dragAndDropTargetComponent with
             | none => []
             | some T =>
               if isFileDrag info then [.fileDragExit T info.files]
               else [.textDragExit T info.text]) := by
  have hinv := dragReachable_inv t hnull hreach
  refine ⟨hinv, ?_⟩
  rw [handleDragExit_eq t fuel st info hnull hinv]
  cases hT : st.dragAndDropTargetComponent with
  | none => exact ⟨_, rfl, rfl, rfl, rfl⟩
  | some T =>
    simp only
    rw [if_pos (hkind T hT)]
    refine ⟨_, rfl, rfl, rfl, ?_⟩
    simp only [dragExitEvent]
    split_ifs <;> rfl

/-- C23 witness: component 2 is locked by a file drag over it; the exit of that drag calls
`fileDragExit` on component 2 and nothing else, and clears both drag members. -/
theorem handleDragExit_clears_witness :
    ∃ r : DragResult, handleDragExit boundedTree 5 lockedOnTwo (exampleFileDrag 3 4) = .ok r
      ∧ r.state = { dragAndDropTargetComponent := none, lastDragAndDropCompUnderMouse := none }
      ∧ r.jassertHeld = true
      ∧ r.events = [.fileDragExit 2 ["a.txt"]] :=
  (handleDragExit_clears boundedTree 5 lockedOnTwo (exampleFileDrag 3 4) reachable_lockedOnTwo
    rfl (fun T hT => by
      obtain rfl : T = 2 := (Option.some.inj hT).symm
      rfl)).2

end ComponentPeer
namespace Slider

open SliderStyle

/-! ## C24: the choice of the drag handler -/

end Slider
namespace Slider

open SliderStyle

/-! ## C25: the nearest thumb -/

/-- C25: the nearest thumb wins.  With `d0 = normalPosDistance`, `d1 = minPosDistance` and
`d2 = maxPosDistance` (the distances of the mouse from the position of the current value, from
the position of the minimum value less `0.1`, and from the position of the maximum value plus
`0.1`), `getThumbIndexAt` returns for a three-value slider an index among `0`, `1`, `2` whose
distance is at most the other two, for a two-value slider the index `1` or `2` whose distance
is at most the other's, and for every other style `0`. -/
theorem getThumbIndexAt_nearest (pow : ℚ → ℚ → ℚ) (s : Pimpl) (e : MouseEvent) :
    (isThreeValue s = true →
        (getThumbIndexAt pow s e = 0
            ∧ normalPosDistance pow s e ≤ minPosDistance pow s e
            ∧ normalPosDistance pow s e ≤ maxPosDistance pow s e)
          ∨ (getThumbIndexAt pow s e = 1
            ∧ minPosDistance pow s e ≤ normalPosDistance pow s e
            ∧ minPosDistance pow s e ≤ maxPosDistance pow s e)
          ∨ (getThumbIndexAt pow s e = 2
            ∧ maxPosDistance pow s e ≤ normalPosDistance pow s e
            ∧ maxPosDistance pow s e ≤ minPosDistance pow s e))
      ∧ (isTwoValue s = true →
          (getThumbIndexAt pow s e = 1 ∧ minPosDistance pow s e ≤ maxPosDistance pow s e)
            ∨ (getThumbIndexAt pow s e = 2
                ∧ maxPosDistance pow s e ≤ minPosDistance pow s e))
      ∧ (isTwoValue s = false → isThreeValue s = false → getThumbIndexAt pow s e = 0) := by
  refine ⟨?_, ?_, ?_⟩
  · intro h3
    have h2 : ¬ isTwoValue s = true := by
      unfold isTwoValue isThreeValue at *
      revert h3
      cases s.style <;> decide
    unfold getThumbIndexAt
    rw [if_pos (Or.inr h3), if_neg h2]
    generalize normalPosDistance pow s e = d0
    generalize minPosDistance pow s e = d1
    generalize maxPosDistance pow s e = d2
    split_ifs with ha hb
    · exact Or.inr (Or.inl ⟨rfl, ha.1, ha.2⟩)
    · refine Or.inr (Or.inr ⟨rfl, hb, ?_⟩)
      by_contra hlt
      have hlt : d1 < d2 := not_le.mp hlt
      exact ha ⟨le_trans hlt.le hb, hlt.le⟩
    · have hb : d0 < d2 := not_le.mp hb
      refine Or.inl ⟨rfl, ?_, hb.le⟩
      by_contra hlt
      have hlt : d1 < d0 := not_le.mp hlt
      exact ha ⟨hlt.le, (hlt.trans hb).le⟩
  · intro h2
    unfold getThumbIndexAt
    rw [if_pos (Or.inl h2), if_pos h2]
    split_ifs with ha
    · exact Or.inr ⟨rfl, ha⟩
    · exact Or.inl ⟨rfl, (not_le.mp ha).le⟩
  · intro h2 h3
    unfold getThumbIndexAt
    rw [if_neg]
    rintro (h | h)
    · rw [h2] at h
      cases h
    · rw [h3] at h
      cases h

/-- C25 witness: on the three-value slider with the values `2`, `5`, `8` at the pixels `20`,
`50`, `80`, a mouse position of `75` gives the thumb of the maximum value. -/
theorem getThumbIndexAt_nearest_witness :
    getThumbIndexAt (fun n _ => n) threeValueSlider { x := 75, y := 0 } = 2
      ∧ ((getThumbIndexAt (fun n _ => n) threeValueSlider { x := 75, y := 0 } = 0
            ∧ normalPosDistance (fun n _ => n) threeValueSlider { x := 75, y := 0 }
                ≤ minPosDistance (fun n _ => n) threeValueSlider { x := 75, y := 0 }
            ∧ normalPosDistance (fun n _ => n) threeValueSlider { x := 75, y := 0 }
                ≤ maxPosDistance (fun n _ => n) threeValueSlider { x := 75, y := 0 })
          ∨ (getThumbIndexAt (fun n _ => n) threeValueSlider { x := 75, y := 0 } = 1
            ∧ minPosDistance (fun n _ => n) threeValueSlider { x := 75, y := 0 }
                ≤ normalPosDistance (fun n _ => n) threeValueSlider { x := 75, y := 0 }
            ∧ minPosDistance (fun n _ => n) threeValueSlider { x := 75, y := 0 }
                ≤ maxPosDistance (fun n _ => n) threeValueSlider { x := 75, y := 0 })
          ∨ (getThumbIndexAt (fun n _ => n) threeValueSlider { x := 75, y := 0 } = 2
            ∧ maxPosDistance (fun n _ => n) threeValueSlider { x := 75, y := 0 }
                ≤ normalPosDistance (fun n _ => n) threeValueSlider { x := 75, y := 0 }
            ∧ maxPosDistance (fun n _ => n) threeValueSlider { x := 75, y := 0 }
                ≤ minPosDistance (fun n _ => n) threeValueSlider { x := 75, y := 0 })) := by
  refine ⟨?_, (getThumbIndexAt_nearest (fun n _ => n) threeValueSlider
    { x := 75, y := 0 }).1 rfl⟩
  have h0 : normalPosDistance (fun n _ => n) threeValueSlider { x := 75, y := 0 } = 25 := by
    norm_num +decide [normalPosDistance, getLinearSliderPos, threeValueSlider, Pimpl.init,
      isVertical, valueToProportionOfLength, abs_of_neg]
  have h1 : minPosDistance (fun n _ => n) threeValueSlider { x := 75, y := 0 } = 551 / 10 := by
    norm_num +decide [minPosDistance, getLinearSliderPos, threeValueSlider, Pimpl.init,
      isVertical, valueToProportionOfLength, abs_of_neg]
  have h2 : maxPosDistance (fun n _ => n) threeValueSlider { x := 75, y := 0 } = 51 / 10 := by
    norm_num +decide [maxPosDistance, getLinearSliderPos, threeValueSlider, Pimpl.init,
      isVertical, valueToProportionOfLength, abs_of_pos]
  unfold getThumbIndexAt
  rw [h0, h1, h2]
  norm_num +decide [isTwoValue, isThreeValue, threeValueSlider, Pimpl.init]

end Slider
namespace Slider

open SliderStyle

/-! ## C29: `setRange` and the current values -/

/-- C29: `setRange` does not always keep the current values inside the new range, although
its comment says so.  On a new two-value slider (range `[0, 10]`, min value and max value
`0`), `setRange (5, 10, 0)` returns with the max value moved to `5` but the min value still
`0`, below the new minimum `5`: `setMinValue` runs first and caps the constrained value `5`
to the old max value `0`. -/
theorem setRange_minValue_outside_range :
    setRange (Pimpl.init TwoValueHorizontal) 5 10 0
        = some { Pimpl.init TwoValueHorizontal with
                  minimum := 5, valueMax := 5, lastValueMax := 5 }
      ∧ getMinValue { Pimpl.init TwoValueHorizontal with
                  minimum := 5, valueMax := 5, lastValueMax := 5 } = 0
      ∧ getMaxValue { Pimpl.init TwoValueHorizontal with
                  minimum := 5, valueMax := 5, lastValueMax := 5 } = 5
      ∧ ¬ ((5 : ℚ) ≤ getMinValue { Pimpl.init TwoValueHorizontal with
                  minimum := 5, valueMax := 5, lastValueMax := 5 }) := by
  refine ⟨?_, rfl, rfl, ?_⟩
  · simp only [setRange, decimalPlacesFor_zero, keepValuesInsideRange, setMinValue_noNudge,
      setMaxValue_noNudge]
    norm_num +decide [Pimpl.init, isTwoValue, getMinValue, getMaxValue,
      constrainedValue, snappedValue, storeMinValue, storeMaxValue]
  · norm_num [getMinValue, Pimpl.init]

/-! ## C30: the decimal-places loop of `setRange` -/

/-- C30: the decimal-places loop of `setRange` does not exit for every non-zero interval.
For the interval `1 / 100000000` the loop starts at `v = 0`, and from `v = 0` it is still
running after any number of iterations, so `setRange` with that interval never returns; in
general the loop exits if and only if `v`, the truncated `newInt * 10000000`, is not zero. -/
theorem setRange_decimalPlaces_loop_diverges :
    (truncToInt ((1 / 100000000 : ℚ) * 10000000)).natAbs = 0
      ∧ (∀ (fuel : ℕ) (numDecimalPlaces : ℤ), decimalPlacesLoop fuel 0 numDecimalPlaces = none)
      ∧ (∀ style : SliderStyle, setRange (Pimpl.init style) 0 10 (1 / 100000000) = none)
      ∧ ∀ newInt : ℚ, (decimalPlacesFor newInt).isSome = true
          ↔ newInt = 0 ∨ truncToInt (newInt * 10000000) ≠ 0 := by
  have hv : truncToInt ((1 / 100000000 : ℚ) * 10000000) = 0 := by
    norm_num [truncToInt]
  have hnone : decimalPlacesFor (1 / 100000000) = none := by
    have h := (decimalPlacesFor_isSome_iff (1 / 100000000)).not
    cases hd : decimalPlacesFor (1 / 100000000) with
    | none => rfl
    | some n =>
      exfalso
      rw [hd] at h
      exact h.mpr (by rw [hv]; norm_num) rfl
  refine ⟨by rw [hv]; rfl, decimalPlacesLoop_zero, ?_, decimalPlacesFor_isSome_iff⟩
  intro style
  unfold setRange
  rw [if_pos (Or.inr (Or.inr (by norm_num [Pimpl.init]))), hnone]

end Slider
namespace ScrollBar

/-! ## C26 and C27: the thumb's size and position -/

theorem thumb_after_store (sb : ScrollBar) (start size : ℤ) :
    (if sb.thumbStart ≠ start ∨ sb.thumbSize ≠ size
      then { sb with thumbStart := start, thumbSize := size } else sb).thumbStart = start
    ∧ (if sb.thumbStart ≠ start ∨ sb.thumbSize ≠ size
      then { sb with thumbStart := start, thumbSize := size } else sb).thumbSize = size
    ∧ (if sb.thumbStart ≠ start ∨ sb.thumbSize ≠ size
      then { sb with thumbStart := start, thumbSize := size } else sb).thumbAreaStart
        = sb.thumbAreaStart
    ∧ (if sb.thumbStart ≠ start ∨ sb.thumbSize ≠ size
      then { sb with thumbStart := start, thumbSize := size } else sb).thumbAreaSize
        = sb.thumbAreaSize := by
  split_ifs with h
  · exact ⟨rfl, rfl, rfl, rfl⟩
  · push_neg at h
    exact ⟨h.1, h.2, rfl, rfl⟩

/-- The thumb geometry after `updateThumbPosition`. -/
theorem updateThumbPosition_geometry (sb : ScrollBar) :
    (updateThumbPosition sb).thumbStart = newThumbStart sb
      ∧ (updateThumbPosition sb).thumbSize = newThumbSize sb
      ∧ (updateThumbPosition sb).thumbAreaStart = sb.thumbAreaStart
      ∧ (updateThumbPosition sb).thumbAreaSize = sb.thumbAreaSize := by
  unfold updateThumbPosition newThumbStart newThumbSize
  exact thumb_after_store _ _ _

theorem newThumbSize_eq (sb : ScrollBar) (r : ℤ)
    (hr : roundToInt (if sb.totalRange.getLength > 0
      then (sb.visibleRange.getLength * (sb.thumbAreaSize : ℚ)) / sb.totalRange.getLength
      else (sb.thumbAreaSize : ℚ)) = r) :
    newThumbSize sb
      = if r < sb.minimumScrollbarThumbSize
          then min sb.minimumScrollbarThumbSize (sb.thumbAreaSize - 1)
          else min r sb.thumbAreaSize := by
  unfold newThumbSize
  simp only [hr]
  by_cases h : r < sb.minimumScrollbarThumbSize
  · simp only [h, if_true]
    rw [if_neg]
    have := min_le_right sb.minimumScrollbarThumbSize (sb.thumbAreaSize - 1)
    omega
  · simp only [h, if_false]
    by_cases h2 : r > sb.thumbAreaSize
    · rw [if_pos h2, min_eq_right (le_of_lt h2)]
    · rw [if_neg h2, min_eq_left (not_lt.mp h2)]

theorem newThumbSize_le (sb : ScrollBar) : newThumbSize sb ≤ sb.thumbAreaSize := by
  unfold newThumbSize
  simp only
  generalize (if roundToInt (if sb.totalRange.getLength > 0
      then (sb.visibleRange.getLength * (sb.thumbAreaSize : ℚ)) / sb.totalRange.getLength
      else (sb.thumbAreaSize : ℚ)) < sb.minimumScrollbarThumbSize
    then min sb.minimumScrollbarThumbSize (sb.thumbAreaSize - 1)
    else roundToInt (if sb.totalRange.getLength > 0
      then (sb.visibleRange.getLength * (sb.thumbAreaSize : ℚ)) / sb.totalRange.getLength
      else (sb.thumbAreaSize : ℚ))) = n
  split_ifs with h
  · exact le_refl _
  · exact not_lt.mp h

theorem roundToInt_nonneg {x : ℚ} (h : 0 ≤ x) : 0 ≤ roundToInt x := by
  unfold roundToInt
  rw [round_eq]
  exact Int.floor_nonneg.mpr (by linarith)

theorem roundToInt_le {x : ℚ} {n : ℤ} (h : x ≤ (n : ℚ)) : roundToInt x ≤ n := by
  unfold roundToInt
  rw [round_eq]
  have : ⌊x + 1 / 2⌋ < n + 1 := by
    rw [Int.floor_lt]
    push_cast
    linarith
  omega

/-- C26 counterexample: with the total range `[0, 100]`, the visible range `[0, 50]`, a track
of 10 pixels and a minimum thumb size of 10, the rounded proportional size is 5 and
`updateThumbPosition` leaves a thumb of 9 pixels, while the size raised to the minimum and
capped to the track is 10. -/
theorem thumbSize_counterexample :
    crampedBar.totalRange.getLength > 0 ∧ crampedBar.thumbAreaSize ≥ 0
      ∧ roundToInt (crampedBar.visibleRange.getLength * (crampedBar.thumbAreaSize : ℚ)
          / crampedBar.totalRange.getLength) = 5
      ∧ (updateThumbPosition crampedBar).thumbSize = 9
      ∧ min (max (5 : ℤ) crampedBar.minimumScrollbarThumbSize) crampedBar.thumbAreaSize = 10 := by
  have hr : roundToInt (crampedBar.visibleRange.getLength * (crampedBar.thumbAreaSize : ℚ)
      / crampedBar.totalRange.getLength) = 5 := by
    norm_num [crampedBar, Range.getLength, roundToInt]
  refine ⟨by norm_num [crampedBar, Range.getLength], by norm_num [crampedBar], hr, ?_,
    by norm_num [crampedBar]⟩
  rw [(updateThumbPosition_geometry crampedBar).2.1, newThumbSize_eq crampedBar 5]
  · norm_num [crampedBar]
  · rw [if_pos (by norm_num [crampedBar, Range.getLength])]
    exact hr

/-- C26 (amended): the thumb size after `updateThumbPosition`, for a total range of positive
length.  With `r` the rounded proportional size `round (visibleLength * thumbAreaSize /
totalLength)` and `m` the look-and-feel minimum: when `r` is at least `m` the thumb size is
`r` capped to the track size; when `r` is below `m` it is the smaller of `m` and
`thumbAreaSize - 1`.  So it is `min (max r m) thumbAreaSize` whenever `r >= m` or
`m < thumbAreaSize`, and it is `thumbAreaSize - 1` when `r < m` and `m >= thumbAreaSize`. -/
theorem updateThumbPosition_thumbSize (sb : ScrollBar) (htotal : sb.totalRange.getLength > 0) :
    (updateThumbPosition sb).thumbSize
        = (if roundToInt (sb.visibleRange.getLength * (sb.thumbAreaSize : ℚ)
              / sb.totalRange.getLength) < sb.minimumScrollbarThumbSize
           then min sb.minimumScrollbarThumbSize (sb.thumbAreaSize - 1)
           else min (roundToInt (sb.visibleRange.getLength * (sb.thumbAreaSize : ℚ)
              / sb.totalRange.getLength)) sb.thumbAreaSize)
      ∧ ((roundToInt (sb.visibleRange.getLength * (sb.thumbAreaSize : ℚ)
              / sb.totalRange.getLength) ≥ sb.minimumScrollbarThumbSize
            ∨ sb.minimumScrollbarThumbSize < sb.thumbAreaSize) →
          (updateThumbPosition sb).thumbSize
            = min (max (roundToInt (sb.visibleRange.getLength * (sb.thumbAreaSize : ℚ)
                / sb.totalRange.getLength)) sb.minimumScrollbarThumbSize) sb.thumbAreaSize)
      ∧ (roundToInt (sb.visibleRange.getLength * (sb.thumbAreaSize : ℚ)
              / sb.totalRange.getLength) < sb.minimumScrollbarThumbSize →
          sb.thumbAreaSize ≤ sb.minimumScrollbarThumbSize →
          (updateThumbPosition sb).thumbSize = sb.thumbAreaSize - 1) := by
  have hsize := newThumbSize_eq sb
    (roundToInt (sb.visibleRange.getLength * (sb.thumbAreaSize : ℚ) / sb.totalRange.getLength))
    (by rw [if_pos htotal])
  rw [(updateThumbPosition_geometry sb).2.1, hsize]
  generalize roundToInt (sb.visibleRange.getLength * (sb.thumbAreaSize : ℚ)
    / sb.totalRange.getLength) = r
  refine ⟨rfl, ?_, ?_⟩
  · intro h
    by_cases hlt : r < sb.minimumScrollbarThumbSize
    · rw [if_pos hlt]
      rcases h with h | h
      · omega
      · rw [max_eq_right (le_of_lt hlt), min_eq_left (by omega), min_eq_left (le_of_lt h)]
    · rw [if_neg hlt, max_eq_left (not_lt.mp hlt)]
  · intro hlt hle
    rw [if_pos hlt, min_eq_right (by omega)]

/-- C26 witness: on `longBar` (total range `[0, 100]`, visible range `[0, 10]`, a track of
200 pixels, minimum thumb size 0) the thumb size is 20. -/
theorem updateThumbPosition_thumbSize_witness :
    (updateThumbPosition longBar).thumbSize = 20 := by
  have h := (updateThumbPosition_thumbSize longBar
    (by norm_num [longBar, Range.getLength])).1
  rw [h]
  norm_num [longBar, Range.getLength, roundToInt]

/-- C27: the thumb never leaves its track.  Whenever the visible range lies inside the total
range, after `updateThumbPosition` the thumb starts at or after the start of the track and
ends at or before its end, and the track is the one before the call. -/
theorem updateThumbPosition_thumb_in_track (sb : ScrollBar) (hwithin : visibleWithinTotal sb) :
    (updateThumbPosition sb).thumbAreaStart ≤ (updateThumbPosition sb).thumbStart
      ∧ (updateThumbPosition sb).thumbStart + (updateThumbPosition sb).thumbSize
          ≤ (updateThumbPosition sb).thumbAreaStart + (updateThumbPosition sb).thumbAreaSize
      ∧ (updateThumbPosition sb).thumbAreaStart = sb.thumbAreaStart
      ∧ (updateThumbPosition sb).thumbAreaSize = sb.thumbAreaSize := by
  obtain ⟨h1, h2, h3, h4⟩ := updateThumbPosition_geometry sb
  rw [h1, h2, h3, h4]
  have hsize := newThumbSize_le sb
  refine ⟨?_, ?_, rfl, rfl⟩
  · unfold newThumbStart
    split_ifs with hlen
    · have hx : 0 ≤ ((sb.visibleRange.start - sb.totalRange.start)
            * ((sb.thumbAreaSize - newThumbSize sb : ℤ) : ℚ))
          / (sb.totalRange.getLength - sb.visibleRange.getLength) := by
        apply div_nonneg
        · apply mul_nonneg
          · linarith [hwithin.1]
          · exact_mod_cast (by omega : (0 : ℤ) ≤ sb.thumbAreaSize - newThumbSize sb)
        · linarith
      have := roundToInt_nonneg hx
      omega
    · exact le_refl _
  · unfold newThumbStart
    split_ifs with hlen
    · have hpos : 0 < sb.totalRange.getLength - sb.visibleRange.getLength := by linarith
      have hgap : (0 : ℚ) ≤ ((sb.thumbAreaSize - newThumbSize sb : ℤ) : ℚ) := by
        exact_mod_cast (by omega : (0 : ℤ) ≤ sb.thumbAreaSize - newThumbSize sb)
      have hx : ((sb.visibleRange.start - sb.totalRange.start)
            * ((sb.thumbAreaSize - newThumbSize sb : ℤ) : ℚ))
          / (sb.totalRange.getLength - sb.visibleRange.getLength)
          ≤ ((sb.thumbAreaSize - newThumbSize sb : ℤ) : ℚ) := by
        rw [div_le_iff₀ hpos]
        have hle : sb.visibleRange.start - sb.totalRange.start
            ≤ sb.totalRange.getLength - sb.visibleRange.getLength := by
          unfold Range.getLength
          linarith [hwithin.2]
        calc (sb.visibleRange.start - sb.totalRange.start)
              * ((sb.thumbAreaSize - newThumbSize sb : ℤ) : ℚ)
            ≤ (sb.totalRange.getLength - sb.visibleRange.getLength)
              * ((sb.thumbAreaSize - newThumbSize sb : ℤ) : ℚ) :=
              mul_le_mul_of_nonneg_right hle hgap
          _ = ((sb.thumbAreaSize - newThumbSize sb : ℤ) : ℚ)
              * (sb.totalRange.getLength - sb.visibleRange.getLength) := mul_comm _ _
      have := roundToInt_le hx
      omega
    · omega

/-- C27 witness: on `longBar`, whose visible range `[0, 10]` lies inside `[0, 100]`, the
thumb that `updateThumbPosition` leaves lies inside the track. -/
theorem updateThumbPosition_thumb_in_track_witness :
    longBar.thumbAreaStart ≤ (updateThumbPosition longBar).thumbStart
      ∧ (updateThumbPosition longBar).thumbStart + (updateThumbPosition longBar).thumbSize
          ≤ longBar.thumbAreaStart + longBar.thumbAreaSize := by
  obtain ⟨h1, h2, h3, h4⟩ := updateThumbPosition_thumb_in_track longBar
    (by norm_num [visibleWithinTotal, longBar])
  rw [h3] at h1
  rw [h3, h4] at h2
  exact ⟨h1, h2⟩

end ScrollBar
namespace ScrollBar

/-! ## C28: paging by a press outside the thumb and by the timer -/

theorem shifted_neg_page (r : Range) :
    r.shifted (((-1 : ℤ) : ℚ) * r.getLength) = r.shifted (-r.getLength) := by
  rw [Int.cast_neg, Int.cast_one, neg_one_mul]

theorem movedToStartAt_end (r : Range) :
    r.movedToStartAt r.end_ = r.shifted (((1 : ℤ) : ℚ) * r.getLength) := by
  rw [Range.eq_iff]
  unfold Range.movedToStartAt Range.shifted Range.getLength
  simp only [Int.cast_one, one_mul]
  exact ⟨by ring, trivial⟩

/-- C28: the timer callback does not agree with the press at the end of the thumb.
`longBarPressed` is `longBar` after a press at the pixel 40, which is at or after the end of
the thumb and pages forward.  Afterwards the thumb ends at the pixel 40 exactly, so the
pointer is still at or after the end of the thumb, where a press pages forward (the last
part: a second press there moves the visible range on to `[20, 30]`); but the timer callback
with the button down only re-arms the timer at 40 ms and does not page: it tests
`lastMousePos > thumbStart + thumbSize` where `mouseDown` tests `>=`. -/
theorem timerCallback_no_paging_at_thumb_end :
    mouseDown longBar { x := 40, y := 0 } = longBarPressed
      ∧ longBarPressed.lastMousePos ≥ longBarPressed.thumbStart + longBarPressed.thumbSize
      ∧ timerCallback longBarPressed true = startTimer longBarPressed 40
      ∧ (timerCallback longBarPressed true).visibleRange = { start := 10, end_ := 20 }
      ∧ (mouseDown longBarPressed { x := 40, y := 0 }).visibleRange
          = { start := 20, end_ := 30 } := by
  have h1 : mouseDown longBar { x := 40, y := 0 } = longBarPressed := by
    norm_num +decide [mouseDown, longBar, longBarPressed, startTimer, moveScrollbarInPages,
      setCurrentRange, Range.shifted, Range.getLength, Range.constrainRange,
      Range.movedToStartAt, jlimit, triggerAsyncUpdate, updateThumbPosition, roundToInt]
  have h3 : timerCallback longBarPressed true = startTimer longBarPressed 40 := by
    norm_num +decide [timerCallback, longBarPressed, longBar, startTimer]
  refine ⟨h1, by norm_num [longBarPressed, longBar], h3, ?_, ?_⟩
  · rw [h3]
    rfl
  · norm_num +decide [mouseDown, longBar, longBarPressed, startTimer, moveScrollbarInPages,
      setCurrentRange, Range.shifted, Range.getLength, Range.constrainRange,
      Range.movedToStartAt, jlimit, triggerAsyncUpdate, updateThumbPosition, roundToInt]

/-- What a press and a timer callback do, for every scroll bar state.  A press before the
thumb pages backward; a press at or after the end of a thumb of non-negative size pages
forward; both start the timer at 400 ms.  A timer callback with the button down re-arms the
timer at 40 ms; it pages backward when the last mouse position is before the thumb, forward
when it is strictly after the end of the thumb, and not at all when it is on the thumb or
exactly at its end. -/
theorem paging_by_press_and_timer (sb : ScrollBar) (e : MouseEvent) :
    ((if sb.vertical then e.y else e.x) < sb.thumbStart →
        mouseDown sb e = startTimer (moveScrollbarInPages
          { sb with isDraggingThumb := false
                    lastMousePos := if sb.vertical then e.y else e.x
                    dragStartMousePos := if sb.vertical then e.y else e.x
                    dragStartRange := sb.visibleRange.start } (-1)) 400)
      ∧ (0 ≤ sb.thumbSize → (if sb.vertical then e.y else e.x) ≥ sb.thumbStart + sb.thumbSize →
        mouseDown sb e = startTimer (moveScrollbarInPages
          { sb with isDraggingThumb := false
                    lastMousePos := if sb.vertical then e.y else e.x
                    dragStartMousePos := if sb.vertical then e.y else e.x
                    dragStartRange := sb.visibleRange.start } 1) 400)
      ∧ (timerCallback sb true).timer = some 40
      ∧ (sb.lastMousePos < sb.thumbStart →
          timerCallback sb true = moveScrollbarInPages (startTimer sb 40) (-1))
      ∧ (sb.thumbStart ≤ sb.lastMousePos → sb.lastMousePos > sb.thumbStart + sb.thumbSize →
          timerCallback sb true = moveScrollbarInPages (startTimer sb 40) 1)
      ∧ (sb.thumbStart ≤ sb.lastMousePos → sb.lastMousePos ≤ sb.thumbStart + sb.thumbSize →
          timerCallback sb true = startTimer sb 40) := by
  have htimer : ∀ (t : ScrollBar) (r : Range), t.timer = some 40 →
      (setCurrentRange t r).timer = some 40 := by
    intro t r ht
    unfold setCurrentRange triggerAsyncUpdate updateThumbPosition
    simp only
    split_ifs <;> exact ht
  refine ⟨?_, ?_, ?_, ?_, ?_, ?_⟩
  · intro h
    unfold mouseDown
    simp only
    rw [if_pos h]
  · intro hsize h
    unfold mouseDown
    simp only
    rw [if_neg (by omega), if_pos h]
  · unfold timerCallback
    simp only [if_true]
    split_ifs
    · exact htimer _ _ rfl
    · exact htimer _ _ rfl
    · rfl
  · intro h
    unfold timerCallback
    simp only [if_true]
    rw [if_pos (by exact h)]
    unfold moveScrollbarInPages
    rw [shifted_neg_page]
  · intro hge h
    unfold timerCallback
    simp only [if_true]
    rw [if_neg (by show ¬ sb.lastMousePos < sb.thumbStart; omega), if_pos (by exact h)]
    unfold moveScrollbarInPages setCurrentRangeStart
    rw [movedToStartAt_end]
  · intro hge h
    unfold timerCallback
    simp only [if_true]
    rw [if_neg (by show ¬ sb.lastMousePos < sb.thumbStart; omega),
      if_neg (by show ¬ sb.lastMousePos > sb.thumbStart + sb.thumbSize; omega)]

end ScrollBar
